import Mathlib

/-! DonutMiner: wallet adapter and bounded-retry submission

A shallow embedding of `js/walletProvider.js` and of the submission helper of
`js/blockchain.js`.

* The module variables of `walletProvider.js` (`currentWalletType`,
  `ethereumProvider`, `currentAddress`) form the `Session` record.
* Asynchronous functions become state-passing functions on a `World`
  (session plus the chronological trace of observable effects) that return
  `Except JSError α × World`: `.error e` is a rejected promise / thrown
  exception, `.ok v` a fulfilled one.
* The wallet provider object is an oracle `Env.respond`: the reply to a
  request depends on the provider, on how many requests were issued before
  it, and on the request itself.
* `console.log` / `console.error` output is not part of the model; the read
  `error.message` among its arguments is, where the caught value comes from
  the Farcaster SDK and may be `null` or `undefined`.
* The page around the adapter (browser globals, Farcaster SDK, remote API,
  DOM nodes, `parseFloat` / `toFixed`) is a second oracle, `Host`; the game
  state `State.blockchainData` is a list of properties, and `App` pairs it
  with the `World`. DOM writes, alerts, API requests and scheduled refreshes
  are effects of the trace.
* Each function runs from start to end without another task of the event
  loop stepping in at an `await`.
* JavaScript strings are compared as sequences of Unicode code points; the
  three retry patterns are ASCII, so substring tests agree with the UTF-16
  ones of the browser.
-/

namespace DonutMiner

/-! ## JavaScript values -/

/-- The JavaScript values that reach the adapter: `null`, `undefined`, a
string (an address, a transaction hash) or an array of strings (an account
list). -/
inductive JSVal where
  | null
  | undefined
  | str (s : String)
  | arr (xs : List String)
  deriving DecidableEq, Repr

/-- An `Error` object: its `name` and its `message`. -/
structure JSError where
  name : String
  message : String
  deriving DecidableEq, Repr

/-- The `TypeError` raised when a property of `null` / `undefined` is read. -/
def typeErrorNullish : JSError :=
  ⟨"TypeError", "Cannot read properties of null or undefined"⟩

namespace JSVal

/-- JavaScript truthiness (`if (v)`, `!v`, `v && ...`). -/
def truthy : JSVal → Bool
  | null => false
  | undefined => false
  | str s => s != ""
  | arr _ => true

/-- The expression `v.length`: throws on `null` / `undefined`. -/
def length : JSVal → Except JSError Nat
  | null => .error typeErrorNullish
  | undefined => .error typeErrorNullish
  | str s => .ok s.data.length
  | arr xs => .ok xs.length

/-- The expression `v[0]`: throws on `null` / `undefined`, is `undefined`
past the end. -/
def index0 : JSVal → Except JSError JSVal
  | null => .error typeErrorNullish
  | undefined => .error typeErrorNullish
  | str s =>
    match s.data with
    | [] => .ok undefined
    | c :: _ => .ok (str (String.singleton c))
  | arr [] => .ok undefined
  | arr (a :: _) => .ok (str a)

end JSVal

/-- Substring test on character lists. -/
def includesChars : List Char → List Char → Bool
  | [], pat => pat.isEmpty
  | c :: cs, pat => pat.isPrefixOf (c :: cs) || includesChars cs pat

/-- The method `String.prototype.includes` (case-sensitive). -/
def includes (s pat : String) : Bool :=
  includesChars s.data pat.data

/-! ## Values of the game-state side -/

/-- A JavaScript number: `NaN`, an infinity, or a finite value (every finite
double is a rational; `-0` and `0` compare equal and are both `fin 0`). -/
inductive JSNumber where
  | nan
  | negInf
  | fin (q : ℚ)
  | posInf
  deriving DecidableEq, Repr

/-- The comparison `x < y` of two numbers: false as soon as one is `NaN`. -/
def JSNumber.lt : JSNumber → JSNumber → Bool
  | JSNumber.fin a, JSNumber.fin b => decide (a < b)
  | JSNumber.negInf, JSNumber.fin _ => true
  | JSNumber.negInf, JSNumber.posInf => true
  | JSNumber.fin _, JSNumber.posInf => true
  | _, _ => false

/-- A value without tracked properties: a primitive, an array of strings, or
`other`, any other array or object the client never looks into. -/
inductive Atom where
  | null
  | undefined
  | bool (b : Bool)
  | num (x : JSNumber)
  | str (s : String)
  | arr (xs : List String)
  | other (id : Nat)
  deriving DecidableEq, Repr

/-- JavaScript truthiness of an atom. -/
def Atom.truthy : Atom → Bool
  | Atom.null => false
  | Atom.undefined => false
  | Atom.bool b => b
  | Atom.num x => x != JSNumber.nan && x != JSNumber.fin 0
  | Atom.str s => s != ""
  | Atom.arr _ => true
  | Atom.other _ => true

/-- A wallet-side value seen from the game-state side. -/
def JSVal.toAtom : JSVal → Atom
  | JSVal.null => Atom.null
  | JSVal.undefined => Atom.undefined
  | JSVal.str s => Atom.str s
  | JSVal.arr xs => Atom.arr xs

/-- A value of the game state or of a server response: an atom, or an object
whose properties hold atoms (`blaze`, `params`, `user`). -/
inductive Value where
  | atom (a : Atom)
  | obj (props : List (String × Atom))
  deriving DecidableEq, Repr

/-- The assignment `o.k = v` on a list of properties: the property is
replaced in place, or added at the end. -/
def assocSet {α : Type} (props : List (String × α)) (k : String) (v : α) : List (String × α) :=
  if (props.lookup k).isSome then props.map fun kv => if kv.1 == k then (kv.1, v) else kv
  else props ++ [(k, v)]

/-- The call `Object.assign(target, src)` on lists of properties: every
property of `src` is written to `target`, in order. -/
def assocAssign {α : Type} (target src : List (String × α)) : List (String × α) :=
  src.foldl (fun t kv => assocSet t kv.1 kv.2) target

/-- An object as its list of properties; a property is looked up from the
front, and property names are meant to be distinct. -/
abbrev Record := List (String × Value)

namespace Value

/-- JavaScript truthiness of a value: every object is truthy. -/
def truthy : Value → Bool
  | atom a => a.truthy
  | obj _ => true

/-- The expression `v.k` for one of the property names the client reads:
throws on `null` / `undefined`, is `undefined` when the property is absent. -/
def prop (v : Value) (k : String) : Except JSError Atom :=
  match v with
  | atom Atom.null => .error typeErrorNullish
  | atom Atom.undefined => .error typeErrorNullish
  | atom _ => .ok Atom.undefined
  | obj props => .ok ((props.lookup k).getD Atom.undefined)

/-- The assignment `v.k = a` in strict mode: throws on `null` / `undefined`
and on a primitive, replaces or adds the property of an object; extra
properties of arrays and of `other` objects are not tracked. -/
def setProp (v : Value) (k : String) (a : Atom) : Except JSError Value :=
  match v with
  | atom Atom.null => .error typeErrorNullish
  | atom Atom.undefined => .error typeErrorNullish
  | atom (Atom.bool _) => .error ⟨"TypeError", "Cannot create property on primitive"⟩
  | atom (Atom.num _) => .error ⟨"TypeError", "Cannot create property on primitive"⟩
  | atom (Atom.str _) => .error ⟨"TypeError", "Cannot create property on primitive"⟩
  | atom (Atom.arr xs) => .ok (atom (Atom.arr xs))
  | atom (Atom.other id) => .ok (atom (Atom.other id))
  | obj props => .ok (obj (assocSet props k a))

end Value

namespace Record

/-- The expression `r.k`: `undefined` when the property is absent. -/
def get (r : Record) (k : String) : Value :=
  (r.lookup k).getD (Value.atom Atom.undefined)

/-- The assignment `r.k = v`. -/
def set (r : Record) (k : String) (v : Value) : Record :=
  assocSet r k v

/-- The call `Object.assign(target, src)`. -/
def assign (target src : Record) : Record :=
  assocAssign target src

end Record

deriving instance DecidableEq for Except

/-! ## Wallet session, provider oracle, effect trace -/

/-- The constant `WALLET_TYPES`. -/
inductive WalletType where
  | farcaster
  | metamask
  | none
  deriving DecidableEq, Repr

/-- The provider objects `ethereumProvider` can refer to: the one handed out
by `FarcasterSDK.wallet.getEthereumProvider()` and `window.ethereum`. -/
inductive ProviderRef where
  | farcasterProvider
  | windowEthereum
  deriving DecidableEq, Repr

/-- The object literal `txParams`; `from_` and `to_` are its fields `from`
and `to`. -/
structure TxParams where
  from_ : Value
  to_ : Value
  data : Value
  value : Value
  deriving DecidableEq, Repr

/-- The argument of `ethereumProvider.request`. -/
inductive Method where
  | eth_requestAccounts
  | eth_accounts
  | eth_sendTransaction (txParams : TxParams)
  deriving DecidableEq, Repr

/-- What awaiting `ethereumProvider.request(...)` gives. -/
inductive Reply where
  | throws (error : JSError)
  | returns (value : JSVal)
  deriving DecidableEq, Repr

/-- The events a provider emits to listeners registered with `on`. -/
inductive EventName where
  | accountsChanged
  | chainChanged
  deriving DecidableEq, Repr

/-- The routes of the remote API: `/api/get-game-state`, `/api/transaction`,
`/api/approve-lp` and `/api/blaze-transaction`. -/
inductive Endpoint where
  | getGameState
  | transaction
  | approveLp
  | blazeTransaction
  deriving DecidableEq, Repr

/-- The DOM nodes the modelled functions write to: `dom.profileName`,
`dom.connectWalletButton` and four nodes of `dom.glazery`. -/
inductive ElementId where
  | profileName
  | connectWalletButton
  | blazePrice
  | blazeClaimAmount
  | blazeAvailableBalance
  | blazeActionButton
  deriving DecidableEq, Repr

/-- Observable effects, in the order they happen. `sendTransactionCall` marks
each entry into `WalletProvider.sendTransaction`.

* `sdkReady`, `sdkGetEthereumProvider`, `sdkContext`: the calls
  `FarcasterSDK.actions.ready()`, `FarcasterSDK.wallet.getEthereumProvider()`
  and the read of `FarcasterSDK.context`;
* `fetch endpoint player`: a `GET` of the route, with the value interpolated
  after `?player=` / `?userAddress=` when there is one;
* `alert message`: the call `alert(message)`;
* `setTimeout ms`: the refresh callback
  `() => fetchGameState(State.blockchainData.userAddress)` is scheduled to
  run after `ms` milliseconds;
* `setDonutSpinSpeed`: the call `Scene.setDonutSpinSpeed(0.5)`;
* `updateUI`: the call `UI.updateUI(dom)`;
* `setText`, `setDisabled`, `showElement`, `hideElement`: the writes
  `el.textContent = text`, `el.disabled = flag`,
  `el.classList.remove('hidden')` and `el.classList.add('hidden')`. -/
inductive Event where
  | sendTransactionCall (txParams : TxParams)
  | request (provider : ProviderRef) (method : Method)
  | delay (ms : Nat)
  | subscribe (provider : ProviderRef) (event : EventName)
  | reload
  | sdkReady
  | sdkGetEthereumProvider
  | sdkContext
  | fetch (endpoint : Endpoint) (player : Option Value)
  | alert (message : String)
  | setTimeout (ms : Nat)
  | setDonutSpinSpeed
  | updateUI
  | setText (el : ElementId) (text : String)
  | setDisabled (el : ElementId) (flag : Bool)
  | showElement (el : ElementId)
  | hideElement (el : ElementId)
  deriving DecidableEq, Repr

/-- The private state of `walletProvider.js`. -/
structure Session where
  currentWalletType : WalletType
  ethereumProvider : Option ProviderRef
  currentAddress : JSVal
  deriving DecidableEq, Repr

/-- Session and effect trace. -/
structure World where
  session : Session
  trace : List Event
  deriving DecidableEq, Repr

/-- The behaviour of the provider objects: `respond p n m` is the reply of
provider `p` to request `m` when `n` requests were issued before it. -/
structure Env where
  respond : ProviderRef → Nat → Method → Reply

/-- Number of provider requests in a trace. -/
def requestCount : List Event → Nat
  | [] => 0
  | Event.request _ _ :: t => requestCount t + 1
  | _ :: t => requestCount t

/-- Number of entries into `WalletProvider.sendTransaction` in a trace. -/
def attemptCount : List Event → Nat
  | [] => 0
  | Event.sendTransactionCall _ :: t => attemptCount t + 1
  | _ :: t => attemptCount t

/-- The awaited delays of a trace, in order. -/
def delaysOf : List Event → List Nat
  | [] => []
  | Event.delay ms :: t => ms :: delaysOf t
  | _ :: t => delaysOf t

/-- Number of listeners registered on provider `p` for event `ev`. -/
def listenerCount (p : ProviderRef) (ev : EventName) : List Event → Nat
  | [] => 0
  | Event.subscribe q e :: t =>
    if q = p ∧ e = ev then listenerCount p ev t + 1 else listenerCount p ev t
  | _ :: t => listenerCount p ev t

namespace World

/-- Append an effect to the trace. -/
def record (w : World) (e : Event) : World :=
  { w with trace := w.trace ++ [e] }

/-- The assignment `currentAddress = v`. -/
def setAddress (w : World) (v : JSVal) : World :=
  { w with session := { w.session with currentAddress := v } }

end World

/-- One awaited `ethereumProvider.request({ method, params })`. -/
def request (env : Env) (p : ProviderRef) (m : Method) (w : World) : Reply × World :=
  (env.respond p (requestCount w.trace) m, w.record (Event.request p m))

/-! ## walletProvider.js -/

namespace WalletProvider

/-- The function `sendTransaction(txParams)`. -/
def sendTransaction (env : Env) (txParams : TxParams) (w : World) :
    Except JSError JSVal × World :=
  let w0 := w.record (Event.sendTransactionCall txParams)
  match w0.session.ethereumProvider with
  | none => (.error ⟨"Error", "No wallet provider available"⟩, w0)
  | some p =>
    if !w0.session.currentAddress.truthy then
      (.error ⟨"Error", "Wallet not connected"⟩, w0)
    else
      match request env p (Method.eth_sendTransaction txParams) w0 with
      | (Reply.returns txHash, w1) => (.ok txHash, w1)
      | (Reply.throws error, w1) => (.error error, w1)

/-- The function `getAddress()`. Every exception raised inside its `try`
block is caught and turned into `null`. -/
def getAddress (env : Env) (w : World) : Except JSError JSVal × World :=
  match w.session.ethereumProvider with
  | none => (.ok JSVal.null, w)
  | some p =>
    match w.session.currentWalletType with
    | WalletType.farcaster =>
      match request env p Method.eth_requestAccounts w with
      | (Reply.throws _, w1) => (.ok JSVal.null, w1)
      | (Reply.returns accounts, w1) =>
        match accounts.index0 with
        | .error _ => (.ok JSVal.null, w1)
        | .ok a => (.ok a, w1.setAddress a)
    | WalletType.metamask =>
      if !w.session.currentAddress.truthy then
        match request env p Method.eth_accounts w with
        | (Reply.throws _, w1) => (.ok JSVal.null, w1)
        | (Reply.returns accounts, w1) =>
          if accounts.truthy then
            match accounts.length with
            | .error _ => (.ok JSVal.null, w1)
            | .ok n =>
              if n > 0 then
                match accounts.index0 with
                | .error _ => (.ok JSVal.null, w1)
                | .ok a => (.ok a, w1.setAddress a)
              else (.ok w1.session.currentAddress, w1)
          else (.ok w1.session.currentAddress, w1)
      else (.ok w.session.currentAddress, w)
    | WalletType.none => (.ok JSVal.null, w)

/-- The function `connectMetaMask()`. Its `catch` block rethrows; when the
account list is empty or missing the function ends without `return`. -/
def connectMetaMask (env : Env) (w : World) : Except JSError JSVal × World :=
  if w.session.currentWalletType ≠ WalletType.metamask then
    (.error ⟨"Error", "MetaMask not available"⟩, w)
  else
    match w.session.ethereumProvider with
    | none => (.error typeErrorNullish, w)
    | some p =>
      match request env p Method.eth_requestAccounts w with
      | (Reply.throws error, w1) => (.error error, w1)
      | (Reply.returns accounts, w1) =>
        if accounts.truthy then
          match accounts.length with
          | .error error => (.error error, w1)
          | .ok n =>
            if n > 0 then
              match accounts.index0 with
              | .error error => (.error error, w1)
              | .ok a =>
                let w2 := w1.setAddress a
                let w3 := w2.record (Event.subscribe p EventName.accountsChanged)
                let w4 := w3.record (Event.subscribe p EventName.chainChanged)
                (.ok w4.session.currentAddress, w4)
            else (.ok JSVal.undefined, w1)
        else (.ok JSVal.undefined, w1)

/-- The `accountsChanged` listener registered by `connectMetaMask`. -/
def onAccountsChanged (accounts : JSVal) (w : World) : Except JSError Unit × World :=
  match accounts.length with
  | .error e => (.error e, w)
  | .ok n =>
    if n > 0 then
      match accounts.index0 with
      | .error e => (.error e, w)
      | .ok a => (.ok (), (w.setAddress a).record Event.reload)
    else (.ok (), w.setAddress JSVal.null)

/-- The `chainChanged` listener registered by `connectMetaMask`. -/
def onChainChanged (w : World) : Except JSError Unit × World :=
  (.ok (), w.record Event.reload)

/-- The listener of `connectMetaMask` for event `ev`. -/
def listener (ev : EventName) (payload : JSVal) (w : World) : World :=
  match ev with
  | EventName.accountsChanged => (onAccountsChanged payload w).2
  | EventName.chainChanged => (onChainChanged w).2

/-- Run a listener `n` times in a row. -/
def runListeners (ev : EventName) (payload : JSVal) : Nat → World → World
  | 0, w => w
  | n + 1, w => runListeners ev payload n (listener ev payload w)

/-- Provider `p` emits event `ev` with `payload`: every listener registered
on `p` for `ev` runs once, in registration order. -/
def emit (p : ProviderRef) (ev : EventName) (payload : JSVal) (w : World) : World :=
  runListeners ev payload (listenerCount p ev w.trace) w

/-- The function `getWalletType()`. -/
def getWalletType (w : World) : WalletType :=
  w.session.currentWalletType

/-- The function `isConnected()`: `currentAddress !== null`. -/
def isConnected (w : World) : Bool :=
  w.session.currentAddress != JSVal.null

/-- The function `needsManualConnection()`. -/
def needsManualConnection (w : World) : Bool :=
  w.session.currentWalletType == WalletType.metamask && !w.session.currentAddress.truthy

end WalletProvider

/-! ## blockchain.js: submission with bounded retry -/

namespace Blockchain

/-- The test `isRetryable` of `sendTxWithRetry`. -/
def isRetryable (error : JSError) : Bool :=
  includes error.message "timeout" ||
  includes error.message "Queue is full" ||
  includes error.message "JSON RPC"

/-- The `for` loop of `sendTxWithRetry`: `fuel` iterations remain and the
loop variable is `i`. Leaving the loop returns `undefined`. -/
def sendTxLoop (env : Env) (txParams : TxParams) (maxAttempts delay : Nat) :
    Nat → Nat → World → Except JSError JSVal × World
  | 0, _, w => (.ok JSVal.undefined, w)
  | fuel + 1, i, w =>
    let w0 := if i > 0 then w.record (Event.delay delay) else w
    match WalletProvider.sendTransaction env txParams w0 with
    | (.ok txHash, w1) => (.ok txHash, w1)
    | (.error error, w1) =>
      if !isRetryable error || (i : Int) == (maxAttempts : Int) - 1 then
        (.error error, w1)
      else sendTxLoop env txParams maxAttempts delay fuel (i + 1) w1

/-- The function `sendTxWithRetry(txParams, maxAttempts, delay)`: the loop
runs for `i = 0, ..., maxAttempts - 1`. -/
def sendTxWithRetry (env : Env) (txParams : TxParams) (maxAttempts delay : Nat)
    (w : World) : Except JSError JSVal × World :=
  sendTxLoop env txParams maxAttempts delay maxAttempts 0 w

/-- The call `sendTxWithRetry(txParams)` with the default `maxAttempts = 3`
and `delay = 500`. -/
def sendTxWithRetryDefault (env : Env) (txParams : TxParams) (w : World) :
    Except JSError JSVal × World :=
  sendTxWithRetry env txParams 3 500 w

end Blockchain

/-! ## The page around the adapter -/

/-- What `await fetch(url, ...)` resolves to: the flag `ok`, the `status`,
and what `json()` and `text()` give (a parsed body is a JSON object). -/
structure FetchResponse where
  ok : Bool
  status : Nat
  json : Except JSError Record
  text : Except JSError String

/-- What awaiting `fetch(url, ...)` gives. -/
inductive FetchReply where
  | rejects (error : JSError)
  | resolves (response : FetchResponse)

/-- A value that a rejected promise of the Farcaster SDK carries, as a
`catch (error)` block receives it: an `Error` object, `null`, `undefined`, or
any other value (one without a `message`). -/
inductive Thrown where
  | error (e : JSError)
  | null
  | undefined
  | other
  deriving DecidableEq, Repr

/-- The expression `error.message` in a `catch (error)` block: throws on
`null` / `undefined`; `none` is `undefined`. -/
def Thrown.message : Thrown → Except JSError (Option String)
  | Thrown.error e => .ok (some e.message)
  | Thrown.null => .error typeErrorNullish
  | Thrown.undefined => .error typeErrorNullish
  | Thrown.other => .ok none

/-- The value of `window.ethereum`: `undefined`, `null`, or any other value,
of which only the truthiness of its `isMetaMask` is read. -/
inductive WindowEthereum where
  | undefined
  | null
  | object (isMetaMask : Bool)
  deriving DecidableEq, Repr

/-- The browser, the Farcaster SDK, the remote API and the page, as far as
the modelled code consults them.

* `windowDefined`: `typeof window !== 'undefined'`; `framed`:
  `window.location !== window.parent.location`; `userAgent`, `windowName`:
  `navigator.userAgent`, `window.name`;
* `ethereum`: the value of `window.ethereum`;
* `sdkReady`: `none` when `FarcasterSDK.actions.ready()` resolves, the value
  it rejects with otherwise; `sdkProvider`: what `getEthereumProvider()`
  gives (`none` for `null` / `undefined`) or rejects with; `sdkContext`: what
  `FarcasterSDK.context` gives or rejects with;
* `fetch n endpoint player`: the outcome of the request when `n` requests
  were sent before;
* `parseFloat`, `toFixed digits`: the built-ins of that name;
* `updateUI state`: `none` when `UI.updateUI(dom)` runs through on that game
  state, the error when it throws; the nodes it writes are outside the model;
* `hasElement el`: the node `el` exists (`document.getElementById` found
  it). -/
structure Host where
  windowDefined : Bool
  framed : Bool
  userAgent : String
  windowName : String
  ethereum : WindowEthereum
  sdkReady : Option Thrown
  sdkProvider : Except Thrown (Option ProviderRef)
  sdkContext : Except Thrown (Option Record)
  fetch : Nat → Endpoint → Option Value → FetchReply
  parseFloat : Atom → JSNumber
  toFixed : Nat → JSNumber → String
  updateUI : Record → Option JSError
  hasElement : ElementId → Bool

/-- Number of requests sent to the remote API in a trace. -/
def fetchCount : List Event → Nat
  | [] => 0
  | Event.fetch _ _ :: t => fetchCount t + 1
  | _ :: t => fetchCount t

/-- The requests sent to the remote API in a trace, in order. -/
def fetchesOf : List Event → List (Endpoint × Option Value)
  | [] => []
  | Event.fetch endpoint player :: t => (endpoint, player) :: fetchesOf t
  | _ :: t => fetchesOf t

/-- The delays of the refreshes scheduled in a trace, in order. -/
def timersOf : List Event → List Nat
  | [] => []
  | Event.setTimeout ms :: t => ms :: timersOf t
  | _ :: t => timersOf t

/-- The messages shown with `alert` in a trace, in order. -/
def alertsOf : List Event → List String
  | [] => []
  | Event.alert message :: t => message :: alertsOf t
  | _ :: t => alertsOf t

namespace WalletProvider

/-- The function `isFarcasterEnvironment()`. -/
def isFarcasterEnvironment (host : Host) : Bool :=
  host.windowDefined &&
    (host.framed || includes host.userAgent "Farcaster" || host.windowName == "farcaster")

/-- The function `isMetaMaskAvailable()`, by the truthiness of what it
returns. `typeof null` is `'object'`, so on `window.ethereum === null` the
read of `isMetaMask` throws. -/
def isMetaMaskAvailable (host : Host) : Except JSError Bool :=
  if !host.windowDefined then .ok false
  else
    match host.ethereum with
    | WindowEthereum.undefined => .ok false
    | WindowEthereum.null => .error typeErrorNullish
    | WindowEthereum.object isMetaMask => .ok isMetaMask

/-- The object `initializeWallet` returns; `needsConnection` is `none` when
the property is absent. -/
structure InitResult where
  type : WalletType
  success : Bool
  needsConnection : Option Bool
  deriving DecidableEq, Repr

/-- The tail of `initializeWallet`, from `// Fall back to MetaMask if
available` on. It is outside the `try`: what `isMetaMaskAvailable()` throws
leaves `initializeWallet`. -/
def initializeWalletFallback (host : Host) (w : World) : Except JSError InitResult × World :=
  match isMetaMaskAvailable host with
  | .error e => (.error e, w)
  | .ok true =>
    (.ok ⟨WalletType.metamask, true, some true⟩,
      { w with session := { w.session with
          ethereumProvider := some ProviderRef.windowEthereum,
          currentWalletType := WalletType.metamask } })
  | .ok false => (.ok ⟨WalletType.none, false, none⟩, w)

/-- The function `initializeWallet()`. A rejection of the handshake is
caught; the `catch` block logs `error.message`, and when that read throws the
exception leaves `initializeWallet`; otherwise execution goes on after the
`if`. -/
def initializeWallet (host : Host) (w : World) : Except JSError InitResult × World :=
  if isFarcasterEnvironment host then
    let w1 := w.record Event.sdkReady
    match host.sdkReady with
    | some error =>
      match error.message with
      | .error e => (.error e, w1)
      | .ok _ => initializeWalletFallback host w1
    | none =>
      let w2 := w1.record Event.sdkGetEthereumProvider
      match host.sdkProvider with
      | .error error =>
        match error.message with
        | .error e => (.error e, w2)
        | .ok _ => initializeWalletFallback host w2
      | .ok provider =>
        let w3 : World := { w2 with session := { w2.session with ethereumProvider := provider } }
        match provider with
        | some _ =>
          (.ok ⟨WalletType.farcaster, true, none⟩,
            { w3 with session := { w3.session with currentWalletType := WalletType.farcaster } })
        | none => initializeWalletFallback host w3
  else initializeWalletFallback host w

/-- The function `getFarcasterContext()`; `none` is `null` / `undefined`.
Its `catch` block logs `error.message`; when that read throws, the exception
leaves the function. -/
def getFarcasterContext (host : Host) (w : World) : Except JSError (Option Record) × World :=
  if w.session.currentWalletType ≠ WalletType.farcaster then (.ok none, w)
  else
    match host.sdkContext with
    | .ok context => (.ok context, w.record Event.sdkContext)
    | .error error =>
      match error.message with
      | .error e => (.error e, w.record Event.sdkContext)
      | .ok _ => (.ok none, w.record Event.sdkContext)

end WalletProvider

/-- The whole client state: the wallet session with the effect trace, and
the object `State.blockchainData` of `state.js`. -/
structure App where
  world : World
  blockchainData : Record

namespace App

/-- Append an effect to the trace. -/
def record (app : App) (e : Event) : App :=
  { app with world := app.world.record e }

/-- The assignment `State.blockchainData.k = v`. -/
def setData (app : App) (k : String) (v : Value) : App :=
  { app with blockchainData := app.blockchainData.set k v }

end App

/-- One awaited `fetch` of a route of the remote API. -/
def fetch (host : Host) (endpoint : Endpoint) (player : Option Value) (app : App) :
    FetchReply × App :=
  (host.fetch (fetchCount app.world.trace) endpoint player,
    app.record (Event.fetch endpoint player))

/-! ## ui.js -/

namespace UI

/-- The function `updateBlazeryUI(dom)`. The property reads follow the test
that `blaze` is truthy, so none of them throws (the last branch of the match
is not reached). -/
def updateBlazeryUI (host : Host) (app : App) : App :=
  let blaze := app.blockchainData.get "blaze"
  if !blaze.truthy then app
  else
    match blaze.prop "userNeedsApproval", blaze.prop "priceFormatted",
      blaze.prop "wethAccumulatedFormatted", blaze.prop "userLpBalanceFormatted" with
    | .ok userNeedsApproval, .ok priceFormatted, .ok wethAccumulatedFormatted,
        .ok userLpBalanceFormatted =>
      let app1 :=
        if host.hasElement ElementId.blazePrice then
          app.record (Event.setText ElementId.blazePrice
            (host.toFixed 4 (host.parseFloat priceFormatted)))
        else app
      let app2 :=
        if host.hasElement ElementId.blazeClaimAmount then
          app1.record (Event.setText ElementId.blazeClaimAmount
            (host.toFixed 6 (host.parseFloat wethAccumulatedFormatted) ++ " ETH"))
        else app1
      let app3 :=
        if host.hasElement ElementId.blazeAvailableBalance then
          app2.record (Event.setText ElementId.blazeAvailableBalance
            (host.toFixed 4 (host.parseFloat userLpBalanceFormatted) ++ " LP available"))
        else app2
      if host.hasElement ElementId.blazeActionButton then
        if userNeedsApproval.truthy then
          (app3.record (Event.setText ElementId.blazeActionButton "Approve LP")).record
            (Event.setDisabled ElementId.blazeActionButton false)
        else
          (app3.record (Event.setText ElementId.blazeActionButton "Blaze")).record
            (Event.setDisabled ElementId.blazeActionButton
              ((host.parseFloat userLpBalanceFormatted).lt (host.parseFloat priceFormatted)))
      else app3
    | _, _, _, _ => app

end UI

/-! ## blockchain.js: address, game state, action flows -/

/-- The text `${address.slice(0, 6)}...${address.slice(-4)}`: the first six
and the last four characters of a string (for an array, its first six and
last four elements joined by commas); throws on `null` / `undefined`. -/
def shortAddress : JSVal → Except JSError String
  | JSVal.null => .error typeErrorNullish
  | JSVal.undefined => .error typeErrorNullish
  | JSVal.str s =>
    .ok (String.mk (s.data.take 6) ++ "..." ++ String.mk (s.data.drop (s.data.length - 4)))
  | JSVal.arr xs =>
    .ok (",".intercalate (xs.take 6) ++ "..." ++ ",".intercalate (xs.drop (xs.length - 4)))

/-- What `fetchGameState` returns: the response `data`, `null`, or nothing
(`undefined`). -/
inductive FetchResult where
  | data (r : Record)
  | null
  | undefined
  deriving DecidableEq, Repr

/-- The reads `txData.params.to`, `txData.params.data` and
`txData.params.value`. -/
def readParams (txData : Record) : Except JSError (Atom × Atom × Atom) :=
  match (txData.get "params").prop "to" with
  | .error e => .error e
  | .ok to_ =>
    match (txData.get "params").prop "data" with
    | .error e => .error e
    | .ok data =>
      match (txData.get "params").prop "value" with
      | .error e => .error e
      | .ok value => .ok (to_, data, value)

/-- The expression `value || '0x0'`. -/
def orZero (value : Atom) : Atom :=
  if value.truthy then value else Atom.str "0x0"

/-- The statement
`if (data.blaze) Object.assign(State.blockchainData.blaze, data.blaze, { userNeedsApproval: ... })`
of `fetchGameState`, run on the game state `state` (to which `data` was
already assigned, so that its `blaze` is the very value `data.blaze`) and on
`data`; gives both as they are afterwards. When `data.blaze` is a non-empty
string, copying its index `0` onto the string throws (the index properties of
a string are read-only); for every other truthy value that is not a plain
object (a number, `true`, an array) nothing that is tracked changes. -/
def assignBlaze (state data : Record) : Except JSError (Record × Record) :=
  let dataBlaze := data.get "blaze"
  if dataBlaze.truthy then
    match dataBlaze.prop "userNeedsApproval" with
    | .error e => .error e
    | .ok flag =>
      let userNeedsApproval := if flag ≠ Atom.undefined then flag else Atom.bool true
      match state.get "blaze", dataBlaze with
      | Value.atom Atom.null, _ => .error typeErrorNullish
      | Value.atom Atom.undefined, _ => .error typeErrorNullish
      | Value.obj target, Value.obj src =>
        let merged :=
          Value.obj (assocSet (assocAssign target src) "userNeedsApproval" userNeedsApproval)
        .ok (state.set "blaze" merged, data.set "blaze" merged)
      | Value.atom (Atom.str target), Value.atom (Atom.str _) =>
        if target = "" then .ok (state, data)
        else
          .error ⟨"TypeError",
            "Cannot assign to read only property '0' of object '[object String]'"⟩
      | _, _ => .ok (state, data)
  else .ok (state, data)

namespace Blockchain

/-- The function `getUserAddress()`. -/
def getUserAddress (env : Env) (host : Host) (app : App) : Except JSError JSVal × App :=
  let onError (app : App) : Except JSError JSVal × App :=
    (.ok JSVal.null,
      if host.hasElement ElementId.profileName then
        app.record (Event.setText ElementId.profileName "Error")
      else app)
  match WalletProvider.getAddress env app.world with
  | (.error _, w1) => onError { app with world := w1 }
  | (.ok address, w1) =>
    let app1 : App := { app with world := w1 }
    if address.truthy then
      let app2 := app1.setData "userAddress" (Value.atom address.toAtom)
      match WalletProvider.getFarcasterContext host app2.world with
      | (.error _, w2) => onError { app2 with world := w2 }
      | (.ok farcasterContext, w2) =>
        let app3 : App := { app2 with world := w2 }
        let fid : Except JSError (Option Atom) :=
          match farcasterContext with
          | none => .ok none
          | some context =>
            if (context.get "user").truthy then
              match (context.get "user").prop "fid" with
              | .error e => .error e
              | .ok fid => .ok (some fid)
            else .ok none
        match fid with
        | .error _ => onError app3
        | .ok fid =>
          let app4 :=
            match fid with
            | some fid => app3.setData "fid" (Value.atom fid)
            | none => app3
          if host.hasElement ElementId.profileName then
            let walletLabel :=
              if WalletProvider.getWalletType app4.world = WalletType.metamask then " ðŸ¦Š"
              else ""
            match shortAddress address with
            | .error _ => onError app4
            | .ok short =>
              (.ok address,
                app4.record (Event.setText ElementId.profileName (short ++ walletLabel)))
          else (.ok address, app4)
    else if WalletProvider.needsManualConnection app1.world then
      let app2 :=
        if host.hasElement ElementId.profileName then
          app1.record (Event.setText ElementId.profileName "Connect Wallet")
        else app1
      (.ok JSVal.null,
        if host.hasElement ElementId.connectWalletButton then
          app2.record (Event.showElement ElementId.connectWalletButton)
        else app2)
    else
      (.ok JSVal.null,
        if host.hasElement ElementId.profileName then
          app1.record (Event.setText ElementId.profileName "No Wallet")
        else app1)

/-- The function `fetchGameState(userAddress)`. -/
def fetchGameState (host : Host) (userAddress : Value) (app : App) :
    Except JSError FetchResult × App :=
  let player := if userAddress.truthy then some userAddress else none
  match fetch host Endpoint.getGameState player app with
  | (FetchReply.rejects _, app1) => (.ok FetchResult.null, app1)
  | (FetchReply.resolves response, app1) =>
    if !response.ok then (.ok FetchResult.null, app1)
    else
      match response.json with
      | .error _ => (.ok FetchResult.null, app1)
      | .ok data =>
        let app2 : App := { app1 with blockchainData := app1.blockchainData.assign data }
        match assignBlaze app2.blockchainData data with
        | .error _ => (.ok FetchResult.null, app2)
        | .ok (state, data1) =>
          let app3 : App := { app2 with blockchainData := state }
          let app4 := app3.record Event.updateUI
          match host.updateUI app4.blockchainData with
          | some _ => (.ok FetchResult.undefined, app4)
          | none => (.ok (FetchResult.data data1), UI.updateBlazeryUI host app4)

end Blockchain

namespace Blockchain

/-- The callback `() => fetchGameState(State.blockchainData.userAddress)`
that the action flows schedule. -/
def refreshCallback (host : Host) (app : App) : Except JSError FetchResult × App :=
  fetchGameState host (app.blockchainData.get "userAddress") app

/-- The function `openGlazeFrame()`. Whatever is thrown inside its `try`
block ends in the alert `Transaction failed: ...`. -/
def openGlazeFrame (env : Env) (host : Host) (app : App) : Except JSError Unit × App :=
  let onError (error : JSError) (app : App) : Except JSError Unit × App :=
    (.ok (), app.record (Event.alert ("Transaction failed: " ++ error.message)))
  let app0 := app.record Event.setDonutSpinSpeed
  let address := app0.blockchainData.get "userAddress"
  if !address.truthy then
    (.ok (), app0.record (Event.alert "Please connect your wallet first"))
  else
    match fetch host Endpoint.transaction (some address) app0 with
    | (FetchReply.rejects error, app1) => onError error app1
    | (FetchReply.resolves response, app1) =>
      if !response.ok then
        match response.text with
        | .error error => onError error app1
        | .ok _ =>
          onError ⟨"Error", "Failed to get transaction data: " ++ toString response.status⟩ app1
      else
        match response.json with
        | .error error => onError error app1
        | .ok txData =>
          match readParams txData with
          | .error error => onError error app1
          | .ok (to_, data, value) =>
            let txParams : TxParams :=
              ⟨address, Value.atom to_, Value.atom data, Value.atom value⟩
            match sendTxWithRetryDefault env txParams app1.world with
            | (.error error, w2) => onError error { app1 with world := w2 }
            | (.ok _, w2) =>
              (.ok (), ({ app1 with world := w2 } : App).record (Event.setTimeout 3000))

/-- The function `sendApprovalTransaction(address)`. -/
def sendApprovalTransaction (env : Env) (host : Host) (address : Value) (app : App) :
    Except JSError Unit × App :=
  let onError (error : JSError) (app : App) : Except JSError Unit × App :=
    (.ok (), app.record (Event.alert ("Approval failed: " ++ error.message)))
  match fetch host Endpoint.approveLp (some address) app with
  | (FetchReply.rejects error, app1) => onError error app1
  | (FetchReply.resolves response, app1) =>
    if !response.ok then
      onError ⟨"Error", "Failed to get approval data: " ++ toString response.status⟩ app1
    else
      match response.json with
      | .error error => onError error app1
      | .ok txData =>
        match readParams txData with
        | .error error => onError error app1
        | .ok (to_, data, value) =>
          let txParams : TxParams :=
            ⟨address, Value.atom to_, Value.atom data, Value.atom (orZero value)⟩
          match sendTxWithRetryDefault env txParams app1.world with
          | (.error error, w2) => onError error { app1 with world := w2 }
          | (.ok _, w2) =>
            let app2 : App := { app1 with world := w2 }
            match (app2.blockchainData.get "blaze").setProp "userNeedsApproval"
              (Atom.bool false) with
            | .error error => onError error app2
            | .ok blaze =>
              let app3 := app2.setData "blaze" blaze
              let app4 := UI.updateBlazeryUI host app3
              (.ok (), app4.record (Event.setTimeout 3000))

/-- The function `sendBuyTransaction(address)`. -/
def sendBuyTransaction (env : Env) (host : Host) (address : Value) (app : App) :
    Except JSError Unit × App :=
  let onError (error : JSError) (app : App) : Except JSError Unit × App :=
    (.ok (), app.record (Event.alert ("Buy transaction failed: " ++ error.message)))
  match fetch host Endpoint.blazeTransaction (some address) app with
  | (FetchReply.rejects error, app1) => onError error app1
  | (FetchReply.resolves response, app1) =>
    if !response.ok then
      onError ⟨"Error", "Failed to get buy transaction data: " ++ toString response.status⟩ app1
    else
      match response.json with
      | .error error => onError error app1
      | .ok txData =>
        match readParams txData with
        | .error error => onError error app1
        | .ok (to_, data, value) =>
          let txParams : TxParams :=
            ⟨address, Value.atom to_, Value.atom data, Value.atom (orZero value)⟩
          match sendTxWithRetryDefault env txParams app1.world with
          | (.error error, w2) => onError error { app1 with world := w2 }
          | (.ok _, w2) =>
            (.ok (), ({ app1 with world := w2 } : App).record (Event.setTimeout 3000))

/-- The function `handleBlazeClick()`. Its `catch` block only logs. -/
def handleBlazeClick (env : Env) (host : Host) (app : App) : Except JSError Unit × App :=
  let app0 := app.record Event.setDonutSpinSpeed
  let address := app0.blockchainData.get "userAddress"
  if !address.truthy then
    (.ok (), app0.record (Event.alert "Please connect your wallet first"))
  else
    let blaze := app0.blockchainData.get "blaze"
    match blaze.prop "userNeedsApproval" with
    | .error _ => (.ok (), app0)
    | .ok userNeedsApproval =>
      if userNeedsApproval.truthy then
        match sendApprovalTransaction env host address app0 with
        | (.error _, app1) => (.ok (), app1)
        | (.ok _, app1) => (.ok (), app1)
      else
        match blaze.prop "userLpBalanceFormatted", blaze.prop "priceFormatted" with
        | .ok userLpBalanceFormatted, .ok priceFormatted =>
          let lpBalance := host.parseFloat userLpBalanceFormatted
          let lpNeeded := host.parseFloat priceFormatted
          if lpBalance.lt lpNeeded then
            (.ok (), app0.record (Event.alert
              ("Insufficient LP balance. Need " ++ host.toFixed 4 lpNeeded ++
                " LP but only have " ++ host.toFixed 4 lpBalance ++ " LP")))
          else
            match sendBuyTransaction env host address app0 with
            | (.error _, app1) => (.ok (), app1)
            | (.ok _, app1) => (.ok (), app1)
        | _, _ => (.ok (), app0)

/-- The function `handleGlazeClick()`: it starts `openGlazeFrame()` and does
not await it, so the outcome of `openGlazeFrame` is what reaches the page. -/
def handleGlazeClick (env : Env) (host : Host) (app : App) : Except JSError Unit × App :=
  openGlazeFrame env host app

/-- The function `handleConnectWallet()`. Whatever is thrown inside its
`try` block ends in the alert `Failed to connect wallet. ...`. -/
def handleConnectWallet (env : Env) (host : Host) (app : App) : Except JSError Unit × App :=
  let onError (app : App) : Except JSError Unit × App :=
    (.ok (), app.record (Event.alert
      "Failed to connect wallet. Please make sure MetaMask is installed and try again."))
  match WalletProvider.connectMetaMask env app.world with
  | (.error _, w1) => onError { app with world := w1 }
  | (.ok address, w1) =>
    let app1 : App := { app with world := w1 }
    if address.truthy then
      let app2 := app1.setData "userAddress" (Value.atom address.toAtom)
      let named : Except JSError App :=
        if host.hasElement ElementId.profileName then
          match shortAddress address with
          | .error e => .error e
          | .ok short => .ok (app2.record (Event.setText ElementId.profileName (short ++ " ðŸ¦Š")))
        else .ok app2
      match named with
      | .error _ => onError app2
      | .ok app3 =>
        let app4 :=
          if host.hasElement ElementId.connectWalletButton then
            app3.record (Event.hideElement ElementId.connectWalletButton)
          else app3
        match fetchGameState host (Value.atom address.toAtom) app4 with
        | (.error _, app5) => onError app5
        | (.ok _, app5) => (.ok (), app5)
    else (.ok (), app1)

end Blockchain

/-- A page without DOM nodes, outside Farcaster, without extension, whose
API is unreachable. -/
def bareHost : Host where
  windowDefined := true
  framed := false
  userAgent := "Mozilla/5.0"
  windowName := ""
  ethereum := WindowEthereum.undefined
  sdkReady := none
  sdkProvider := .ok none
  sdkContext := .ok none
  fetch := fun _ _ _ => FetchReply.rejects ⟨"TypeError", "Failed to fetch"⟩
  parseFloat := fun _ => JSNumber.nan
  toFixed := fun _ _ => "NaN"
  updateUI := fun _ => none
  hasElement := fun _ => false

/-- The initial value of `State.blockchainData`, as `state.js` writes it. -/
def initialBlockchainData : Record :=
  [("currentMiner", Value.atom Atom.null),
   ("price", Value.atom (Atom.str "0")),
   ("priceInEth", Value.atom (Atom.str "0.0")),
   ("currentDps", Value.atom (Atom.str "0")),
   ("currentDpsFormatted", Value.atom (Atom.str "0")),
   ("userDonutBalance", Value.atom (Atom.str "0")),
   ("userDonutBalanceFormatted", Value.atom (Atom.str "0")),
   ("userEthBalance", Value.atom (Atom.str "0")),
   ("userEthBalanceFormatted", Value.atom (Atom.str "0")),
   ("claimableDonuts", Value.atom (Atom.str "0")),
   ("claimableDonutsFormatted", Value.atom (Atom.str "0")),
   ("totalDonutSupply", Value.atom (Atom.str "0")),
   ("totalDonutSupplyFormatted", Value.atom (Atom.str "0")),
   ("timeAsMiner", Value.atom (Atom.num (JSNumber.fin 0))),
   ("secondsUntilHalving", Value.atom (Atom.num (JSNumber.fin 0))),
   ("userAddress", Value.atom Atom.null),
   ("fid", Value.atom Atom.null),
   ("blaze", Value.obj
     [("epochId", Atom.num (JSNumber.fin 0)),
      ("price", Atom.str "0"),
      ("priceFormatted", Atom.str "0"),
      ("wethBalance", Atom.str "0"),
      ("wethBalanceFormatted", Atom.str "0"),
      ("userLpBalance", Atom.str "0"),
      ("userLpBalanceFormatted", Atom.str "0"),
      ("paymentToken", Atom.null),
      ("userNeedsApproval", Atom.bool true)])]

/-- The initial values of the module variables of `walletProvider.js`, and
an empty trace. -/
def initialWorld : World :=
  ⟨⟨WalletType.none, none, JSVal.null⟩, []⟩

/-! ## Concrete sessions and providers used in examples -/

/-- A request as the action flows build it. -/
def sampleTx : TxParams :=
  ⟨Value.atom (Atom.str "0xA11CE"), Value.atom (Atom.str "0xC0FFEE"),
    Value.atom (Atom.str "0x00"), Value.atom (Atom.str "0x0")⟩

/-- A MetaMask session connected as `0xA11CE`, nothing done yet. -/
def connectedMetaMask : World :=
  ⟨⟨WalletType.metamask, some ProviderRef.windowEthereum, JSVal.str "0xA11CE"⟩, []⟩

/-- A Farcaster session connected as `0xA11CE`, nothing done yet. -/
def connectedFarcaster : World :=
  ⟨⟨WalletType.farcaster, some ProviderRef.farcasterProvider, JSVal.str "0xA11CE"⟩, []⟩

/-- The session right after `window.ethereum` was selected: MetaMask, no
address yet. -/
def freshMetaMask : World :=
  ⟨⟨WalletType.metamask, some ProviderRef.windowEthereum, JSVal.null⟩, []⟩

/-- The session in which no wallet was found. -/
def noWallet : World :=
  ⟨⟨WalletType.none, none, JSVal.null⟩, []⟩

/-- A provider that answers the requests of a run from a script, by position;
past the end of the script it throws `exhausted`. -/
def scriptedEnv (script : List Reply) : Env :=
  ⟨fun _ n _ => script.getD n (Reply.throws ⟨"Error", "exhausted"⟩)⟩

/-- A provider that throws the same error on every request. -/
def alwaysThrows (message : String) : Env :=
  ⟨fun _ _ _ => Reply.throws ⟨"Error", message⟩⟩

/-- A Farcaster session that has not asked for an address yet. -/
def freshFarcaster : World :=
  ⟨⟨WalletType.farcaster, some ProviderRef.farcasterProvider, JSVal.null⟩, []⟩

/-- A framed page inside Farcaster whose SDK hands out a provider; MetaMask
is installed as well. -/
def farcasterHost : Host :=
  { bareHost with
    framed := true
    ethereum := WindowEthereum.object true
    sdkProvider := .ok (some ProviderRef.farcasterProvider) }

/-- A framed page whose SDK handshake throws; MetaMask is installed. -/
def brokenFrameHost : Host :=
  { bareHost with
    framed := true
    ethereum := WindowEthereum.object true
    sdkReady := some (Thrown.error ⟨"Error", "ready timed out"⟩) }

/-- A framed page whose SDK handshake rejects with `undefined`; MetaMask is
installed. -/
def nullishFrameHost : Host :=
  { bareHost with
    framed := true
    ethereum := WindowEthereum.object true
    sdkReady := some Thrown.undefined }

/-- A plain browser tab on which a script has set `window.ethereum = null`. -/
def nullEthereumHost : Host :=
  { bareHost with ethereum := WindowEthereum.null }

/-- A plain browser tab with MetaMask installed. -/
def metaMaskHost : Host :=
  { bareHost with ethereum := WindowEthereum.object true }

/-- The client right after start in a browser with MetaMask, before any
connect: no address in the game state. -/
def unconnectedApp : App :=
  ⟨freshMetaMask, initialBlockchainData⟩

/-- The client connected as `0xA11CE` through MetaMask; the game state still
says that the LP token needs approval. -/
def connectedApp : App :=
  ⟨connectedMetaMask,
    Record.set initialBlockchainData "userAddress" (Value.atom (Atom.str "0xA11CE"))⟩

/-- The transaction parameters a route of the API answers with. -/
def sampleTxData : Record :=
  [("params", Value.obj
    [("to", Atom.str "0xC0FFEE"), ("data", Atom.str "0x00"), ("value", Atom.str "0x0")])]

/-- A page whose API answers every request with `200` and `sampleTxData`,
and whose `parseFloat` knows the texts `1` and `2`. -/
def apiHost : Host :=
  { bareHost with
    fetch := fun _ _ _ => FetchReply.resolves ⟨true, 200, .ok sampleTxData, .ok ""⟩
    parseFloat := fun a =>
      if a = Atom.str "1" then JSNumber.fin 1
      else if a = Atom.str "2" then JSNumber.fin 2
      else JSNumber.nan }

/-- A page whose API answers every request with status `500`. -/
def failingApiHost : Host :=
  { bareHost with
    fetch := fun _ _ _ =>
      FetchReply.resolves ⟨false, 500, .error ⟨"SyntaxError", "Unexpected token"⟩, .ok "oops"⟩ }

/-- The client connected as `0xA11CE` whose LP token is approved: balance
`1`, price `2`. -/
def approvedPoorApp : App :=
  ⟨connectedMetaMask,
    [("userAddress", Value.atom (Atom.str "0xA11CE")),
     ("blaze", Value.obj
       [("priceFormatted", Atom.str "2"), ("userLpBalanceFormatted", Atom.str "1"),
        ("userNeedsApproval", Atom.bool false)])]⟩

/-- The client connected as `0xA11CE` whose LP token is approved: balance
`2`, price `1`. -/
def approvedRichApp : App :=
  ⟨connectedMetaMask,
    [("userAddress", Value.atom (Atom.str "0xA11CE")),
     ("blaze", Value.obj
       [("priceFormatted", Atom.str "1"), ("userLpBalanceFormatted", Atom.str "2"),
        ("userNeedsApproval", Atom.bool false)])]⟩

/-- Transaction parameters without a `value`, as a route of the API may
answer. -/
def noValueTxData : Record :=
  [("params", Value.obj [("to", Atom.str "0xC0FFEE"), ("data", Atom.str "0x00")])]

/-- A page whose API answers every request with `200` and `noValueTxData`. -/
def noValueApiHost : Host :=
  { bareHost with
    fetch := fun _ _ _ => FetchReply.resolves ⟨true, 200, .ok noValueTxData, .ok ""⟩ }

/-- The page of `apiHost` with every DOM node of the Blazery present. -/
def blazeryHost : Host :=
  { apiHost with hasElement := fun _ => true }

/-- The client connected as `0xA11CE` whose LP token still needs approval:
balance `2`, price `1`. -/
def unapprovedApp : App :=
  ⟨connectedMetaMask,
    [("userAddress", Value.atom (Atom.str "0xA11CE")),
     ("blaze", Value.obj
       [("priceFormatted", Atom.str "1"), ("userLpBalanceFormatted", Atom.str "2"),
        ("userNeedsApproval", Atom.bool true)])]⟩

/-- The client connected as `0xA11CE` whose game state holds `blaze: null`. -/
def nullBlazeApp : App :=
  ⟨connectedMetaMask,
    [("userAddress", Value.atom (Atom.str "0xA11CE")), ("blaze", Value.atom Atom.null)]⟩

/-- A page whose API answers every request with `200` and a game state
whose `blaze` is `null`; rendering succeeds. -/
def nullBlazeHost : Host :=
  { bareHost with
    fetch := fun _ _ _ =>
      FetchReply.resolves ⟨true, 200, .ok [("blaze", Value.atom Atom.null)], .ok ""⟩ }

/-- A page whose API answers every request with `200` and a game state
whose `blaze` object carries no `userNeedsApproval`; rendering succeeds. -/
def omittedFlagHost : Host :=
  { bareHost with
    fetch := fun _ _ _ =>
      FetchReply.resolves ⟨true, 200, .ok [("blaze", Value.obj
        [("priceFormatted", Atom.str "1"), ("userLpBalanceFormatted", Atom.str "2")])],
        .ok ""⟩ }

/-! ## Specification-level notions -/

/-- The message `msg` contains `pat` as a contiguous, case-sensitive
substring. -/
def MessageContains (msg pat : String) : Prop :=
  pat.data <:+: msg.data

/-- The message signals a transient condition: it contains `timeout`,
`Queue is full` or `JSON RPC`. -/
def Transient (msg : String) : Prop :=
  MessageContains msg "timeout" ∨ MessageContains msg "Queue is full" ∨
    MessageContains msg "JSON RPC"

/-- The extension reports no authorised account: the account query fails,
or answers `null`, `undefined` or the empty list. -/
def Reply.noAccount : Reply → Bool
  | Reply.throws _ => true
  | Reply.returns JSVal.null => true
  | Reply.returns JSVal.undefined => true
  | Reply.returns (JSVal.arr []) => true
  | _ => false

/-- A reply seen by the code that awaits it: a value or a raised error. -/
def Reply.toExcept : Reply → Except JSError JSVal
  | Reply.returns value => .ok value
  | Reply.throws error => .error error

/-- The embedded handshake succeeds: the Farcaster environment is detected,
`ready()` resolves and `getEthereumProvider()` yields a provider. -/
def handshakeSucceeds (host : Host) : Prop :=
  WalletProvider.isFarcasterEnvironment host = true ∧ host.sdkReady = none ∧
    ∃ p, host.sdkProvider = .ok (some p)

/-- The value is `null` or `undefined`. -/
def Thrown.nullish : Thrown → Bool
  | Thrown.null => true
  | Thrown.undefined => true
  | _ => false

/-- The `catch` block of the embedded handshake throws: the Farcaster
environment is detected and `ready()`, or after it `getEthereumProvider()`,
rejects with `null` or `undefined`, of which no `message` can be read. -/
def handshakeEscapes (host : Host) : Prop :=
  WalletProvider.isFarcasterEnvironment host = true ∧
    ((∃ t, host.sdkReady = some t ∧ t.nullish = true) ∨
      (host.sdkReady = none ∧ ∃ t, host.sdkProvider = .error t ∧ t.nullish = true))

/-- The effects `initializeWallet` can have: none, the `ready()` call, or
the `ready()` call followed by the `getEthereumProvider()` call. -/
def handshakeTraces : List (List Event) :=
  [[], [Event.sdkReady], [Event.sdkReady, Event.sdkGetEthereumProvider]]

/-- The active capability of a session: the wallet type together with the
provider object. -/
def capability (w : World) : WalletType × Option ProviderRef :=
  (w.session.currentWalletType, w.session.ethereumProvider)

/-- The effects a submission can have: entries into
`WalletProvider.sendTransaction`, provider requests and retry delays. -/
def Event.isSubmission : Event → Bool
  | Event.sendTransactionCall _ => true
  | Event.request _ _ => true
  | Event.delay _ => true
  | _ => false

/-- The writes to DOM nodes. -/
def Event.isDisplay : Event → Bool
  | Event.setText _ _ => true
  | Event.setDisabled _ _ => true
  | Event.showElement _ => true
  | Event.hideElement _ => true
  | _ => false

/-- The step from `app` to `app2` only wrote to DOM nodes: game state and
session are the same and the trace grew by display effects. -/
def DisplayOnly (app app2 : App) : Prop :=
  app2.blockchainData = app.blockchainData ∧ app2.world.session = app.world.session ∧
    ∃ evs, app2.world.trace = app.world.trace ++ evs ∧ evs.all Event.isDisplay = true

/-- The requests handed to `WalletProvider.sendTransaction` in a trace, in
order. -/
def callsOf : List Event → List TxParams
  | [] => []
  | Event.sendTransactionCall txParams :: t => txParams :: callsOf t
  | _ :: t => callsOf t

/-- The request an action flow builds from the caller's `address` and the
server's `to`, `data` and `value`; with `zero` a falsy `value` is replaced by
`0x0` (approval and buy flows), without it `value` is passed on (Glaze
flow). -/
def flowRequest (zero : Bool) (address : Value) (to_ data value : Atom) : TxParams :=
  ⟨address, Value.atom to_, Value.atom data, Value.atom (if zero then orZero value else value)⟩

/-- The submission of an action flow returns: the parameter request to
`endpoint` resolves with an ok response, its body parses, its `params` can be
read, and the retrying submission of the request built from them returns a
hash. -/
def SubmissionReturns (env : Env) (host : Host) (endpoint : Endpoint) (zero : Bool)
    (address : Value) (app : App) : Prop :=
  ∃ response txData to_ data value txHash w2,
    host.fetch (fetchCount app.world.trace) endpoint (some address) =
      FetchReply.resolves response ∧
    response.ok = true ∧ response.json = .ok txData ∧
    readParams txData = .ok (to_, data, value) ∧
    Blockchain.sendTxWithRetryDefault env (flowRequest zero address to_ data value)
      (app.record (Event.fetch endpoint (some address))).world = (.ok txHash, w2)

/-- The steps the three action flows share, up to the point where they
either alert or schedule the refresh: request the parameters from `endpoint`,
check the response (`notOk` is the error raised for a response that is not
ok), parse it, read `params`, and submit the request with retry. Gives the
hash or the error, and the client state at that point. -/
def flowCore (env : Env) (host : Host) (endpoint : Endpoint) (zero : Bool)
    (notOk : FetchResponse → JSError) (address : Value) (app : App) :
    Except JSError JSVal × App :=
  match fetch host endpoint (some address) app with
  | (FetchReply.rejects error, app1) => (.error error, app1)
  | (FetchReply.resolves response, app1) =>
    if !response.ok then (.error (notOk response), app1)
    else
      match response.json with
      | .error error => (.error error, app1)
      | .ok txData =>
        match readParams txData with
        | .error error => (.error error, app1)
        | .ok (to_, data, value) =>
          match Blockchain.sendTxWithRetryDefault env (flowRequest zero address to_ data value)
            app1.world with
          | (.error error, w2) => (.error error, { app1 with world := w2 })
          | (.ok txHash, w2) => (.ok txHash, { app1 with world := w2 })

/-- The error `openGlazeFrame` raises for a response that is not ok: what
`text()` throws, or else `Failed to get transaction data: <status>`. -/
def glazeNotOk (response : FetchResponse) : JSError :=
  match response.text with
  | .error error => error
  | .ok _ => ⟨"Error", "Failed to get transaction data: " ++ toString response.status⟩

/-- The error `sendApprovalTransaction` raises for a response that is not
ok. -/
def approvalNotOk (response : FetchResponse) : JSError :=
  ⟨"Error", "Failed to get approval data: " ++ toString response.status⟩

/-- The error `sendBuyTransaction` raises for a response that is not ok. -/
def buyNotOk (response : FetchResponse) : JSError :=
  ⟨"Error", "Failed to get buy transaction data: " ++ toString response.status⟩

/-- The last value written to `el.disabled` in a trace. -/
def lastDisabled (el : ElementId) : List Event → Option Bool
  | [] => none
  | e :: t =>
    match lastDisabled el t with
    | some flag => some flag
    | none =>
      match e with
      | Event.setDisabled el2 flag => if el2 = el then some flag else none
      | _ => none

/-- The last value written to `el.textContent` in a trace. -/
def lastText (el : ElementId) : List Event → Option String
  | [] => none
  | e :: t =>
    match lastText el t with
    | some text => some text
    | none =>
      match e with
      | Event.setText el2 text => if el2 = el then some text else none
      | _ => none

/-- The effects of one submission attempt that reaches provider `p`. -/
def attemptEvents (p : ProviderRef) (txParams : TxParams) : List Event :=
  [Event.sendTransactionCall txParams, Event.request p (Method.eth_sendTransaction txParams)]

/-- The effects of `k` consecutive attempts that reach provider `p`: the
first one at once, each later one after a delay of `delay` ms. -/
def attemptsTrace (p : ProviderRef) (txParams : TxParams) (delay : Nat) : Nat → List Event
  | 0 => []
  | 1 => attemptEvents p txParams
  | k + 2 => attemptsTrace p txParams delay (k + 1) ++
      (Event.delay delay :: attemptEvents p txParams)

end DonutMiner

/-! ## Auxiliary lemmas -/

namespace DonutMiner

theorem includesChars_iff (s pat : List Char) : includesChars s pat = true ↔ pat <:+: s := by
  induction s with
  | nil => cases pat <;> simp [includesChars]
  | cons c cs ih =>
    simp only [includesChars, Bool.or_eq_true, ih, List.infix_cons_iff,
      List.isPrefixOf_iff_prefix]

theorem includes_iff (msg pat : String) : includes msg pat = true ↔ MessageContains msg pat :=
  includesChars_iff msg.data pat.data

theorem isRetryable_iff (e : JSError) : Blockchain.isRetryable e = true ↔ Transient e.message := by
  simp only [Blockchain.isRetryable, Bool.or_eq_true, includes_iff, Transient, or_assoc]

theorem isRetryable_eq_false_iff (e : JSError) :
    Blockchain.isRetryable e = false ↔ ¬ Transient e.message := by
  rw [← isRetryable_iff]; simp

theorem requestCount_append (t u : List Event) :
    requestCount (t ++ u) = requestCount t + requestCount u := by
  induction t with
  | nil => simp [requestCount]
  | cons e t ih =>
    cases e with
    | request p m => simp [requestCount, ih]; omega
    | _ => simp [requestCount, ih]

theorem attemptCount_append (t u : List Event) :
    attemptCount (t ++ u) = attemptCount t + attemptCount u := by
  induction t with
  | nil => simp [attemptCount]
  | cons e t ih =>
    cases e with
    | sendTransactionCall tx => simp [attemptCount, ih]; omega
    | _ => simp [attemptCount, ih]

theorem delaysOf_append (t u : List Event) :
    delaysOf (t ++ u) = delaysOf t ++ delaysOf u := by
  induction t with
  | nil => simp [delaysOf]
  | cons e t ih => cases e <;> simp [delaysOf, ih]

theorem listenerCount_append (p : ProviderRef) (ev : EventName) (t u : List Event) :
    listenerCount p ev (t ++ u) = listenerCount p ev t + listenerCount p ev u := by
  induction t with
  | nil => simp [listenerCount]
  | cons e t ih =>
    cases e with
    | subscribe q e =>
      rw [List.cons_append]
      simp only [listenerCount, ih]
      split <;> omega
    | _ => simp [listenerCount, ih]

/-- A submission attempt in a session with a provider and a truthy address
issues exactly one request and hands its reply on. -/
theorem sendTransaction_connected (env : Env) (txParams : TxParams) (w : World)
    (p : ProviderRef) (hp : w.session.ethereumProvider = some p)
    (ha : w.session.currentAddress.truthy = true) :
    WalletProvider.sendTransaction env txParams w =
      ((env.respond p (requestCount w.trace) (Method.eth_sendTransaction txParams)).toExcept,
       ⟨w.session, w.trace ++ attemptEvents p txParams⟩) := by
  simp only [WalletProvider.sendTransaction, World.record, hp, ha, request, requestCount_append,
    requestCount, attemptEvents, Nat.add_zero]
  cases env.respond p (requestCount w.trace) (Method.eth_sendTransaction txParams) <;>
    simp [Reply.toExcept]

/-- A submission attempt never touches the session. -/
theorem sendTransaction_session (env : Env) (txParams : TxParams) (w : World) :
    (WalletProvider.sendTransaction env txParams w).2.session = w.session := by
  cases hp : w.session.ethereumProvider with
  | none => simp [WalletProvider.sendTransaction, World.record, hp]
  | some p =>
    cases ha : w.session.currentAddress.truthy with
    | false => simp [WalletProvider.sendTransaction, World.record, hp, ha]
    | true => rw [sendTransaction_connected env txParams w p hp ha]

/-- A submission attempt adds its own entry mark, at most one provider
request, and nothing else to the trace. -/
theorem sendTransaction_trace (env : Env) (txParams : TxParams) (w : World) :
    (WalletProvider.sendTransaction env txParams w).2.trace =
        w.trace ++ [Event.sendTransactionCall txParams] ∨
      ∃ p, (WalletProvider.sendTransaction env txParams w).2.trace =
        w.trace ++ attemptEvents p txParams := by
  cases hp : w.session.ethereumProvider with
  | none => left; simp [WalletProvider.sendTransaction, World.record, hp]
  | some p =>
    cases ha : w.session.currentAddress.truthy with
    | false => left; simp [WalletProvider.sendTransaction, World.record, hp, ha]
    | true => right; exact ⟨p, by rw [sendTransaction_connected env txParams w p hp ha]⟩

theorem sendTransaction_attemptCount (env : Env) (txParams : TxParams) (w : World) :
    attemptCount (WalletProvider.sendTransaction env txParams w).2.trace =
      attemptCount w.trace + 1 := by
  rcases sendTransaction_trace env txParams w with h | ⟨p, h⟩ <;>
    simp [h, attemptCount_append, attemptCount, attemptEvents]

theorem sendTransaction_delaysOf (env : Env) (txParams : TxParams) (w : World) :
    delaysOf (WalletProvider.sendTransaction env txParams w).2.trace = delaysOf w.trace := by
  rcases sendTransaction_trace env txParams w with h | ⟨p, h⟩ <;>
    simp [h, delaysOf_append, delaysOf, attemptEvents]

end DonutMiner


/-! ## Submission with bounded retry -/

namespace DonutMiner

/-- C1. In a session with a provider and a connected address, when each of
the three submission attempts fails with an error whose message contains
`timeout`, `Queue is full` or `JSON RPC`, `sendTxWithRetry` with default
arguments enters `WalletProvider.sendTransaction` exactly three times, the
second and third time after a 500 ms delay, and then fails with the error
raised by the third attempt; the session is left as it was. -/
theorem sendTxWithRetry_transient_exhausts_three_attempts (env : Env) (txParams : TxParams)
    (w : World) (p : ProviderRef) (errs : Nat → JSError)
    (hp : w.session.ethereumProvider = some p)
    (ha : w.session.currentAddress.truthy = true)
    (hfail : ∀ n, n < 3 →
      env.respond p (requestCount w.trace + n) (Method.eth_sendTransaction txParams) =
        Reply.throws (errs n))
    (htransient : ∀ n, n < 3 → Transient (errs n).message) :
    Blockchain.sendTxWithRetryDefault env txParams w =
      (.error (errs 2),
        ⟨w.session, w.trace ++
          [Event.sendTransactionCall txParams,
           Event.request p (Method.eth_sendTransaction txParams),
           Event.delay 500,
           Event.sendTransactionCall txParams,
           Event.request p (Method.eth_sendTransaction txParams),
           Event.delay 500,
           Event.sendTransactionCall txParams,
           Event.request p (Method.eth_sendTransaction txParams)]⟩) ∧
    attemptCount (Blockchain.sendTxWithRetryDefault env txParams w).2.trace =
      attemptCount w.trace + 3 := by
  have h0 := (isRetryable_iff _).2 (htransient 0 (by omega))
  have h1 := (isRetryable_iff _).2 (htransient 1 (by omega))
  have h2 := (isRetryable_iff _).2 (htransient 2 (by omega))
  have r0 := hfail 0 (by omega)
  have r1 := hfail 1 (by omega)
  have r2 := hfail 2 (by omega)
  simp only [Nat.add_zero] at r0
  have key : Blockchain.sendTxWithRetryDefault env txParams w =
      (.error (errs 2),
        ⟨w.session, w.trace ++
          [Event.sendTransactionCall txParams,
           Event.request p (Method.eth_sendTransaction txParams),
           Event.delay 500,
           Event.sendTransactionCall txParams,
           Event.request p (Method.eth_sendTransaction txParams),
           Event.delay 500,
           Event.sendTransactionCall txParams,
           Event.request p (Method.eth_sendTransaction txParams)]⟩) := by
    simp [Blockchain.sendTxWithRetryDefault, Blockchain.sendTxWithRetry, Blockchain.sendTxLoop,
      sendTransaction_connected, World.record, hp, ha, r0, r1, r2, h0, h1, h2, Reply.toExcept,
      requestCount_append, requestCount, attemptEvents]
  refine ⟨key, ?_⟩
  rw [key]
  simp [attemptCount_append, attemptCount]

/-- Witness for C1: the three attempts fail with a timeout, a full queue and
a malformed RPC response; the submission fails with the third error. -/
theorem sendTxWithRetry_transient_exhausts_three_attempts_witness :
    connectedMetaMask.session.currentAddress.truthy = true ∧
    (Blockchain.sendTxWithRetryDefault
        (scriptedEnv [Reply.throws ⟨"Error", "request timeout"⟩,
          Reply.throws ⟨"Error", "Queue is full"⟩,
          Reply.throws ⟨"Error", "Invalid JSON RPC response"⟩])
        sampleTx connectedMetaMask).1 = .error ⟨"Error", "Invalid JSON RPC response"⟩ ∧
    attemptCount (Blockchain.sendTxWithRetryDefault
        (scriptedEnv [Reply.throws ⟨"Error", "request timeout"⟩,
          Reply.throws ⟨"Error", "Queue is full"⟩,
          Reply.throws ⟨"Error", "Invalid JSON RPC response"⟩])
        sampleTx connectedMetaMask).2.trace = 3 := by
  have h := sendTxWithRetry_transient_exhausts_three_attempts
    (scriptedEnv [Reply.throws ⟨"Error", "request timeout"⟩,
      Reply.throws ⟨"Error", "Queue is full"⟩,
      Reply.throws ⟨"Error", "Invalid JSON RPC response"⟩])
    sampleTx connectedMetaMask ProviderRef.windowEthereum
    (fun n => [JSError.mk "Error" "request timeout", ⟨"Error", "Queue is full"⟩,
      ⟨"Error", "Invalid JSON RPC response"⟩].getD n ⟨"Error", "exhausted"⟩)
    rfl (by decide)
    (by intro n hn; interval_cases n <;> rfl)
    (by
      intro n hn
      interval_cases n
      · exact Or.inl ((includes_iff _ _).1 (by decide))
      · exact Or.inr (Or.inl ((includes_iff _ _).1 (by decide)))
      · exact Or.inr (Or.inr ((includes_iff _ _).1 (by decide))))
  exact ⟨by decide, by rw [h.1]; rfl, h.2⟩

/-- C2. When the first submission attempt fails with an error whose message
contains none of `timeout`, `Queue is full`, `JSON RPC`, `sendTxWithRetry`
(for every attempt budget of at least one and every delay) fails with that
same error after exactly one entry into `WalletProvider.sendTransaction`,
without having awaited any delay and without touching the session. -/
theorem sendTxWithRetry_permanent_fails_at_once (env : Env) (txParams : TxParams) (w : World)
    (maxAttempts delay : Nat) (error : JSError)
    (hmax : 0 < maxAttempts)
    (hfirst : (WalletProvider.sendTransaction env txParams w).1 = .error error)
    (hperm : ¬ Transient error.message) :
    Blockchain.sendTxWithRetry env txParams maxAttempts delay w =
      (.error error, (WalletProvider.sendTransaction env txParams w).2) ∧
    attemptCount (Blockchain.sendTxWithRetry env txParams maxAttempts delay w).2.trace =
      attemptCount w.trace + 1 ∧
    delaysOf (Blockchain.sendTxWithRetry env txParams maxAttempts delay w).2.trace =
      delaysOf w.trace ∧
    (Blockchain.sendTxWithRetry env txParams maxAttempts delay w).2.session = w.session := by
  have hr := (isRetryable_eq_false_iff error).2 hperm
  have key : Blockchain.sendTxWithRetry env txParams maxAttempts delay w =
      (.error error, (WalletProvider.sendTransaction env txParams w).2) := by
    obtain ⟨n, rfl⟩ : ∃ n, maxAttempts = n + 1 := ⟨maxAttempts - 1, by omega⟩
    generalize hs : WalletProvider.sendTransaction env txParams w = r at hfirst ⊢
    obtain ⟨res, w1⟩ := r
    simp only at hfirst
    subst hfirst
    simp [Blockchain.sendTxWithRetry, Blockchain.sendTxLoop, hs, hr]
  refine ⟨key, ?_, ?_, ?_⟩
  · rw [key]; exact sendTransaction_attemptCount env txParams w
  · rw [key]; exact sendTransaction_delaysOf env txParams w
  · rw [key]; exact sendTransaction_session env txParams w

/-- Witness for C2: the wallet answers `user rejected` to the first attempt. -/
theorem sendTxWithRetry_permanent_fails_at_once_witness :
    ¬ Transient "user rejected" ∧
    (Blockchain.sendTxWithRetry (alwaysThrows "user rejected") sampleTx 3 500
        connectedMetaMask).1 = .error ⟨"Error", "user rejected"⟩ ∧
    attemptCount (Blockchain.sendTxWithRetry (alwaysThrows "user rejected") sampleTx 3 500
        connectedMetaMask).2.trace = 1 ∧
    delaysOf (Blockchain.sendTxWithRetry (alwaysThrows "user rejected") sampleTx 3 500
        connectedMetaMask).2.trace = [] := by
  have hperm : ¬ Transient (JSError.mk "Error" "user rejected").message := by
    rw [← isRetryable_iff]; decide
  have h := sendTxWithRetry_permanent_fails_at_once (alwaysThrows "user rejected") sampleTx
    connectedMetaMask 3 500 ⟨"Error", "user rejected"⟩ (by decide) (by decide) hperm
  exact ⟨hperm, by rw [h.1], h.2.1, h.2.2.1⟩

/-- C3. In a connected session, for k = 1, 2 or 3: when the first k - 1
submission attempts fail with transient errors and attempt k returns the hash
h, `sendTxWithRetry` with default arguments returns h; its effects are
exactly k attempts, the first one at once and each later one preceded by one
500 ms delay (k - 1 delays in all), and nothing after the successful
attempt. -/
theorem sendTxWithRetry_succeeds_at_attempt (env : Env) (txParams : TxParams) (w : World)
    (p : ProviderRef) (errs : Nat → JSError) (k : Nat) (h : JSVal)
    (hp : w.session.ethereumProvider = some p)
    (ha : w.session.currentAddress.truthy = true)
    (hk : 1 ≤ k ∧ k ≤ 3)
    (hfail : ∀ j, j + 1 < k →
      env.respond p (requestCount w.trace + j) (Method.eth_sendTransaction txParams) =
        Reply.throws (errs j))
    (htransient : ∀ j, j + 1 < k → Transient (errs j).message)
    (hok : env.respond p (requestCount w.trace + (k - 1))
      (Method.eth_sendTransaction txParams) = Reply.returns h) :
    Blockchain.sendTxWithRetryDefault env txParams w =
      (.ok h, ⟨w.session, w.trace ++ attemptsTrace p txParams 500 k⟩) ∧
    attemptCount (Blockchain.sendTxWithRetryDefault env txParams w).2.trace =
      attemptCount w.trace + k ∧
    delaysOf (Blockchain.sendTxWithRetryDefault env txParams w).2.trace =
      delaysOf w.trace ++ List.replicate (k - 1) 500 := by
  obtain ⟨hk1, hk3⟩ := hk
  have key : Blockchain.sendTxWithRetryDefault env txParams w =
      (.ok h, ⟨w.session, w.trace ++ attemptsTrace p txParams 500 k⟩) := by
    interval_cases k
    · simp only [Nat.sub_self, Nat.add_zero] at hok
      simp [Blockchain.sendTxWithRetryDefault, Blockchain.sendTxWithRetry,
        Blockchain.sendTxLoop, sendTransaction_connected, hp, ha, hok, Reply.toExcept,
        attemptsTrace]
    · have h0 := (isRetryable_iff _).2 (htransient 0 (by omega))
      have r0 := hfail 0 (by omega)
      simp only [Nat.add_zero] at r0
      simp only [Nat.add_one_sub_one] at hok
      simp [Blockchain.sendTxWithRetryDefault, Blockchain.sendTxWithRetry,
        Blockchain.sendTxLoop, sendTransaction_connected, World.record, hp, ha, r0, hok, h0,
        Reply.toExcept, requestCount_append, requestCount, attemptEvents, attemptsTrace]
    · have h0 := (isRetryable_iff _).2 (htransient 0 (by omega))
      have h1 := (isRetryable_iff _).2 (htransient 1 (by omega))
      have r0 := hfail 0 (by omega)
      have r1 := hfail 1 (by omega)
      simp only [Nat.add_zero] at r0
      simp only [Nat.add_one_sub_one] at hok
      simp [Blockchain.sendTxWithRetryDefault, Blockchain.sendTxWithRetry,
        Blockchain.sendTxLoop, sendTransaction_connected, World.record, hp, ha, r0, r1, hok,
        h0, h1, Reply.toExcept, requestCount_append, requestCount, attemptEvents,
        attemptsTrace]
  refine ⟨key, ?_, ?_⟩
  · rw [key]
    interval_cases k <;>
      simp [attemptCount_append, attemptCount, attemptsTrace, attemptEvents]
  · rw [key]
    interval_cases k <;>
      simp [delaysOf_append, delaysOf, attemptsTrace, attemptEvents, List.replicate]

/-- Witness for C3: `Error: timeout` twice, then the hash `0xABC`. -/
theorem sendTxWithRetry_succeeds_at_attempt_witness :
    (Blockchain.sendTxWithRetryDefault
        (scriptedEnv [Reply.throws ⟨"Error", "Error: timeout"⟩,
          Reply.throws ⟨"Error", "Error: timeout"⟩, Reply.returns (JSVal.str "0xABC")])
        sampleTx connectedMetaMask).1 = .ok (JSVal.str "0xABC") ∧
    attemptCount (Blockchain.sendTxWithRetryDefault
        (scriptedEnv [Reply.throws ⟨"Error", "Error: timeout"⟩,
          Reply.throws ⟨"Error", "Error: timeout"⟩, Reply.returns (JSVal.str "0xABC")])
        sampleTx connectedMetaMask).2.trace = 3 ∧
    delaysOf (Blockchain.sendTxWithRetryDefault
        (scriptedEnv [Reply.throws ⟨"Error", "Error: timeout"⟩,
          Reply.throws ⟨"Error", "Error: timeout"⟩, Reply.returns (JSVal.str "0xABC")])
        sampleTx connectedMetaMask).2.trace = [500, 500] := by
  have h := sendTxWithRetry_succeeds_at_attempt
    (scriptedEnv [Reply.throws ⟨"Error", "Error: timeout"⟩,
      Reply.throws ⟨"Error", "Error: timeout"⟩, Reply.returns (JSVal.str "0xABC")])
    sampleTx connectedMetaMask ProviderRef.windowEthereum
    (fun _ => ⟨"Error", "Error: timeout"⟩) 3 (JSVal.str "0xABC")
    rfl (by decide) (by decide)
    (by
      intro j hj
      have hj2 : j < 2 := by omega
      interval_cases j <;> rfl)
    (fun _ _ => Or.inl ((includes_iff "Error: timeout" "timeout").1 (by decide)))
    rfl
  exact ⟨by rw [h.1], h.2.1, h.2.2⟩

/-- C4. The retry test of `sendTxWithRetry` holds of a failure exactly when
its message contains, case-sensitively, one of `timeout`, `Queue is full`,
`JSON RPC`. At every iteration of the retry loop a failure without such a
substring ends the submission with that error and no further attempt; a
failure with one is followed by the next iteration unless it happened in the
last one. -/
theorem isRetryable_iff_transient_and_permanent_stops (env : Env) (txParams : TxParams)
    (maxAttempts delay : Nat) (error : JSError) :
    (Blockchain.isRetryable error = true ↔ Transient error.message) ∧
    (∀ fuel i w,
      (WalletProvider.sendTransaction env txParams
        (if i > 0 then w.record (Event.delay delay) else w)).1 = .error error →
      ¬ Transient error.message →
      Blockchain.sendTxLoop env txParams maxAttempts delay (fuel + 1) i w =
        (.error error, (WalletProvider.sendTransaction env txParams
          (if i > 0 then w.record (Event.delay delay) else w)).2)) ∧
    (∀ fuel i w,
      (WalletProvider.sendTransaction env txParams
        (if i > 0 then w.record (Event.delay delay) else w)).1 = .error error →
      Transient error.message → i + 1 ≠ maxAttempts →
      Blockchain.sendTxLoop env txParams maxAttempts delay (fuel + 1) i w =
        Blockchain.sendTxLoop env txParams maxAttempts delay fuel (i + 1)
          (WalletProvider.sendTransaction env txParams
            (if i > 0 then w.record (Event.delay delay) else w)).2) := by
  refine ⟨isRetryable_iff error, ?_, ?_⟩
  · intro fuel i w hfirst hperm
    have hr := (isRetryable_eq_false_iff error).2 hperm
    generalize hs : WalletProvider.sendTransaction env txParams
      (if i > 0 then w.record (Event.delay delay) else w) = r at hfirst ⊢
    obtain ⟨res, w1⟩ := r
    simp only at hfirst
    subst hfirst
    simp [Blockchain.sendTxLoop, hs, hr]
  · intro fuel i w hfirst htr hlast
    have hr := (isRetryable_iff error).2 htr
    generalize hs : WalletProvider.sendTransaction env txParams
      (if i > 0 then w.record (Event.delay delay) else w) = r at hfirst ⊢
    obtain ⟨res, w1⟩ := r
    simp only at hfirst
    subst hfirst
    have hne : ¬ ((i : Int) = (maxAttempts : Int) - 1) := by omega
    simp [Blockchain.sendTxLoop, hs, hr, hne]

/-- Witness for C4: `execution reverted` is permanent, and the lower-case
`json rpc` does not match `JSON RPC`; the second attempt of a run that meets
`execution reverted` ends it. -/
theorem isRetryable_iff_transient_and_permanent_stops_witness :
    Blockchain.isRetryable ⟨"Error", "json rpc"⟩ = false ∧
    Blockchain.isRetryable ⟨"Error", "Internal JSON RPC error"⟩ = true ∧
    Blockchain.sendTxLoop (alwaysThrows "execution reverted") sampleTx 3 500 2 1
        connectedMetaMask =
      (.error ⟨"Error", "execution reverted"⟩,
        (WalletProvider.sendTransaction (alwaysThrows "execution reverted") sampleTx
          (connectedMetaMask.record (Event.delay 500))).2) := by
  have hperm : ¬ Transient (JSError.mk "Error" "execution reverted").message := by
    rw [← isRetryable_iff]; decide
  exact ⟨by decide, by decide,
    (isRetryable_iff_transient_and_permanent_stops (alwaysThrows "execution reverted") sampleTx
      3 500 ⟨"Error", "execution reverted"⟩).2.1 1 1 connectedMetaMask (by decide) hperm⟩

/-- The retry loop run on two connected sessions whose providers give the
same replies from here on: same outcome, same number of attempts, same
delays. -/
theorem sendTxLoop_provider_independent (env : Env) (txParams : TxParams)
    (maxAttempts delay : Nat) (pF pM : ProviderRef) :
    ∀ (fuel i : Nat) (wF wM : World),
      wF.session.ethereumProvider = some pF → wF.session.currentAddress.truthy = true →
      wM.session.ethereumProvider = some pM → wM.session.currentAddress.truthy = true →
      (∀ k m, env.respond pF (requestCount wF.trace + k) m =
        env.respond pM (requestCount wM.trace + k) m) →
      (Blockchain.sendTxLoop env txParams maxAttempts delay fuel i wF).1 =
        (Blockchain.sendTxLoop env txParams maxAttempts delay fuel i wM).1 ∧
      ∃ evF evM,
        (Blockchain.sendTxLoop env txParams maxAttempts delay fuel i wF).2.trace =
          wF.trace ++ evF ∧
        (Blockchain.sendTxLoop env txParams maxAttempts delay fuel i wM).2.trace =
          wM.trace ++ evM ∧
        attemptCount evF = attemptCount evM ∧ delaysOf evF = delaysOf evM := by
  intro fuel
  induction fuel with
  | zero =>
    intro i wF wM _ _ _ _ _
    exact ⟨rfl, [], [], by simp [Blockchain.sendTxLoop], by simp [Blockchain.sendTxLoop],
      rfl, rfl⟩
  | succ fuel ih =>
    intro i wF wM hpF haF hpM haM hsame
    have h0 := hsame 0 (Method.eth_sendTransaction txParams)
    simp only [Nat.add_zero] at h0
    -- the worlds after the optional delay
    obtain ⟨d, hd⟩ : ∃ d : List Event,
        (if i > 0 then wF.record (Event.delay delay) else wF) = ⟨wF.session, wF.trace ++ d⟩ ∧
        (if i > 0 then wM.record (Event.delay delay) else wM) = ⟨wM.session, wM.trace ++ d⟩ ∧
        requestCount d = 0 := by
      by_cases hi : i > 0
      · exact ⟨[Event.delay delay], by simp [hi, World.record, requestCount]⟩
      · exact ⟨[], by simp [hi, requestCount]⟩
    obtain ⟨hdF, hdM, hd0⟩ := hd
    have sF := sendTransaction_connected env txParams ⟨wF.session, wF.trace ++ d⟩ pF hpF haF
    have sM := sendTransaction_connected env txParams ⟨wM.session, wM.trace ++ d⟩ pM hpM haM
    simp only [requestCount_append, hd0, Nat.add_zero] at sF sM
    rw [← h0] at sM
    cases hr : env.respond pF (requestCount wF.trace) (Method.eth_sendTransaction txParams) with
    | returns txHash =>
      simp only [Blockchain.sendTxLoop, hdF, hdM, sF, sM, hr, Reply.toExcept]
      exact ⟨trivial, d ++ attemptEvents pF txParams, d ++ attemptEvents pM txParams,
        by simp, by simp,
        by simp [attemptCount_append, attemptCount, attemptEvents],
        by simp [delaysOf_append, delaysOf, attemptEvents]⟩
    | throws error =>
      simp only [Blockchain.sendTxLoop, hdF, hdM, sF, sM, hr, Reply.toExcept]
      split
      · exact ⟨rfl, d ++ attemptEvents pF txParams, d ++ attemptEvents pM txParams,
          by simp, by simp,
          by simp [attemptCount_append, attemptCount, attemptEvents],
          by simp [delaysOf_append, delaysOf, attemptEvents]⟩
      · have hnext : ∀ k m,
            env.respond pF (requestCount (wF.trace ++ d ++ attemptEvents pF txParams) + k) m =
              env.respond pM (requestCount (wM.trace ++ d ++ attemptEvents pM txParams) + k) m := by
          intro k m
          have := hsame (1 + k) m
          simpa [requestCount_append, hd0, requestCount, attemptEvents, Nat.add_assoc] using this
        obtain ⟨hres, evF, evM, hF, hM, hac, hdl⟩ :=
          ih (i + 1) ⟨wF.session, wF.trace ++ d ++ attemptEvents pF txParams⟩
            ⟨wM.session, wM.trace ++ d ++ attemptEvents pM txParams⟩ hpF haF hpM haM hnext
        refine ⟨hres, d ++ attemptEvents pF txParams ++ evF,
          d ++ attemptEvents pM txParams ++ evM, ?_, ?_, ?_, ?_⟩
        · rw [hF]; simp
        · rw [hM]; simp
        · simp [attemptCount_append, attemptCount, attemptEvents, hac]
        · simp [delaysOf_append, delaysOf, attemptEvents, hdl]

/-- C5. The retry and classification policy does not depend on the provider
variant: for the same request, attempt budget and delay, a connected
Farcaster session and a connected MetaMask session whose providers give the
same replies from the call on end with the same outcome (same hash or same
error), after the same number of attempts and the same delays. -/
theorem sendTxWithRetry_independent_of_provider (env : Env) (txParams : TxParams)
    (maxAttempts delay : Nat) (pF pM : ProviderRef) (wF wM : World)
    (_hF : wF.session.currentWalletType = WalletType.farcaster)
    (hpF : wF.session.ethereumProvider = some pF)
    (haF : wF.session.currentAddress.truthy = true)
    (_hM : wM.session.currentWalletType = WalletType.metamask)
    (hpM : wM.session.ethereumProvider = some pM)
    (haM : wM.session.currentAddress.truthy = true)
    (hsame : ∀ k m, env.respond pF (requestCount wF.trace + k) m =
      env.respond pM (requestCount wM.trace + k) m) :
    (Blockchain.sendTxWithRetry env txParams maxAttempts delay wF).1 =
      (Blockchain.sendTxWithRetry env txParams maxAttempts delay wM).1 ∧
    ∃ evF evM,
      (Blockchain.sendTxWithRetry env txParams maxAttempts delay wF).2.trace =
        wF.trace ++ evF ∧
      (Blockchain.sendTxWithRetry env txParams maxAttempts delay wM).2.trace =
        wM.trace ++ evM ∧
      attemptCount evF = attemptCount evM ∧ delaysOf evF = delaysOf evM :=
  sendTxLoop_provider_independent env txParams maxAttempts delay pF pM maxAttempts 0 wF wM
    hpF haF hpM haM hsame

/-- Witness for C5: one timeout, then a hash, through either provider. -/
theorem sendTxWithRetry_independent_of_provider_witness :
    (Blockchain.sendTxWithRetry
        (scriptedEnv [Reply.throws ⟨"Error", "timeout"⟩, Reply.returns (JSVal.str "0xABC")])
        sampleTx 3 500 connectedFarcaster).1 =
      (Blockchain.sendTxWithRetry
        (scriptedEnv [Reply.throws ⟨"Error", "timeout"⟩, Reply.returns (JSVal.str "0xABC")])
        sampleTx 3 500 connectedMetaMask).1 :=
  (sendTxWithRetry_independent_of_provider
    (scriptedEnv [Reply.throws ⟨"Error", "timeout"⟩, Reply.returns (JSVal.str "0xABC")])
    sampleTx 3 500 ProviderRef.farcasterProvider ProviderRef.windowEthereum
    connectedFarcaster connectedMetaMask rfl rfl (by decide) rfl rfl (by decide)
    (fun _ _ => rfl)).1

end DonutMiner

/-! ## Address resolution and explicit connect -/

namespace DonutMiner

/-- C6. With capability `None` (no provider was resolved, or the wallet type
is `none`) `getAddress` returns `null`: it does not throw, issues no provider
request and leaves session and trace as they were. -/
theorem getAddress_none_returns_null (env : Env) (w : World)
    (h : w.session.ethereumProvider = none ∨
      w.session.currentWalletType = WalletType.none) :
    WalletProvider.getAddress env w = (.ok JSVal.null, w) := by
  unfold WalletProvider.getAddress
  rcases h with h | h
  · simp [h]
  · cases hp : w.session.ethereumProvider <;> simp [h]

/-- Witness for C6: the session in which no wallet was found. -/
theorem getAddress_none_returns_null_witness :
    WalletProvider.getAddress (scriptedEnv [Reply.returns (JSVal.arr ["0xA11CE"])]) noWallet =
      (.ok JSVal.null, noWallet) :=
  getAddress_none_returns_null _ noWallet (Or.inl rfl)

/-- C7, as stated, fails: in a MetaMask session that never ran
`connectMetaMask`, an extension that answers the silent `eth_accounts` query
with an account makes `getAddress` return that account, not `null`, and
`needsManualConnection()` is false afterwards. -/
theorem getAddress_silent_query_counterexample :
    (WalletProvider.getAddress (scriptedEnv [Reply.returns (JSVal.arr ["0xA11CE"])])
        freshMetaMask).1 = .ok (JSVal.str "0xA11CE") ∧
    WalletProvider.needsManualConnection
      (WalletProvider.getAddress (scriptedEnv [Reply.returns (JSVal.arr ["0xA11CE"])])
        freshMetaMask).2 = false := by
  decide

/-- C7, amended. In a MetaMask session with no cached address `getAddress`
issues exactly one `eth_accounts` request. When the extension reports no
account (the query fails, or answers `null`, `undefined` or the empty list)
`getAddress` returns `null`, the session is unchanged and
`needsManualConnection()` is true afterwards. When it answers with a list
whose first account is the address a, `getAddress` caches and returns a and
`needsManualConnection()` is false afterwards. -/
theorem getAddress_metamask_unconnected (env : Env) (w : World) (p : ProviderRef)
    (ht : w.session.currentWalletType = WalletType.metamask)
    (hp : w.session.ethereumProvider = some p)
    (ha : w.session.currentAddress = JSVal.null) :
    (WalletProvider.getAddress env w).2.trace =
      w.trace ++ [Event.request p Method.eth_accounts] ∧
    ((env.respond p (requestCount w.trace) Method.eth_accounts).noAccount = true →
      WalletProvider.getAddress env w =
        (.ok JSVal.null, ⟨w.session, w.trace ++ [Event.request p Method.eth_accounts]⟩) ∧
      WalletProvider.needsManualConnection (WalletProvider.getAddress env w).2 = true) ∧
    (∀ a rest, a ≠ "" →
      env.respond p (requestCount w.trace) Method.eth_accounts =
        Reply.returns (JSVal.arr (a :: rest)) →
      WalletProvider.getAddress env w =
        (.ok (JSVal.str a),
          ⟨⟨WalletType.metamask, some p, JSVal.str a⟩,
            w.trace ++ [Event.request p Method.eth_accounts]⟩) ∧
      WalletProvider.needsManualConnection (WalletProvider.getAddress env w).2 = false) := by
  obtain ⟨⟨ty, prov, addr⟩, tr⟩ := w
  simp only at ht hp ha
  subst ht hp ha
  refine ⟨?_, ?_, ?_⟩
  · simp only [WalletProvider.getAddress, JSVal.truthy, request, World.record]
    cases hr : env.respond p (requestCount tr) Method.eth_accounts with
    | throws e => simp
    | returns v =>
      rcases v with _ | _ | s | xs
      · simp [JSVal.truthy]
      · simp [JSVal.truthy]
      · by_cases hs : s = ""
        · simp [JSVal.truthy, hs]
        · have hlen : s.data.length > 0 := by
            rcases s with ⟨_ | ⟨c, cs⟩⟩
            · exact absurd rfl hs
            · simp
          rcases hd : s.data with _ | ⟨c, cs⟩
          · rw [hd] at hlen; simp at hlen
          · simp [JSVal.truthy, hs, JSVal.length, JSVal.index0, hd, World.setAddress]
      · rcases xs with _ | ⟨a, rest⟩ <;>
          simp [JSVal.truthy, JSVal.length, JSVal.index0, World.setAddress]
  · intro hno
    cases hr : env.respond p (requestCount tr) Method.eth_accounts with
    | throws e =>
      simp [WalletProvider.getAddress, JSVal.truthy, request, World.record, hr,
        WalletProvider.needsManualConnection]
    | returns v =>
      rw [hr] at hno
      rcases v with _ | _ | s | xs
      · simp [WalletProvider.getAddress, JSVal.truthy, request, World.record, hr,
          WalletProvider.needsManualConnection]
      · simp [WalletProvider.getAddress, JSVal.truthy, request, World.record, hr,
          WalletProvider.needsManualConnection]
      · simp [Reply.noAccount] at hno
      · rcases xs with _ | ⟨a, rest⟩
        · simp [WalletProvider.getAddress, JSVal.truthy, JSVal.length, request, World.record,
            hr, WalletProvider.needsManualConnection]
        · simp [Reply.noAccount] at hno
  · intro a rest hne hr
    simp [WalletProvider.getAddress, JSVal.truthy, JSVal.length, JSVal.index0, request,
      World.record, World.setAddress, hr, WalletProvider.needsManualConnection, hne]

/-- Witness for the amended C7: the extension answers the silent query with
the empty list. -/
theorem getAddress_metamask_unconnected_witness :
    (WalletProvider.getAddress (scriptedEnv [Reply.returns (JSVal.arr [])]) freshMetaMask).1 =
      .ok JSVal.null ∧
    WalletProvider.needsManualConnection
      (WalletProvider.getAddress (scriptedEnv [Reply.returns (JSVal.arr [])])
        freshMetaMask).2 = true := by
  have h := (getAddress_metamask_unconnected (scriptedEnv [Reply.returns (JSVal.arr [])])
    freshMetaMask ProviderRef.windowEthereum rfl rfl rfl).2.1 (by decide)
  exact ⟨by rw [h.1], h.2⟩

/-- The `accountsChanged` listener run n + 1 times on a non-empty account
list: the first account becomes the cached address and each run asks for a
reload. -/
theorem runListeners_accountsChanged_cons (b : String) (bs : List String) :
    ∀ (n : Nat) (w : World),
      WalletProvider.runListeners EventName.accountsChanged (JSVal.arr (b :: bs)) (n + 1) w =
        ⟨⟨w.session.currentWalletType, w.session.ethereumProvider, JSVal.str b⟩,
          w.trace ++ List.replicate (n + 1) Event.reload⟩ := by
  intro n
  induction n with
  | zero =>
    intro w
    simp [WalletProvider.runListeners, WalletProvider.listener,
      WalletProvider.onAccountsChanged, JSVal.length, JSVal.index0, World.setAddress,
      World.record]
  | succ n ih =>
    intro w
    rw [WalletProvider.runListeners, ih]
    simp [WalletProvider.listener, WalletProvider.onAccountsChanged, JSVal.length,
      JSVal.index0, World.setAddress, World.record, List.replicate_succ]

/-- The `accountsChanged` listener run n + 1 times on the empty list: the
cached address is cleared and nothing else happens. -/
theorem runListeners_accountsChanged_nil :
    ∀ (n : Nat) (w : World),
      WalletProvider.runListeners EventName.accountsChanged (JSVal.arr []) (n + 1) w =
        ⟨⟨w.session.currentWalletType, w.session.ethereumProvider, JSVal.null⟩, w.trace⟩ := by
  intro n
  induction n with
  | zero =>
    intro w
    simp [WalletProvider.runListeners, WalletProvider.listener,
      WalletProvider.onAccountsChanged, JSVal.length, World.setAddress]
  | succ n ih =>
    intro w
    rw [WalletProvider.runListeners, ih]
    simp [WalletProvider.listener, WalletProvider.onAccountsChanged, JSVal.length,
      World.setAddress]

/-- A `connectMetaMask` that returned an address cached it and registered
its two listeners on the session's provider. -/
theorem connectMetaMask_ok_str (env : Env) (w : World) (p : ProviderRef) (a : String)
    (hp : w.session.ethereumProvider = some p)
    (hok : (WalletProvider.connectMetaMask env w).1 = .ok (JSVal.str a)) :
    (WalletProvider.connectMetaMask env w).2 =
      ⟨⟨w.session.currentWalletType, some p, JSVal.str a⟩,
        w.trace ++ [Event.request p Method.eth_requestAccounts,
          Event.subscribe p EventName.accountsChanged,
          Event.subscribe p EventName.chainChanged]⟩ := by
  obtain ⟨⟨ty, prov, addr⟩, tr⟩ := w
  simp only at hp
  subst hp
  unfold WalletProvider.connectMetaMask at hok ⊢
  by_cases hty : ty = WalletType.metamask
  · subst hty
    simp only [request, World.record, ne_eq, not_true_eq_false, ite_false] at hok ⊢
    cases hr : env.respond p (requestCount tr) Method.eth_requestAccounts with
    | throws e => simp [hr] at hok
    | returns v =>
      rw [hr] at hok
      rcases v with _ | _ | s | xs
      · simp [JSVal.truthy] at hok
      · simp [JSVal.truthy] at hok
      · by_cases hs : s = ""
        · simp [JSVal.truthy, hs] at hok
        · rcases hd : s.data with _ | ⟨c, cs⟩
          · simp [JSVal.truthy, hs, JSVal.length, hd] at hok
          · simp [JSVal.truthy, hs, JSVal.length, JSVal.index0, hd, World.setAddress,
              World.record] at hok ⊢
            simp [hok]
      · rcases xs with _ | ⟨x, rest⟩
        · simp [JSVal.truthy, JSVal.length] at hok
        · simp [JSVal.truthy, JSVal.length, JSVal.index0, World.setAddress,
            World.record] at hok ⊢
          simp [hok]
  · simp [hty] at hok

/-- C8. After `connectMetaMask` has succeeded (returned the address a), an
`accountsChanged` event of the provider carrying a non-empty account list
sets the cached address to the first account of the list; no provider request
is issued for it (the new effects are reload requests only). An
`accountsChanged` event carrying the empty list sets the cached address to
`null`, so `isConnected()` is false. Wallet type and provider stay as they
were. -/
theorem accountsChanged_after_connect (env : Env) (w : World) (p : ProviderRef) (a : String)
    (hp : w.session.ethereumProvider = some p)
    (hok : (WalletProvider.connectMetaMask env w).1 = .ok (JSVal.str a)) :
    (∀ b bs,
      (WalletProvider.emit p EventName.accountsChanged (JSVal.arr (b :: bs))
        (WalletProvider.connectMetaMask env w).2).session =
          ⟨w.session.currentWalletType, some p, JSVal.str b⟩ ∧
      (WalletProvider.emit p EventName.accountsChanged (JSVal.arr (b :: bs))
        (WalletProvider.connectMetaMask env w).2).trace =
          (WalletProvider.connectMetaMask env w).2.trace ++
            List.replicate (listenerCount p EventName.accountsChanged w.trace + 1)
              Event.reload) ∧
    WalletProvider.emit p EventName.accountsChanged (JSVal.arr [])
        (WalletProvider.connectMetaMask env w).2 =
      ⟨⟨w.session.currentWalletType, some p, JSVal.null⟩,
        (WalletProvider.connectMetaMask env w).2.trace⟩ ∧
    WalletProvider.isConnected
      (WalletProvider.emit p EventName.accountsChanged (JSVal.arr [])
        (WalletProvider.connectMetaMask env w).2) = false := by
  have hw := connectMetaMask_ok_str env w p a hp hok
  have hcount : listenerCount p EventName.accountsChanged
      (WalletProvider.connectMetaMask env w).2.trace =
        listenerCount p EventName.accountsChanged w.trace + 1 := by
    rw [hw]
    simp [listenerCount_append, listenerCount]
  have hnil : WalletProvider.emit p EventName.accountsChanged (JSVal.arr [])
        (WalletProvider.connectMetaMask env w).2 =
      ⟨⟨w.session.currentWalletType, some p, JSVal.null⟩,
        (WalletProvider.connectMetaMask env w).2.trace⟩ := by
    rw [WalletProvider.emit, hcount, runListeners_accountsChanged_nil, hw]
  refine ⟨?_, hnil, ?_⟩
  · intro b bs
    rw [WalletProvider.emit, hcount, runListeners_accountsChanged_cons, hw]
    exact ⟨rfl, rfl⟩
  · rw [hnil]
    simp [WalletProvider.isConnected]

/-- Witness for C8: connect as `0xA11CE`, then the extension switches to
`0xB0B`, or disconnects. -/
theorem accountsChanged_after_connect_witness :
    (WalletProvider.emit ProviderRef.windowEthereum EventName.accountsChanged
        (JSVal.arr ["0xB0B", "0xA11CE"])
        (WalletProvider.connectMetaMask (scriptedEnv [Reply.returns (JSVal.arr ["0xA11CE"])])
          freshMetaMask).2).session.currentAddress = JSVal.str "0xB0B" ∧
    WalletProvider.isConnected
      (WalletProvider.emit ProviderRef.windowEthereum EventName.accountsChanged (JSVal.arr [])
        (WalletProvider.connectMetaMask (scriptedEnv [Reply.returns (JSVal.arr ["0xA11CE"])])
          freshMetaMask).2) = false := by
  have h := accountsChanged_after_connect (scriptedEnv [Reply.returns (JSVal.arr ["0xA11CE"])])
    freshMetaMask ProviderRef.windowEthereum "0xA11CE" rfl (by decide)
  exact ⟨by rw [(h.1 "0xB0B" ["0xA11CE"]).1], h.2.2⟩

/-- C9. Provided the extension does not make the account request fail,
`connectMetaMask` fails with the error `MetaMask not available` exactly when
the wallet type is not MetaMask at the time of the call; in that case it
issues no provider request, registers no listener and leaves the session
unchanged. -/
theorem connectMetaMask_not_available_iff (env : Env) (w : World)
    (hext : ∀ p e, w.session.ethereumProvider = some p →
      env.respond p (requestCount w.trace) Method.eth_requestAccounts ≠ Reply.throws e) :
    ((WalletProvider.connectMetaMask env w).1 = .error ⟨"Error", "MetaMask not available"⟩ ↔
      w.session.currentWalletType ≠ WalletType.metamask) ∧
    (w.session.currentWalletType ≠ WalletType.metamask →
      WalletProvider.connectMetaMask env w =
        (.error ⟨"Error", "MetaMask not available"⟩, w)) := by
  have hstop : w.session.currentWalletType ≠ WalletType.metamask →
      WalletProvider.connectMetaMask env w =
        (.error ⟨"Error", "MetaMask not available"⟩, w) := by
    intro hty
    simp [WalletProvider.connectMetaMask, hty]
  refine ⟨⟨?_, fun hty => by rw [hstop hty]⟩, hstop⟩
  intro herr hty
  obtain ⟨⟨ty, prov, addr⟩, tr⟩ := w
  simp only at hty hext
  subst hty
  unfold WalletProvider.connectMetaMask at herr
  simp only [request, World.record, ne_eq, not_true_eq_false, ite_false] at herr
  cases prov with
  | none => simp [typeErrorNullish] at herr
  | some p =>
    simp only at herr
    cases hr : env.respond p (requestCount tr) Method.eth_requestAccounts with
    | throws e => exact hext p e rfl hr
    | returns v =>
      rw [hr] at herr
      rcases v with _ | _ | s | xs
      · simp [JSVal.truthy] at herr
      · simp [JSVal.truthy] at herr
      · by_cases hs : s = ""
        · simp [JSVal.truthy, hs] at herr
        · rcases hd : s.data with _ | ⟨c, cs⟩
          · simp [JSVal.truthy, hs, JSVal.length, hd] at herr
          · simp [JSVal.truthy, hs, JSVal.length, JSVal.index0, hd] at herr
      · rcases xs with _ | ⟨x, rest⟩
        · simp [JSVal.truthy, JSVal.length] at herr
        · simp [JSVal.truthy, JSVal.length, JSVal.index0] at herr

/-- Witness for C9: a connect attempt in a Farcaster session. -/
theorem connectMetaMask_not_available_iff_witness :
    WalletProvider.connectMetaMask (scriptedEnv [Reply.returns (JSVal.arr ["0xA11CE"])])
        connectedFarcaster =
      (.error ⟨"Error", "MetaMask not available"⟩, connectedFarcaster) :=
  (connectMetaMask_not_available_iff (scriptedEnv [Reply.returns (JSVal.arr ["0xA11CE"])])
    connectedFarcaster (by
      intro p e _
      show (scriptedEnv [Reply.returns (JSVal.arr ["0xA11CE"])]).respond p 0
        Method.eth_requestAccounts ≠ Reply.throws e
      simp [scriptedEnv])).2 (by decide)

/-- C10. When the wallet type is MetaMask and the extension answers
`eth_requestAccounts` with a non-empty list whose first account is the
address a (a non-empty string), `connectMetaMask` returns a, caches it as the
session address, issues that one request and registers exactly one
`accountsChanged` and one `chainChanged` listener; a following `getAddress`
returns a without any provider request, whatever the provider would
answer. -/
theorem connectMetaMask_success (env : Env) (w : World) (p : ProviderRef) (a : String)
    (rest : List String)
    (ht : w.session.currentWalletType = WalletType.metamask)
    (hp : w.session.ethereumProvider = some p)
    (hreply : env.respond p (requestCount w.trace) Method.eth_requestAccounts =
      Reply.returns (JSVal.arr (a :: rest)))
    (ha : a ≠ "") :
    WalletProvider.connectMetaMask env w =
      (.ok (JSVal.str a),
        ⟨⟨WalletType.metamask, some p, JSVal.str a⟩,
          w.trace ++ [Event.request p Method.eth_requestAccounts,
            Event.subscribe p EventName.accountsChanged,
            Event.subscribe p EventName.chainChanged]⟩) ∧
    (∀ env2, WalletProvider.getAddress env2 (WalletProvider.connectMetaMask env w).2 =
      (.ok (JSVal.str a), (WalletProvider.connectMetaMask env w).2)) ∧
    listenerCount p EventName.accountsChanged (WalletProvider.connectMetaMask env w).2.trace =
      listenerCount p EventName.accountsChanged w.trace + 1 ∧
    listenerCount p EventName.chainChanged (WalletProvider.connectMetaMask env w).2.trace =
      listenerCount p EventName.chainChanged w.trace + 1 := by
  have key : WalletProvider.connectMetaMask env w =
      (.ok (JSVal.str a),
        ⟨⟨WalletType.metamask, some p, JSVal.str a⟩,
          w.trace ++ [Event.request p Method.eth_requestAccounts,
            Event.subscribe p EventName.accountsChanged,
            Event.subscribe p EventName.chainChanged]⟩) := by
    simp [WalletProvider.connectMetaMask, ht, hp, request, hreply, JSVal.truthy, JSVal.length,
      JSVal.index0, World.setAddress, World.record]
  refine ⟨key, ?_, ?_, ?_⟩
  · intro env2
    rw [key]
    simp [WalletProvider.getAddress, JSVal.truthy, ha]
  · rw [key]
    simp [listenerCount_append, listenerCount]
  · rw [key]
    simp [listenerCount_append, listenerCount]

/-- Witness for C10: the extension grants the account `0xA11CE`. -/
theorem connectMetaMask_success_witness :
    (WalletProvider.connectMetaMask (scriptedEnv [Reply.returns (JSVal.arr ["0xA11CE"])])
        freshMetaMask).1 = .ok (JSVal.str "0xA11CE") ∧
    (WalletProvider.connectMetaMask (scriptedEnv [Reply.returns (JSVal.arr ["0xA11CE"])])
        freshMetaMask).2.trace =
      [Event.request ProviderRef.windowEthereum Method.eth_requestAccounts,
        Event.subscribe ProviderRef.windowEthereum EventName.accountsChanged,
        Event.subscribe ProviderRef.windowEthereum EventName.chainChanged] := by
  have h := (connectMetaMask_success (scriptedEnv [Reply.returns (JSVal.arr ["0xA11CE"])])
    freshMetaMask ProviderRef.windowEthereum "0xA11CE" [] rfl rfl rfl (by decide)).1
  exact ⟨by rw [h], by rw [h]; rfl⟩

end DonutMiner

/-! ## Address resolution never throws -/

namespace DonutMiner

/-- For every session and every provider behaviour `getAddress` returns a
value; it never throws. -/
theorem getAddress_never_throws (env : Env) (w : World) :
    ∃ v, (WalletProvider.getAddress env w).1 = .ok v := by
  unfold WalletProvider.getAddress
  simp only [request]
  repeat' split
  all_goals exact ⟨_, rfl⟩

/-- For every client state, provider behaviour and page `getUserAddress`
returns a value, never throws, and the value is `null` or the truthy address
that `getAddress` gave. -/
theorem getUserAddress_never_throws (env : Env) (host : Host) (app : App) :
    (Blockchain.getUserAddress env host app).1 = .ok JSVal.null ∨
      ∃ v, v.truthy = true ∧ (WalletProvider.getAddress env app.world).1 = .ok v ∧
        (Blockchain.getUserAddress env host app).1 = .ok v := by
  unfold Blockchain.getUserAddress
  rcases h : WalletProvider.getAddress env app.world with ⟨r, w1⟩
  cases r with
  | error e => left; rfl
  | ok address =>
    simp only
    by_cases ht : address.truthy = true
    · simp only [ht, ite_true, App.setData]
      rcases WalletProvider.getFarcasterContext host w1 with ⟨c, w2⟩
      cases c with
      | error e => left; rfl
      | ok farcasterContext =>
        simp only
        split
        · left; rfl
        · split
          · split
            · left; rfl
            · right; exact ⟨address, ht, rfl, rfl⟩
          · right; exact ⟨address, ht, rfl, rfl⟩
    · rw [if_neg ht]
      left
      split <;> rfl

/-- C11. Address resolution never throws, but `getAddress` does not always
return an address or `null`: in a Farcaster session whose provider answers
`eth_requestAccounts` with the empty list, `getAddress` returns `undefined`
and caches it, after which `isConnected()` is true although there is no
address. (`getUserAddress` turns that into `null`.) -/
theorem getAddress_farcaster_empty_list_undefined :
    WalletProvider.getAddress (scriptedEnv [Reply.returns (JSVal.arr [])]) freshFarcaster =
      (.ok JSVal.undefined,
        ⟨⟨WalletType.farcaster, some ProviderRef.farcasterProvider, JSVal.undefined⟩,
          [Event.request ProviderRef.farcasterProvider Method.eth_requestAccounts]⟩) ∧
    WalletProvider.isConnected
      (WalletProvider.getAddress (scriptedEnv [Reply.returns (JSVal.arr [])])
        freshFarcaster).2 = true ∧
    (Blockchain.getUserAddress (scriptedEnv [Reply.returns (JSVal.arr [])]) bareHost
      ⟨freshFarcaster, initialBlockchainData⟩).1 = .ok JSVal.null := by
  decide

/-- C12. With the Farcaster capability every `getAddress` call issues
exactly one `eth_requestAccounts` request, whatever the provider answers;
when the answer is a non-empty account list, the call returns its first
account and overwrites the cached address with it, whatever was cached
before. -/
theorem getAddress_farcaster_requeries (env : Env) (w : World) (p : ProviderRef)
    (ht : w.session.currentWalletType = WalletType.farcaster)
    (hp : w.session.ethereumProvider = some p) :
    (WalletProvider.getAddress env w).2.trace =
      w.trace ++ [Event.request p Method.eth_requestAccounts] ∧
    (∀ a rest,
      env.respond p (requestCount w.trace) Method.eth_requestAccounts =
        Reply.returns (JSVal.arr (a :: rest)) →
      WalletProvider.getAddress env w =
        (.ok (JSVal.str a),
          ⟨⟨WalletType.farcaster, some p, JSVal.str a⟩,
            w.trace ++ [Event.request p Method.eth_requestAccounts]⟩)) := by
  obtain ⟨⟨ty, prov, addr⟩, tr⟩ := w
  simp only at ht hp
  subst ht hp
  refine ⟨?_, ?_⟩
  · simp only [WalletProvider.getAddress, request, World.record]
    cases env.respond p (requestCount tr) Method.eth_requestAccounts with
    | throws e => rfl
    | returns v =>
      simp only
      cases v.index0 <;> rfl
  · intro a rest hr
    simp [WalletProvider.getAddress, request, World.record, hr, JSVal.index0, World.setAddress]

/-- Witness for C12: `0xA11CE` is cached, the host now answers `0xB0B`. -/
theorem getAddress_farcaster_requeries_witness :
    WalletProvider.getAddress (scriptedEnv [Reply.returns (JSVal.arr ["0xB0B"])])
        connectedFarcaster =
      (.ok (JSVal.str "0xB0B"),
        ⟨⟨WalletType.farcaster, some ProviderRef.farcasterProvider, JSVal.str "0xB0B"⟩,
          [Event.request ProviderRef.farcasterProvider Method.eth_requestAccounts]⟩) :=
  (getAddress_farcaster_requeries (scriptedEnv [Reply.returns (JSVal.arr ["0xB0B"])])
    connectedFarcaster ProviderRef.farcasterProvider rfl rfl).2 "0xB0B" [] rfl

end DonutMiner

/-! ## Capability resolution -/

namespace DonutMiner

theorem Thrown.message_of_nullish (t : Thrown) (h : t.nullish = true) :
    t.message = .error typeErrorNullish := by
  cases t <;> simp_all [Thrown.nullish, Thrown.message]

theorem Thrown.message_of_not_nullish (t : Thrown) (h : t.nullish = false) :
    ∃ m, t.message = .ok m := by
  cases t <;> simp_all [Thrown.nullish, Thrown.message]

/-- A handshake that succeeds does not reach the `catch` block. -/
theorem handshakeSucceeds_not_escapes (host : Host) (h : handshakeSucceeds host) :
    ¬ handshakeEscapes host := by
  obtain ⟨_, hr, p, hp⟩ := h
  rintro ⟨_, ⟨t, ht, _⟩ | ⟨_, t, ht, _⟩⟩
  · rw [hr] at ht; cases ht
  · rw [hp] at ht; cases ht

/-- What `initializeWallet` does when the embedded handshake succeeds. -/
theorem initializeWallet_of_handshake (host : Host) (w : World) (h : handshakeSucceeds host) :
    (WalletProvider.initializeWallet host w).1 = .ok ⟨WalletType.farcaster, true, none⟩ := by
  obtain ⟨hd, hr, p, hp⟩ := h
  simp [WalletProvider.initializeWallet, hd, hr, hp]

/-- What `initializeWallet` does when the handshake rejects with `null` or
`undefined`: the `catch` block throws, and the session is as it was. -/
theorem initializeWallet_of_escape (host : Host) (w : World) (h : handshakeEscapes host) :
    (WalletProvider.initializeWallet host w).1 = .error typeErrorNullish ∧
      (WalletProvider.initializeWallet host w).2.session = w.session := by
  obtain ⟨hd, ⟨t, hr, hn⟩ | ⟨hr, t, hp, hn⟩⟩ := h
  · simp [WalletProvider.initializeWallet, hd, hr, Thrown.message_of_nullish t hn,
      World.record]
  · simp [WalletProvider.initializeWallet, hd, hr, hp, Thrown.message_of_nullish t hn,
      World.record]

/-- What `initializeWallet` does when the embedded handshake does not
succeed and its `catch` block does not throw: it behaves as its tail, up to
the trace (for the session: when no provider was stored before). -/
theorem initializeWallet_of_no_handshake (host : Host) (w : World)
    (h : ¬ handshakeSucceeds host) (he : ¬ handshakeEscapes host) :
    (WalletProvider.initializeWallet host w).1 =
        (WalletProvider.initializeWalletFallback host w).1 ∧
      (w.session.ethereumProvider = none →
        (WalletProvider.initializeWallet host w).2.session =
          (WalletProvider.initializeWalletFallback host w).2.session) := by
  obtain ⟨⟨ty, prov, addr⟩, tr⟩ := w
  unfold WalletProvider.initializeWallet
  by_cases hd : WalletProvider.isFarcasterEnvironment host = true
  · simp only [hd, ite_true]
    cases hr : host.sdkReady with
    | some t =>
      cases hn : t.nullish with
      | true => exact absurd ⟨hd, Or.inl ⟨t, hr, hn⟩⟩ he
      | false =>
        obtain ⟨m, hm⟩ := Thrown.message_of_not_nullish t hn
        simp only [hm, WalletProvider.initializeWalletFallback, World.record]
        split <;> exact ⟨rfl, fun _ => rfl⟩
    | none =>
      cases hp : host.sdkProvider with
      | error t =>
        cases hn : t.nullish with
        | true => exact absurd ⟨hd, Or.inr ⟨hr, t, hp, hn⟩⟩ he
        | false =>
          obtain ⟨m, hm⟩ := Thrown.message_of_not_nullish t hn
          simp only [hm, WalletProvider.initializeWalletFallback, World.record]
          split <;> exact ⟨rfl, fun _ => rfl⟩
      | ok provider =>
        cases provider with
        | none =>
          simp only [WalletProvider.initializeWalletFallback, World.record]
          split <;>
          · refine ⟨rfl, fun hw => ?_⟩
            simp only at hw
            subst hw
            rfl
        | some p => exact absurd ⟨hd, hr, p, hp⟩ h
  · simp only [hd]
    exact ⟨rfl, fun _ => rfl⟩

/-- When `initializeWallet` returns a result at all: the handshake
succeeds, or its `catch` block does not throw and neither does
`isMetaMaskAvailable()`. -/
theorem initializeWallet_returns_iff (host : Host) (w : World) :
    (∃ r, (WalletProvider.initializeWallet host w).1 = .ok r) ↔
      handshakeSucceeds host ∨
        (¬ handshakeEscapes host ∧ ∃ b, WalletProvider.isMetaMaskAvailable host = .ok b) := by
  by_cases h : handshakeSucceeds host
  · exact ⟨fun _ => Or.inl h, fun _ => ⟨_, initializeWallet_of_handshake host w h⟩⟩
  · by_cases he : handshakeEscapes host
    · constructor
      · rintro ⟨r, hr⟩
        rw [(initializeWallet_of_escape host w he).1] at hr
        cases hr
      · rintro (h2 | ⟨h2, _⟩)
        · exact absurd h2 h
        · exact absurd he h2
    · rw [(initializeWallet_of_no_handshake host w h he).1]
      unfold WalletProvider.initializeWalletFallback
      cases hm : WalletProvider.isMetaMaskAvailable host with
      | error e =>
        constructor
        · rintro ⟨r, hr⟩
          cases hr
        · rintro (h2 | ⟨_, b, hb⟩)
          · exact absurd h2 h
          · cases hb
      | ok b =>
        cases b
        · exact ⟨fun _ => Or.inr ⟨he, false, rfl⟩, fun _ => ⟨_, rfl⟩⟩
        · exact ⟨fun _ => Or.inr ⟨he, true, rfl⟩, fun _ => ⟨_, rfl⟩⟩

/-- The fall-through to the MetaMask check: without a successful handshake
and without a throwing `catch` block, `initializeWallet` selects MetaMask
when `isMetaMaskAvailable()` is truthy, selects nothing when it is falsy, and
throws what `isMetaMaskAvailable()` throws. -/
theorem initializeWallet_fall_through (host : Host) (w : World)
    (h : ¬ handshakeSucceeds host) (he : ¬ handshakeEscapes host) :
    (WalletProvider.isMetaMaskAvailable host = .ok true →
      (WalletProvider.initializeWallet host w).1 =
        .ok ⟨WalletType.metamask, true, some true⟩ ∧
      (w.session.ethereumProvider = none →
        (WalletProvider.initializeWallet host w).2.session =
          ⟨WalletType.metamask, some ProviderRef.windowEthereum,
            w.session.currentAddress⟩)) ∧
    (WalletProvider.isMetaMaskAvailable host = .ok false →
      (WalletProvider.initializeWallet host w).1 = .ok ⟨WalletType.none, false, none⟩ ∧
      (w.session.ethereumProvider = none →
        (WalletProvider.initializeWallet host w).2.session = w.session)) ∧
    (∀ e, WalletProvider.isMetaMaskAvailable host = .error e →
      (WalletProvider.initializeWallet host w).1 = .error e ∧
      (w.session.ethereumProvider = none →
        (WalletProvider.initializeWallet host w).2.session = w.session)) := by
  obtain ⟨h1, h2⟩ := initializeWallet_of_no_handshake host w h he
  refine ⟨fun hm => ?_, fun hm => ?_, fun e hm => ?_⟩
  · refine ⟨?_, fun hw => ?_⟩
    · rw [h1]; simp [WalletProvider.initializeWalletFallback, hm]
    · rw [h2 hw]; simp [WalletProvider.initializeWalletFallback, hm]
  · refine ⟨?_, fun hw => ?_⟩
    · rw [h1]; simp [WalletProvider.initializeWalletFallback, hm]
    · rw [h2 hw]; simp [WalletProvider.initializeWalletFallback, hm]
  · refine ⟨?_, fun hw => ?_⟩
    · rw [h1]; simp [WalletProvider.initializeWalletFallback, hm]
    · rw [h2 hw]; simp [WalletProvider.initializeWalletFallback, hm]

/-- C13. Starting from the initial session, `initializeWallet` applies the
ordered first-match policy. It returns type `farcaster` (with success) exactly
when the Farcaster environment is detected and the SDK handshake yields a
provider, whether or not MetaMask is present; otherwise it returns type
`metamask` with `needsConnection: true`, and leaves the cached address
`null`, exactly when `window.ethereum` exists with `isMetaMask`; otherwise it
returns type `none` with `success: false`. This is the order among the
results it returns; it returns one unless the handshake rejects with `null` /
`undefined` or `window.ethereum` is `null` on the way to the MetaMask check. -/
theorem initializeWallet_first_match (host : Host) :
    (handshakeSucceeds host →
      (WalletProvider.initializeWallet host initialWorld).1 =
        .ok ⟨WalletType.farcaster, true, none⟩) ∧
    (¬ handshakeSucceeds host → ¬ handshakeEscapes host →
      WalletProvider.isMetaMaskAvailable host = .ok true →
      (WalletProvider.initializeWallet host initialWorld).1 =
        .ok ⟨WalletType.metamask, true, some true⟩ ∧
      (WalletProvider.initializeWallet host initialWorld).2.session =
        ⟨WalletType.metamask, some ProviderRef.windowEthereum, JSVal.null⟩) ∧
    (¬ handshakeSucceeds host → ¬ handshakeEscapes host →
      WalletProvider.isMetaMaskAvailable host = .ok false →
      (WalletProvider.initializeWallet host initialWorld).1 =
        .ok ⟨WalletType.none, false, none⟩) ∧
    (∀ r, (WalletProvider.initializeWallet host initialWorld).1 = .ok r →
      (r.type = WalletType.farcaster ↔ handshakeSucceeds host) ∧
      (r.type = WalletType.metamask ↔
        ¬ handshakeSucceeds host ∧ WalletProvider.isMetaMaskAvailable host = .ok true) ∧
      (r.type = WalletType.none ↔
        ¬ handshakeSucceeds host ∧ WalletProvider.isMetaMaskAvailable host = .ok false)) ∧
    ((∃ r, (WalletProvider.initializeWallet host initialWorld).1 = .ok r) ↔
      handshakeSucceeds host ∨
        (¬ handshakeEscapes host ∧ ∃ b, WalletProvider.isMetaMaskAvailable host = .ok b)) ∧
    (WalletProvider.isMetaMaskAvailable host = .ok true ↔
      host.windowDefined = true ∧ host.ethereum = WindowEthereum.object true) := by
  have hF := initializeWallet_of_handshake host initialWorld
  have hM : ¬ handshakeSucceeds host → ¬ handshakeEscapes host →
      WalletProvider.isMetaMaskAvailable host = .ok true →
      (WalletProvider.initializeWallet host initialWorld).1 =
        .ok ⟨WalletType.metamask, true, some true⟩ ∧
      (WalletProvider.initializeWallet host initialWorld).2.session =
        ⟨WalletType.metamask, some ProviderRef.windowEthereum, JSVal.null⟩ := by
    intro h he hm
    obtain ⟨h1, h2⟩ := (initializeWallet_fall_through host initialWorld h he).1 hm
    exact ⟨h1, h2 rfl⟩
  have hN : ¬ handshakeSucceeds host → ¬ handshakeEscapes host →
      WalletProvider.isMetaMaskAvailable host = .ok false →
      (WalletProvider.initializeWallet host initialWorld).1 =
        .ok ⟨WalletType.none, false, none⟩ := by
    intro h he hm
    exact ((initializeWallet_fall_through host initialWorld h he).2.1 hm).1
  refine ⟨hF, hM, hN, ?_, initializeWallet_returns_iff host initialWorld, ?_⟩
  · intro r hr
    by_cases h : handshakeSucceeds host
    · rw [hF h] at hr
      cases hr
      simp [h]
    · have he : ¬ handshakeEscapes host := by
        intro he
        rw [(initializeWallet_of_escape host initialWorld he).1] at hr
        cases hr
      cases hm : WalletProvider.isMetaMaskAvailable host with
      | error e =>
        rw [((initializeWallet_fall_through host initialWorld h he).2.2 e hm).1] at hr
        cases hr
      | ok b =>
        cases b with
        | true =>
          rw [(hM h he hm).1] at hr
          cases hr
          simp [h]
        | false =>
          rw [hN h he hm] at hr
          cases hr
          simp [h]
  · unfold WalletProvider.isMetaMaskAvailable
    cases host.windowDefined <;> cases host.ethereum <;> simp

/-- Witness for C13: inside Farcaster the embedded provider wins although
MetaMask is installed; in a plain tab MetaMask is selected, not connected. -/
theorem initializeWallet_first_match_witness :
    (WalletProvider.initializeWallet farcasterHost initialWorld).1 =
      .ok ⟨WalletType.farcaster, true, none⟩ ∧
    (WalletProvider.initializeWallet metaMaskHost initialWorld).1 =
      .ok ⟨WalletType.metamask, true, some true⟩ :=
  ⟨(initializeWallet_first_match farcasterHost).1
      ⟨by decide, rfl, ProviderRef.farcasterProvider, rfl⟩,
    ((initializeWallet_first_match metaMaskHost).2.1
      (fun h => absurd h.1 (by decide))
      (fun h => absurd h.1 (by decide))
      (by decide)).1⟩

/-- C14. Capability resolution is one-shot, but it can fail. The only
effects of `initializeWallet` are at most one `ready()` call followed by at
most one `getEthereumProvider()` call. When the handshake rejects with an
error or another value that has a `message` property to read, or yields no
provider, the code falls through to the MetaMask check: it selects
`window.ethereum` when that has `isMetaMask` and nothing otherwise, exactly
as on a page on which the embedded environment is not detected. But
`initializeWallet` throws a `TypeError`, and selects nothing, when the
handshake rejects with `null` or `undefined` (the `catch` block reads
`error.message`), even with MetaMask installed, and when `window.ethereum` is
`null` at the MetaMask check; it returns a result in every other case. -/
theorem initializeWallet_one_shot (host : Host) (w : World) :
    (∃ evs, evs ∈ handshakeTraces ∧
      (WalletProvider.initializeWallet host w).2.trace = w.trace ++ evs) ∧
    ((∃ r, (WalletProvider.initializeWallet host w).1 = .ok r) ↔
      handshakeSucceeds host ∨
        (¬ handshakeEscapes host ∧ ∃ b, WalletProvider.isMetaMaskAvailable host = .ok b)) ∧
    (handshakeEscapes host →
      (WalletProvider.initializeWallet host w).1 = .error typeErrorNullish ∧
      (WalletProvider.initializeWallet host w).2.session = w.session) ∧
    (¬ handshakeSucceeds host → ¬ handshakeEscapes host →
      w.session.ethereumProvider = none →
      (WalletProvider.isMetaMaskAvailable host = .ok true →
        (WalletProvider.initializeWallet host w).1 =
          .ok ⟨WalletType.metamask, true, some true⟩ ∧
        (WalletProvider.initializeWallet host w).2.session =
          ⟨WalletType.metamask, some ProviderRef.windowEthereum,
            w.session.currentAddress⟩) ∧
      (WalletProvider.isMetaMaskAvailable host = .ok false →
        (WalletProvider.initializeWallet host w).1 = .ok ⟨WalletType.none, false, none⟩ ∧
        (WalletProvider.initializeWallet host w).2.session = w.session) ∧
      (WalletProvider.isMetaMaskAvailable host = .error typeErrorNullish →
        (WalletProvider.initializeWallet host w).1 = .error typeErrorNullish ∧
        (WalletProvider.initializeWallet host w).2.session = w.session) ∧
      ∀ host2, WalletProvider.isFarcasterEnvironment host2 = false →
        WalletProvider.isMetaMaskAvailable host2 = WalletProvider.isMetaMaskAvailable host →
        (WalletProvider.initializeWallet host w).1 =
            (WalletProvider.initializeWallet host2 w).1 ∧
          (WalletProvider.initializeWallet host w).2.session =
            (WalletProvider.initializeWallet host2 w).2.session) ∧
    (WalletProvider.isMetaMaskAvailable host = .error typeErrorNullish ↔
      host.windowDefined = true ∧ host.ethereum = WindowEthereum.null) := by
  refine ⟨?_, initializeWallet_returns_iff host w, initializeWallet_of_escape host w, ?_, ?_⟩
  · unfold WalletProvider.initializeWallet WalletProvider.initializeWalletFallback
    simp only [World.record, handshakeTraces]
    repeat' split
    all_goals first
      | (refine ⟨[], ?_, ?_⟩ <;> simp <;> done)
      | (refine ⟨[Event.sdkReady], ?_, ?_⟩ <;> simp <;> done)
      | (refine ⟨[Event.sdkReady, Event.sdkGetEthereumProvider], ?_, ?_⟩ <;> simp)
  · intro h he hw
    obtain ⟨f1, f2, f3⟩ := initializeWallet_fall_through host w h he
    refine ⟨fun hm => ⟨(f1 hm).1, (f1 hm).2 hw⟩, fun hm => ⟨(f2 hm).1, (f2 hm).2 hw⟩,
      fun hm => ⟨(f3 _ hm).1, (f3 _ hm).2 hw⟩, ?_⟩
    intro host2 hd2 hm2
    obtain ⟨h1, h2⟩ := initializeWallet_of_no_handshake host w h he
    rw [h1, h2 hw]
    simp [WalletProvider.initializeWallet, hd2, WalletProvider.initializeWalletFallback, hm2]
  · unfold WalletProvider.isMetaMaskAvailable
    cases host.windowDefined <;> cases host.ethereum <;> simp

/-- Witness for C14: when the handshake rejects with an `Error` on a framed
page with MetaMask, MetaMask is selected after one `ready()` call; when it
rejects with `undefined` on the same page, `initializeWallet` throws and
nothing is selected. -/
theorem initializeWallet_one_shot_witness :
    ((WalletProvider.initializeWallet brokenFrameHost initialWorld).1 =
        .ok ⟨WalletType.metamask, true, some true⟩ ∧
      (WalletProvider.initializeWallet brokenFrameHost initialWorld).2.session =
        ⟨WalletType.metamask, some ProviderRef.windowEthereum, JSVal.null⟩) ∧
    (WalletProvider.initializeWallet brokenFrameHost initialWorld).2.trace =
      [Event.sdkReady] ∧
    (WalletProvider.isMetaMaskAvailable nullishFrameHost = .ok true ∧
      (WalletProvider.initializeWallet nullishFrameHost initialWorld).1 =
        .error typeErrorNullish ∧
      (WalletProvider.initializeWallet nullishFrameHost initialWorld).2.session =
        initialWorld.session) :=
  ⟨((initializeWallet_one_shot brokenFrameHost initialWorld).2.2.2.1
      (fun h => absurd h.2.1 (by decide))
      (by
        rintro ⟨_, ⟨t, ht, hn⟩ | ⟨hr, _⟩⟩
        · cases ht
          cases hn
        · cases hr)
      rfl).1 (by decide),
    by decide,
    by decide,
    (initializeWallet_one_shot nullishFrameHost initialWorld).2.2.1
      ⟨by decide, Or.inl ⟨Thrown.undefined, rfl, rfl⟩⟩⟩

end DonutMiner

/-! ## Frame properties of the wallet operations -/

namespace DonutMiner

theorem fetchCount_append (t u : List Event) :
    fetchCount (t ++ u) = fetchCount t + fetchCount u := by
  induction t with
  | nil => simp [fetchCount]
  | cons e t ih =>
    cases e with
    | fetch endpoint player => simp [fetchCount, ih]; omega
    | _ => simp [fetchCount, ih]

theorem fetchesOf_append (t u : List Event) :
    fetchesOf (t ++ u) = fetchesOf t ++ fetchesOf u := by
  induction t with
  | nil => simp [fetchesOf]
  | cons e t ih => cases e <;> simp [fetchesOf, ih]

theorem timersOf_append (t u : List Event) :
    timersOf (t ++ u) = timersOf t ++ timersOf u := by
  induction t with
  | nil => simp [timersOf]
  | cons e t ih => cases e <;> simp [timersOf, ih]

theorem alertsOf_append (t u : List Event) :
    alertsOf (t ++ u) = alertsOf t ++ alertsOf u := by
  induction t with
  | nil => simp [alertsOf]
  | cons e t ih => cases e <;> simp [alertsOf, ih]

/-- Submission effects contain no API request, no scheduled refresh and no
alert. -/
theorem submission_events_silent (evs : List Event)
    (h : evs.all Event.isSubmission = true) :
    fetchesOf evs = [] ∧ fetchCount evs = 0 ∧ timersOf evs = [] ∧ alertsOf evs = [] := by
  induction evs with
  | nil => simp [fetchesOf, fetchCount, timersOf, alertsOf]
  | cons e t ih =>
    simp only [List.all_cons, Bool.and_eq_true] at h
    obtain ⟨he, ht⟩ := h
    obtain ⟨h1, h2, h3, h4⟩ := ih ht
    cases e <;> simp_all [Event.isSubmission, fetchesOf, fetchCount, timersOf, alertsOf]

/-- The retry loop leaves the session as it was and adds only submission
effects to the trace. -/
theorem sendTxLoop_frame (env : Env) (txParams : TxParams) (maxAttempts delay : Nat) :
    ∀ (fuel i : Nat) (w : World), ∃ evs,
      (Blockchain.sendTxLoop env txParams maxAttempts delay fuel i w).2 =
        ⟨w.session, w.trace ++ evs⟩ ∧ evs.all Event.isSubmission = true := by
  intro fuel
  induction fuel with
  | zero => intro i w; exact ⟨[], by simp [Blockchain.sendTxLoop], rfl⟩
  | succ fuel ih =>
    intro i w
    obtain ⟨d, hd, hdall⟩ : ∃ d : List Event,
        (if i > 0 then w.record (Event.delay delay) else w) = ⟨w.session, w.trace ++ d⟩ ∧
        d.all Event.isSubmission = true := by
      by_cases hi : i > 0
      · exact ⟨[Event.delay delay], by simp [hi, World.record], rfl⟩
      · exact ⟨[], by simp [hi], rfl⟩
    have hs := sendTransaction_session env txParams ⟨w.session, w.trace ++ d⟩
    obtain ⟨a, ha, haall⟩ : ∃ a : List Event,
        (WalletProvider.sendTransaction env txParams ⟨w.session, w.trace ++ d⟩).2.trace =
          w.trace ++ d ++ a ∧ a.all Event.isSubmission = true := by
      rcases sendTransaction_trace env txParams ⟨w.session, w.trace ++ d⟩ with h | ⟨p, h⟩
      · exact ⟨_, h, rfl⟩
      · exact ⟨_, h, rfl⟩
    rcases hr : WalletProvider.sendTransaction env txParams ⟨w.session, w.trace ++ d⟩
      with ⟨res, w1⟩
    rw [hr] at hs ha
    simp only at hs ha
    obtain ⟨s1, t1⟩ := w1
    simp only at hs ha
    subst hs ha
    simp only [Blockchain.sendTxLoop, hd, hr]
    cases res with
    | ok txHash =>
      exact ⟨d ++ a, by simp, by simp [List.all_append, hdall, haall]⟩
    | error error =>
      simp only
      split
      · exact ⟨d ++ a, by simp, by simp [List.all_append, hdall, haall]⟩
      · obtain ⟨evs, he, heall⟩ := ih (i + 1) ⟨w.session, w.trace ++ d ++ a⟩
        exact ⟨d ++ a ++ evs, by rw [he]; simp, by simp [List.all_append, hdall, haall, heall]⟩

/-- The listeners of `connectMetaMask` leave the capability as it was. -/
theorem runListeners_capability (ev : EventName) (payload : JSVal) :
    ∀ (n : Nat) (w : World),
      capability (WalletProvider.runListeners ev payload n w) = capability w := by
  intro n
  induction n with
  | zero => intro w; rfl
  | succ n ih =>
    intro w
    rw [WalletProvider.runListeners, ih]
    cases ev with
    | accountsChanged =>
      simp only [WalletProvider.listener, WalletProvider.onAccountsChanged]
      split
      · rfl
      · split
        · split <;> rfl
        · rfl
    | chainChanged => rfl

/-- The explicit connect leaves the capability as it was. -/
theorem connectMetaMask_capability (env : Env) (w : World) :
    capability (WalletProvider.connectMetaMask env w).2 = capability w := by
  unfold WalletProvider.connectMetaMask
  split
  · rfl
  · cases hp : w.session.ethereumProvider with
    | none => rfl
    | some p =>
      simp only [request]
      cases env.respond p (requestCount w.trace) Method.eth_requestAccounts with
      | throws e => rfl
      | returns accounts =>
        simp only
        split
        · cases accounts.length with
          | error e => rfl
          | ok n =>
            simp only
            split
            · cases accounts.index0 <;> simp only [capability, World.record, World.setAddress, hp]
            · rfl
        · rfl

/-- Address resolution leaves the capability as it was. -/
theorem getAddress_capability (env : Env) (w : World) :
    capability (WalletProvider.getAddress env w).2 = capability w := by
  unfold WalletProvider.getAddress
  cases hp : w.session.ethereumProvider with
  | none => rfl
  | some p =>
    simp only [request]
    cases ht : w.session.currentWalletType with
    | none => rfl
    | farcaster =>
      simp only
      cases env.respond p (requestCount w.trace) Method.eth_requestAccounts with
      | throws e => rfl
      | returns accounts =>
        simp only
        cases accounts.index0 <;> simp only [capability, World.record, World.setAddress, hp, ht]
    | metamask =>
      simp only
      split
      · cases env.respond p (requestCount w.trace) Method.eth_accounts with
        | throws e => rfl
        | returns accounts =>
          simp only
          split
          · cases accounts.length with
            | error e => rfl
            | ok n =>
              simp only
              split
              · cases accounts.index0 <;>
                  simp only [capability, World.record, World.setAddress, hp, ht]
              · rfl
          · rfl
      · rfl

/-- C16. Once resolved, the active capability does not change:
`connectMetaMask`, `getAddress`, `getFarcasterContext`, `sendTransaction` and
the `accountsChanged` / `chainChanged` listeners (run one by one or through
an event of the provider) all leave `currentWalletType` and
`ethereumProvider` as they were, whether they succeed or fail. -/
theorem capability_unchanged (env : Env) (host : Host) (txParams : TxParams)
    (p : ProviderRef) (ev : EventName) (payload : JSVal) (w : World) :
    capability (WalletProvider.connectMetaMask env w).2 = capability w ∧
    capability (WalletProvider.getAddress env w).2 = capability w ∧
    capability (WalletProvider.getFarcasterContext host w).2 = capability w ∧
    capability (WalletProvider.sendTransaction env txParams w).2 = capability w ∧
    capability (WalletProvider.onAccountsChanged payload w).2 = capability w ∧
    capability (WalletProvider.onChainChanged w).2 = capability w ∧
    capability (WalletProvider.emit p ev payload w) = capability w := by
  refine ⟨?_, ?_, ?_, ?_, ?_, rfl, runListeners_capability ev payload _ w⟩
  · exact connectMetaMask_capability env w
  · exact getAddress_capability env w
  · unfold WalletProvider.getFarcasterContext
    repeat' split
    all_goals rfl
  · simp only [capability, sendTransaction_session]
  · exact runListeners_capability EventName.accountsChanged payload 1 w

/-- C17. Submission only reads the session: for every request, attempt
budget, delay and provider behaviour, `sendTxWithRetry` and
`WalletProvider.sendTransaction` return the session (wallet type, provider,
cached address) as they found it, and the client state rebuilt around their
result has the same `State.blockchainData`; this holds whether they return a
hash or fail. -/
theorem submission_only_reads_session (env : Env) (txParams : TxParams)
    (maxAttempts delay : Nat) (app : App) :
    (Blockchain.sendTxWithRetry env txParams maxAttempts delay app.world).2.session =
      app.world.session ∧
    (WalletProvider.sendTransaction env txParams app.world).2.session = app.world.session ∧
    ({ app with world :=
        (Blockchain.sendTxWithRetry env txParams maxAttempts delay app.world).2 } :
      App).blockchainData = app.blockchainData ∧
    ({ app with world := (WalletProvider.sendTransaction env txParams app.world).2 } :
      App).blockchainData = app.blockchainData := by
  refine ⟨?_, sendTransaction_session env txParams app.world, rfl, rfl⟩
  obtain ⟨evs, h, _⟩ := sendTxLoop_frame env txParams maxAttempts delay maxAttempts 0 app.world
  rw [Blockchain.sendTxWithRetry, h]

/-- Frame of the default submission inside the action flows: the session is
kept, and the trace gains no API request, no scheduled refresh and no
alert. -/
theorem sendTxWithRetryDefault_frame (env : Env) (txParams : TxParams) (w : World) :
    (Blockchain.sendTxWithRetryDefault env txParams w).2.session = w.session ∧
    fetchesOf (Blockchain.sendTxWithRetryDefault env txParams w).2.trace = fetchesOf w.trace ∧
    fetchCount (Blockchain.sendTxWithRetryDefault env txParams w).2.trace =
      fetchCount w.trace ∧
    timersOf (Blockchain.sendTxWithRetryDefault env txParams w).2.trace = timersOf w.trace ∧
    alertsOf (Blockchain.sendTxWithRetryDefault env txParams w).2.trace = alertsOf w.trace := by
  obtain ⟨evs, h, hall⟩ := sendTxLoop_frame env txParams 3 500 3 0 w
  obtain ⟨h1, h2, h3, h4⟩ := submission_events_silent evs hall
  rw [Blockchain.sendTxWithRetryDefault, Blockchain.sendTxWithRetry, h]
  simp [fetchesOf_append, fetchCount_append, timersOf_append, alertsOf_append, h1, h2, h3, h4]

end DonutMiner

/-! ## Game state and action flows -/

namespace DonutMiner

/-- C19. The action flows require a connected address: when
`State.blockchainData.userAddress` is `null`, empty or otherwise falsy,
`openGlazeFrame` and `handleBlazeClick` only set the spin speed and show the
alert `Please connect your wallet first`; they send no API request, make no
submission attempt, schedule no refresh and leave `State.blockchainData` and
the wallet session unchanged. -/
theorem action_flows_require_address (env : Env) (host : Host) (app : App)
    (h : (app.blockchainData.get "userAddress").truthy = false) :
    Blockchain.openGlazeFrame env host app =
      (.ok (), ⟨⟨app.world.session, app.world.trace ++
        [Event.setDonutSpinSpeed, Event.alert "Please connect your wallet first"]⟩,
        app.blockchainData⟩) ∧
    Blockchain.handleBlazeClick env host app =
      (.ok (), ⟨⟨app.world.session, app.world.trace ++
        [Event.setDonutSpinSpeed, Event.alert "Please connect your wallet first"]⟩,
        app.blockchainData⟩) ∧
    fetchesOf (app.world.trace ++
      [Event.setDonutSpinSpeed, Event.alert "Please connect your wallet first"]) =
        fetchesOf app.world.trace ∧
    attemptCount (app.world.trace ++
      [Event.setDonutSpinSpeed, Event.alert "Please connect your wallet first"]) =
        attemptCount app.world.trace ∧
    timersOf (app.world.trace ++
      [Event.setDonutSpinSpeed, Event.alert "Please connect your wallet first"]) =
        timersOf app.world.trace := by
  refine ⟨?_, ?_, ?_, ?_, ?_⟩
  · simp [Blockchain.openGlazeFrame, App.record, World.record, h]
  · simp [Blockchain.handleBlazeClick, App.record, World.record, h]
  · simp [fetchesOf_append, fetchesOf]
  · simp [attemptCount_append, attemptCount]
  · simp [timersOf_append, timersOf]

/-- Witness for C19: both buttons pressed before any wallet is connected. -/
theorem action_flows_require_address_witness :
    (Blockchain.openGlazeFrame (scriptedEnv []) apiHost unconnectedApp).2.world.trace =
      [Event.setDonutSpinSpeed, Event.alert "Please connect your wallet first"] ∧
    (Blockchain.handleBlazeClick (scriptedEnv []) apiHost unconnectedApp).2.blockchainData =
      initialBlockchainData := by
  have h := action_flows_require_address (scriptedEnv []) apiHost unconnectedApp (by decide)
  exact ⟨by rw [h.1]; rfl, by rw [h.2.1]; rfl⟩

/-- C20. When the game-state request fails (the fetch rejects) or the HTTP
response is not ok, `fetchGameState` returns `null` without throwing; its
only effect is the request itself, and `State.blockchainData`, its `blaze`
record included, is exactly as before the call. -/
theorem fetchGameState_failure_keeps_state (host : Host) (userAddress : Value) (app : App)
    (hfail :
      (∃ error, host.fetch (fetchCount app.world.trace) Endpoint.getGameState
        (if userAddress.truthy then some userAddress else none) =
          FetchReply.rejects error) ∨
      (∃ response, host.fetch (fetchCount app.world.trace) Endpoint.getGameState
        (if userAddress.truthy then some userAddress else none) =
          FetchReply.resolves response ∧ response.ok = false)) :
    Blockchain.fetchGameState host userAddress app =
      (.ok FetchResult.null,
        app.record (Event.fetch Endpoint.getGameState
          (if userAddress.truthy then some userAddress else none))) ∧
    (Blockchain.fetchGameState host userAddress app).2.blockchainData = app.blockchainData ∧
    (Blockchain.fetchGameState host userAddress app).2.blockchainData.get "blaze" =
      app.blockchainData.get "blaze" := by
  have key : Blockchain.fetchGameState host userAddress app =
      (.ok FetchResult.null,
        app.record (Event.fetch Endpoint.getGameState
          (if userAddress.truthy then some userAddress else none))) := by
    rcases hfail with ⟨error, h⟩ | ⟨response, h, hok⟩
    · simp only [Blockchain.fetchGameState, fetch, h]
    · simp [Blockchain.fetchGameState, fetch, h, hok]
  refine ⟨key, ?_, ?_⟩ <;> rw [key] <;> rfl

/-- Witness for C20: the API answers `500`. -/
theorem fetchGameState_failure_keeps_state_witness :
    (Blockchain.fetchGameState failingApiHost (Value.atom (Atom.str "0xA11CE"))
        connectedApp).1 = .ok FetchResult.null ∧
    (Blockchain.fetchGameState failingApiHost (Value.atom (Atom.str "0xA11CE"))
        connectedApp).2.blockchainData = connectedApp.blockchainData := by
  have h := fetchGameState_failure_keeps_state failingApiHost (Value.atom (Atom.str "0xA11CE"))
    connectedApp (Or.inr ⟨⟨false, 500, .error ⟨"SyntaxError", "Unexpected token"⟩, .ok "oops"⟩,
      rfl, rfl⟩)
  exact ⟨by rw [h.1], h.2.1⟩

theorem lookup_map_set {α : Type} (k : String) (v : α) :
    ∀ l : List (String × α), (l.lookup k).isSome = true →
      (l.map fun kv => if kv.1 == k then (kv.1, v) else kv).lookup k = some v := by
  intro l
  induction l with
  | nil => simp
  | cons kv t ih =>
    obtain ⟨k2, x⟩ := kv
    intro h
    by_cases hk : k = k2
    · subst hk
      rw [List.map_cons]
      simp only [beq_self_eq_true, if_true]
      rw [List.lookup_cons]
      simp
    · have hb : (k == k2) = false := by simpa using hk
      have hb2 : (k2 == k) = false := by simpa using fun h : k2 = k => hk h.symm
      rw [List.lookup_cons] at h
      simp only [hb] at h
      rw [List.map_cons]
      simp only [hb2, Bool.false_eq_true, if_false]
      rw [List.lookup_cons]
      simp only [hb]
      exact ih h

/-- Reading a property right after writing it gives what was written. -/
theorem lookup_assocSet_self {α : Type} (l : List (String × α)) (k : String) (v : α) :
    (assocSet l k v).lookup k = some v := by
  unfold assocSet
  split
  · rename_i h
    exact lookup_map_set k v l h
  · rename_i h
    simp only [Bool.not_eq_true, Option.not_isSome, Option.isNone_iff_eq_none] at h
    rw [List.lookup_append, h]
    simp [List.lookup_cons]

theorem Record.get_set_self (r : Record) (k : String) (v : Value) : (r.set k v).get k = v := by
  simp [Record.get, Record.set, lookup_assocSet_self]

theorem DisplayOnly.refl (app : App) : DisplayOnly app app :=
  ⟨rfl, rfl, [], by simp, rfl⟩

theorem DisplayOnly.record (app app2 : App) (e : Event) (h : DisplayOnly app app2)
    (he : e.isDisplay = true) : DisplayOnly app (app2.record e) := by
  obtain ⟨h1, h2, evs, h3, h4⟩ := h
  refine ⟨h1, h2, evs ++ [e], ?_, ?_⟩
  · simp [App.record, World.record, h3]
  · simp [List.all_append, h4, he]

theorem DisplayOnly.ite (app x y : App) (c : Prop) [Decidable c] (hx : DisplayOnly app x)
    (hy : DisplayOnly app y) : DisplayOnly app (if c then x else y) := by
  split <;> assumption

/-- Display effects contain no API request, no scheduled refresh, no alert
and no submission attempt. -/
theorem display_events_silent (evs : List Event) (h : evs.all Event.isDisplay = true) :
    fetchesOf evs = [] ∧ fetchCount evs = 0 ∧ timersOf evs = [] ∧ alertsOf evs = [] ∧
      attemptCount evs = 0 := by
  induction evs with
  | nil => simp [fetchesOf, fetchCount, timersOf, alertsOf, attemptCount]
  | cons e t ih =>
    simp only [List.all_cons, Bool.and_eq_true] at h
    obtain ⟨he, ht⟩ := h
    obtain ⟨h1, h2, h3, h4, h5⟩ := ih ht
    cases e <;>
      simp_all [Event.isDisplay, fetchesOf, fetchCount, timersOf, alertsOf, attemptCount]

/-- The Blazery rendering only writes to DOM nodes. -/
theorem updateBlazeryUI_displayOnly (host : Host) (app : App) :
    DisplayOnly app (UI.updateBlazeryUI host app) := by
  unfold UI.updateBlazeryUI
  simp only
  split
  · exact DisplayOnly.refl app
  · split
    · repeat' first
        | exact DisplayOnly.refl app
        | rfl
        | apply DisplayOnly.ite
        | apply DisplayOnly.record
    · exact DisplayOnly.refl app

/-- Whatever its outcome, `sendApprovalTransaction` sends exactly one API
request, to the approval route. -/
theorem sendApprovalTransaction_fetchesOf (env : Env) (host : Host) (address : Value)
    (app : App) :
    fetchesOf (Blockchain.sendApprovalTransaction env host address app).2.world.trace =
      fetchesOf app.world.trace ++ [(Endpoint.approveLp, some address)] := by
  unfold Blockchain.sendApprovalTransaction
  simp only [fetch]
  cases host.fetch (fetchCount app.world.trace) Endpoint.approveLp (some address) with
  | rejects e => simp [App.record, World.record, fetchesOf_append, fetchesOf]
  | resolves response =>
    simp only
    split
    · simp [App.record, World.record, fetchesOf_append, fetchesOf]
    · cases response.json with
      | error e => simp [App.record, World.record, fetchesOf_append, fetchesOf]
      | ok txData =>
        simp only
        cases readParams txData with
        | error e => simp [App.record, World.record, fetchesOf_append, fetchesOf]
        | ok r =>
          obtain ⟨to_, data, value⟩ := r
          simp only
          have hf := (sendTxWithRetryDefault_frame env
            ⟨address, Value.atom to_, Value.atom data, Value.atom (orZero value)⟩
            (app.record (Event.fetch Endpoint.approveLp (some address))).world).2.1
          generalize Blockchain.sendTxWithRetryDefault env
            ⟨address, Value.atom to_, Value.atom data, Value.atom (orZero value)⟩
            (app.record (Event.fetch Endpoint.approveLp (some address))).world = r at hf ⊢
          obtain ⟨res, w2⟩ := r
          simp only [App.record, World.record, fetchesOf_append, fetchesOf,
            List.append_nil] at hf
          cases res with
          | error e => simp [App.record, World.record, fetchesOf_append, fetchesOf, hf]
          | ok txHash =>
            simp only
            split
            · simp [App.record, World.record, fetchesOf_append, fetchesOf, hf]
            · rename_i blaze _
              obtain ⟨_, _, evs, ht, hall⟩ := updateBlazeryUI_displayOnly host
                (App.setData ⟨w2, app.blockchainData⟩ "blaze" blaze)
              simp only [App.record, World.record, App.setData] at ht ⊢
              rw [ht]
              simp [fetchesOf_append, fetchesOf, hf, (display_events_silent evs hall).1]

/-- Whatever its outcome, `sendBuyTransaction` sends exactly one API request,
to the buy route. -/
theorem sendBuyTransaction_fetchesOf (env : Env) (host : Host) (address : Value) (app : App) :
    fetchesOf (Blockchain.sendBuyTransaction env host address app).2.world.trace =
      fetchesOf app.world.trace ++ [(Endpoint.blazeTransaction, some address)] := by
  unfold Blockchain.sendBuyTransaction
  simp only [fetch]
  cases host.fetch (fetchCount app.world.trace) Endpoint.blazeTransaction (some address) with
  | rejects e => simp [App.record, World.record, fetchesOf_append, fetchesOf]
  | resolves response =>
    simp only
    split
    · simp [App.record, World.record, fetchesOf_append, fetchesOf]
    · cases response.json with
      | error e => simp [App.record, World.record, fetchesOf_append, fetchesOf]
      | ok txData =>
        simp only
        cases readParams txData with
        | error e => simp [App.record, World.record, fetchesOf_append, fetchesOf]
        | ok r =>
          obtain ⟨to_, data, value⟩ := r
          simp only
          have hf := (sendTxWithRetryDefault_frame env
            ⟨address, Value.atom to_, Value.atom data, Value.atom (orZero value)⟩
            (app.record (Event.fetch Endpoint.blazeTransaction (some address))).world).2.1
          generalize Blockchain.sendTxWithRetryDefault env
            ⟨address, Value.atom to_, Value.atom data, Value.atom (orZero value)⟩
            (app.record (Event.fetch Endpoint.blazeTransaction (some address))).world = r
            at hf ⊢
          obtain ⟨res, w2⟩ := r
          simp only [App.record, World.record, fetchesOf_append, fetchesOf,
            List.append_nil] at hf
          cases res <;> simp [App.record, World.record, fetchesOf_append, fetchesOf, hf]

/-- C18. In `handleBlazeClick` with an address set and `userNeedsApproval`
falsy, the balance check comes before any submission step. When the parsed
`userLpBalanceFormatted` is smaller than the parsed `priceFormatted`, the
handler only sets the spin speed and shows the insufficient-balance alert:
no API request and no submission attempt. Otherwise it runs
`sendBuyTransaction`, whose single API request goes to the buy route. -/
theorem handleBlazeClick_balance_check (env : Env) (host : Host) (app : App)
    (address : Value) (flag balance price : Atom)
    (haddr : app.blockchainData.get "userAddress" = address)
    (htruthy : address.truthy = true)
    (hflag : (app.blockchainData.get "blaze").prop "userNeedsApproval" = .ok flag)
    (hfalse : flag.truthy = false)
    (hbalance : (app.blockchainData.get "blaze").prop "userLpBalanceFormatted" = .ok balance)
    (hprice : (app.blockchainData.get "blaze").prop "priceFormatted" = .ok price) :
    ((host.parseFloat balance).lt (host.parseFloat price) = true →
      Blockchain.handleBlazeClick env host app =
        (.ok (), ⟨⟨app.world.session, app.world.trace ++
          [Event.setDonutSpinSpeed,
           Event.alert ("Insufficient LP balance. Need " ++
             host.toFixed 4 (host.parseFloat price) ++ " LP but only have " ++
             host.toFixed 4 (host.parseFloat balance) ++ " LP")]⟩, app.blockchainData⟩) ∧
      fetchesOf (Blockchain.handleBlazeClick env host app).2.world.trace =
        fetchesOf app.world.trace ∧
      attemptCount (Blockchain.handleBlazeClick env host app).2.world.trace =
        attemptCount app.world.trace) ∧
    ((host.parseFloat balance).lt (host.parseFloat price) = false →
      Blockchain.handleBlazeClick env host app =
        (.ok (), (Blockchain.sendBuyTransaction env host address
          (app.record Event.setDonutSpinSpeed)).2) ∧
      fetchesOf (Blockchain.handleBlazeClick env host app).2.world.trace =
        fetchesOf app.world.trace ++ [(Endpoint.blazeTransaction, some address)]) := by
  subst haddr
  refine ⟨?_, ?_⟩
  · intro hlt
    have key : Blockchain.handleBlazeClick env host app =
        (.ok (), ⟨⟨app.world.session, app.world.trace ++
          [Event.setDonutSpinSpeed,
           Event.alert ("Insufficient LP balance. Need " ++
             host.toFixed 4 (host.parseFloat price) ++ " LP but only have " ++
             host.toFixed 4 (host.parseFloat balance) ++ " LP")]⟩, app.blockchainData⟩) := by
      simp [Blockchain.handleBlazeClick, App.record, World.record, htruthy, hflag, hfalse,
        hbalance, hprice, hlt]
    refine ⟨key, ?_, ?_⟩ <;> rw [key]
    · simp [fetchesOf_append, fetchesOf]
    · simp [attemptCount_append, attemptCount]
  · intro hlt
    have key : Blockchain.handleBlazeClick env host app =
        (.ok (), (Blockchain.sendBuyTransaction env host (app.blockchainData.get "userAddress")
          (app.record Event.setDonutSpinSpeed)).2) := by
      simp only [Blockchain.handleBlazeClick, App.record, World.record, htruthy, hflag, hfalse,
        hbalance, hprice, hlt]
      simp only [Bool.not_true, Bool.false_eq_true, if_false]
      split <;> simp_all
    refine ⟨key, ?_⟩
    rw [key, sendBuyTransaction_fetchesOf]
    simp [App.record, World.record, fetchesOf_append, fetchesOf]

/-- Witness for C18: balance `1` against price `2` stops at the check;
balance `2` against price `1` goes on to the buy route. -/
theorem handleBlazeClick_balance_check_witness :
    fetchesOf (Blockchain.handleBlazeClick (scriptedEnv []) apiHost
      approvedPoorApp).2.world.trace = [] ∧
    fetchesOf (Blockchain.handleBlazeClick (scriptedEnv [Reply.returns (JSVal.str "0xABC")])
      apiHost approvedRichApp).2.world.trace =
        [(Endpoint.blazeTransaction, some (Value.atom (Atom.str "0xA11CE")))] :=
  ⟨((handleBlazeClick_balance_check (scriptedEnv []) apiHost approvedPoorApp
      (Value.atom (Atom.str "0xA11CE")) (Atom.bool false) (Atom.str "1") (Atom.str "2")
      rfl (by decide) rfl (by decide) rfl rfl).1 (by decide)).2.1,
    ((handleBlazeClick_balance_check (scriptedEnv [Reply.returns (JSVal.str "0xABC")]) apiHost
      approvedRichApp (Value.atom (Atom.str "0xA11CE")) (Atom.bool false) (Atom.str "2")
      (Atom.str "1") rfl (by decide) rfl (by decide) rfl rfl).2 (by decide)).2⟩

/-- C15. Approval flow. When an address is set and
`State.blockchainData.blaze.userNeedsApproval` is truthy, `handleBlazeClick`
runs `sendApprovalTransaction` and nothing else: its single API request goes
to the approval route, none to the buy route. When the approval parameters
arrive and the submission returns a hash, `userNeedsApproval` is set to
`false` first, then the Blazery view is redrawn, and only then the 3000 ms
refresh is scheduled (the last effect; the refresh itself has not run). -/
theorem handleBlazeClick_approval_flow (env : Env) (host : Host) (app : App)
    (address : Value) (props : List (String × Atom))
    (haddr : app.blockchainData.get "userAddress" = address)
    (htruthy : address.truthy = true)
    (hblaze : app.blockchainData.get "blaze" = Value.obj props)
    (hflag : ((props.lookup "userNeedsApproval").getD Atom.undefined).truthy = true) :
    Blockchain.handleBlazeClick env host app =
      (.ok (), (Blockchain.sendApprovalTransaction env host address
        (app.record Event.setDonutSpinSpeed)).2) ∧
    fetchesOf (Blockchain.handleBlazeClick env host app).2.world.trace =
      fetchesOf app.world.trace ++ [(Endpoint.approveLp, some address)] ∧
    (∀ response txData to_ data value txHash w2,
      host.fetch (fetchCount app.world.trace) Endpoint.approveLp (some address) =
        FetchReply.resolves response →
      response.ok = true →
      response.json = .ok txData →
      readParams txData = .ok (to_, data, value) →
      Blockchain.sendTxWithRetryDefault env
        ⟨address, Value.atom to_, Value.atom data, Value.atom (orZero value)⟩
        ⟨app.world.session, app.world.trace ++
          [Event.setDonutSpinSpeed, Event.fetch Endpoint.approveLp (some address)]⟩ =
          (.ok txHash, w2) →
      (Blockchain.handleBlazeClick env host app).2 =
        (UI.updateBlazeryUI host
          ⟨w2, app.blockchainData.set "blaze"
            (Value.obj (assocSet props "userNeedsApproval" (Atom.bool false)))⟩).record
          (Event.setTimeout 3000) ∧
      ((Blockchain.handleBlazeClick env host app).2.blockchainData.get "blaze").prop
        "userNeedsApproval" = .ok (Atom.bool false)) := by
  subst haddr
  have key : Blockchain.handleBlazeClick env host app =
      (.ok (), (Blockchain.sendApprovalTransaction env host
        (app.blockchainData.get "userAddress") (app.record Event.setDonutSpinSpeed)).2) := by
    simp only [Blockchain.handleBlazeClick, App.record, htruthy, hblaze, Value.prop, hflag]
    simp only [Bool.not_true, Bool.false_eq_true, if_false, if_true]
    split <;> simp_all
  refine ⟨key, ?_, ?_⟩
  · rw [key, sendApprovalTransaction_fetchesOf]
    simp [App.record, World.record, fetchesOf_append, fetchesOf]
  · intro response txData to_ data value txHash w2 hfetch hok hjson hparams hsend
    have hcount : fetchCount (app.world.trace ++ [Event.setDonutSpinSpeed]) =
        fetchCount app.world.trace := by
      simp [fetchCount_append, fetchCount]
    have hfinal : (Blockchain.handleBlazeClick env host app).2 =
        (UI.updateBlazeryUI host
          ⟨w2, app.blockchainData.set "blaze"
            (Value.obj (assocSet props "userNeedsApproval" (Atom.bool false)))⟩).record
          (Event.setTimeout 3000) := by
      rw [key]
      simp [Blockchain.sendApprovalTransaction, fetch, App.record, World.record, hcount, hfetch,
        hok, hjson, hparams, hsend, hblaze, Value.setProp, App.setData]
    refine ⟨hfinal, ?_⟩
    rw [hfinal]
    have hd := (updateBlazeryUI_displayOnly host
      ⟨w2, app.blockchainData.set "blaze"
        (Value.obj (assocSet props "userNeedsApproval" (Atom.bool false)))⟩).1
    simp only [App.record, hd, Record.get_set_self, Value.prop, lookup_assocSet_self,
      Option.getD_some]

/-- Witness for C15: connected as `0xA11CE` with approval pending; the API
hands out the approval parameters and the wallet returns the hash `0xABC`. -/
theorem handleBlazeClick_approval_flow_witness :
    fetchesOf (Blockchain.handleBlazeClick (scriptedEnv [Reply.returns (JSVal.str "0xABC")])
      apiHost connectedApp).2.world.trace =
        [(Endpoint.approveLp, some (Value.atom (Atom.str "0xA11CE")))] ∧
    ((Blockchain.handleBlazeClick (scriptedEnv [Reply.returns (JSVal.str "0xABC")])
      apiHost connectedApp).2.blockchainData.get "blaze").prop "userNeedsApproval" =
        .ok (Atom.bool false) :=
  ⟨(handleBlazeClick_approval_flow (scriptedEnv [Reply.returns (JSVal.str "0xABC")]) apiHost
      connectedApp (Value.atom (Atom.str "0xA11CE"))
      [("epochId", Atom.num (JSNumber.fin 0)), ("price", Atom.str "0"),
        ("priceFormatted", Atom.str "0"), ("wethBalance", Atom.str "0"),
        ("wethBalanceFormatted", Atom.str "0"), ("userLpBalance", Atom.str "0"),
        ("userLpBalanceFormatted", Atom.str "0"), ("paymentToken", Atom.null),
        ("userNeedsApproval", Atom.bool true)]
      (by decide) (by decide) (by decide) (by decide)).2.1,
    ((handleBlazeClick_approval_flow (scriptedEnv [Reply.returns (JSVal.str "0xABC")]) apiHost
      connectedApp (Value.atom (Atom.str "0xA11CE"))
      [("epochId", Atom.num (JSNumber.fin 0)), ("price", Atom.str "0"),
        ("priceFormatted", Atom.str "0"), ("wethBalance", Atom.str "0"),
        ("wethBalanceFormatted", Atom.str "0"), ("userLpBalance", Atom.str "0"),
        ("userLpBalanceFormatted", Atom.str "0"), ("paymentToken", Atom.null),
        ("userNeedsApproval", Atom.bool true)]
      (by decide) (by decide) (by decide) (by decide)).2.2
      ⟨true, 200, .ok sampleTxData, .ok ""⟩ sampleTxData (Atom.str "0xC0FFEE")
      (Atom.str "0x00") (Atom.str "0x0") (JSVal.str "0xABC")
      (Blockchain.sendTxWithRetryDefault (scriptedEnv [Reply.returns (JSVal.str "0xABC")])
        ⟨Value.atom (Atom.str "0xA11CE"), Value.atom (Atom.str "0xC0FFEE"),
          Value.atom (Atom.str "0x00"), Value.atom (Atom.str "0x0")⟩
        ⟨connectedApp.world.session, connectedApp.world.trace ++
          [Event.setDonutSpinSpeed,
            Event.fetch Endpoint.approveLp (some (Value.atom (Atom.str "0xA11CE")))]⟩).2
      rfl rfl rfl (by decide) (by decide)).2⟩

end DonutMiner

/-! ## Sessions that cannot submit, session consistency, empty connect -/

namespace DonutMiner

/-- C24. Submitting without a usable session fails fast. For every attempt
budget of at least one and every delay: when no provider was resolved,
`sendTxWithRetry` fails with `No wallet provider available`; when there is a
provider but the cached address is `null` (or otherwise falsy), it fails with
`Wallet not connected`. In both cases `WalletProvider.sendTransaction` is
entered exactly once, no request reaches the provider and no delay is
awaited. -/
theorem sendTxWithRetry_without_session (env : Env) (txParams : TxParams)
    (maxAttempts delay : Nat) (w : World) (hmax : 0 < maxAttempts) :
    (w.session.ethereumProvider = none →
      Blockchain.sendTxWithRetry env txParams maxAttempts delay w =
        (.error ⟨"Error", "No wallet provider available"⟩,
          ⟨w.session, w.trace ++ [Event.sendTransactionCall txParams]⟩)) ∧
    (∀ p, w.session.ethereumProvider = some p → w.session.currentAddress.truthy = false →
      Blockchain.sendTxWithRetry env txParams maxAttempts delay w =
        (.error ⟨"Error", "Wallet not connected"⟩,
          ⟨w.session, w.trace ++ [Event.sendTransactionCall txParams]⟩)) ∧
    requestCount (w.trace ++ [Event.sendTransactionCall txParams]) = requestCount w.trace ∧
    delaysOf (w.trace ++ [Event.sendTransactionCall txParams]) = delaysOf w.trace ∧
    attemptCount (w.trace ++ [Event.sendTransactionCall txParams]) =
      attemptCount w.trace + 1 := by
  obtain ⟨n, rfl⟩ : ∃ n, maxAttempts = n + 1 := ⟨maxAttempts - 1, by omega⟩
  refine ⟨?_, ?_, ?_, ?_, ?_⟩
  · intro hp
    have h1 : Blockchain.isRetryable ⟨"Error", "No wallet provider available"⟩ = false := by
      decide
    simp [Blockchain.sendTxWithRetry, Blockchain.sendTxLoop, WalletProvider.sendTransaction,
      World.record, hp, h1]
  · intro p hp ha
    have h1 : Blockchain.isRetryable ⟨"Error", "Wallet not connected"⟩ = false := by decide
    simp [Blockchain.sendTxWithRetry, Blockchain.sendTxLoop, WalletProvider.sendTransaction,
      World.record, hp, ha, h1]
  · simp [requestCount_append, requestCount]
  · simp [delaysOf_append, delaysOf]
  · simp [attemptCount_append, attemptCount]

/-- Witness for C24: no wallet at all, and MetaMask selected but never
connected. -/
theorem sendTxWithRetry_without_session_witness :
    (Blockchain.sendTxWithRetry (scriptedEnv [Reply.returns (JSVal.str "0xABC")]) sampleTx 3 500
      noWallet).1 = .error ⟨"Error", "No wallet provider available"⟩ ∧
    Blockchain.sendTxWithRetry (scriptedEnv [Reply.returns (JSVal.str "0xABC")]) sampleTx 3 500
      freshMetaMask =
        (.error ⟨"Error", "Wallet not connected"⟩,
          ⟨freshMetaMask.session, [Event.sendTransactionCall sampleTx]⟩) :=
  ⟨by
      rw [(sendTxWithRetry_without_session (scriptedEnv [Reply.returns (JSVal.str "0xABC")])
        sampleTx 3 500 noWallet (by decide)).1 rfl],
    (sendTxWithRetry_without_session (scriptedEnv [Reply.returns (JSVal.str "0xABC")])
      sampleTx 3 500 freshMetaMask (by decide)).2.1 ProviderRef.windowEthereum rfl rfl⟩

/-- C26. Session consistency after resolution: after `initializeWallet` has
run from the initial session, `ethereumProvider` is set exactly when
`getWalletType()` is not `none`, `getWalletType()` is the `type` of the
returned result, and the cached address is `null`, so `isConnected()` is
false. A result is returned unless the handshake rejects with `null` /
`undefined` or `window.ethereum` is `null` at the MetaMask check; in those
cases the session is consistent as well, with type `none` and no provider. -/
theorem initializeWallet_session_consistent (host : Host) :
    ((WalletProvider.initializeWallet host initialWorld).2.session.ethereumProvider ≠ none ↔
      WalletProvider.getWalletType (WalletProvider.initializeWallet host initialWorld).2 ≠
        WalletType.none) ∧
    (∀ r, (WalletProvider.initializeWallet host initialWorld).1 = .ok r →
      WalletProvider.getWalletType (WalletProvider.initializeWallet host initialWorld).2 =
        r.type) ∧
    (∀ e, (WalletProvider.initializeWallet host initialWorld).1 = .error e →
      WalletProvider.getWalletType (WalletProvider.initializeWallet host initialWorld).2 =
        WalletType.none ∧
      (WalletProvider.initializeWallet host initialWorld).2.session.ethereumProvider =
        none) ∧
    ((∃ r, (WalletProvider.initializeWallet host initialWorld).1 = .ok r ∧
        WalletProvider.getWalletType (WalletProvider.initializeWallet host initialWorld).2 =
          r.type) ↔
      handshakeSucceeds host ∨
        (¬ handshakeEscapes host ∧ ∃ b, WalletProvider.isMetaMaskAvailable host = .ok b)) ∧
    (WalletProvider.initializeWallet host initialWorld).2.session.currentAddress = JSVal.null ∧
    WalletProvider.isConnected (WalletProvider.initializeWallet host initialWorld).2 = false := by
  have hr : ∀ r, (WalletProvider.initializeWallet host initialWorld).1 = .ok r →
      WalletProvider.getWalletType (WalletProvider.initializeWallet host initialWorld).2 =
        r.type := by
    unfold WalletProvider.initializeWallet WalletProvider.initializeWalletFallback
    simp only [initialWorld, World.record, WalletProvider.getWalletType]
    repeat' split
    all_goals simp
  refine ⟨?_, hr, ?_, ?_, ?_, ?_⟩
  · unfold WalletProvider.initializeWallet WalletProvider.initializeWalletFallback
    simp only [initialWorld, World.record, WalletProvider.getWalletType]
    repeat' split
    all_goals simp
  · unfold WalletProvider.initializeWallet WalletProvider.initializeWalletFallback
    simp only [initialWorld, World.record, WalletProvider.getWalletType]
    repeat' split
    all_goals simp
  · rw [← initializeWallet_returns_iff host initialWorld]
    exact ⟨fun ⟨r, h, _⟩ => ⟨r, h⟩, fun ⟨r, h⟩ => ⟨r, h, hr r h⟩⟩
  · unfold WalletProvider.initializeWallet WalletProvider.initializeWalletFallback
    simp only [initialWorld, World.record]
    repeat' split
    all_goals simp
  · unfold WalletProvider.initializeWallet WalletProvider.initializeWalletFallback
    simp only [initialWorld, World.record, WalletProvider.isConnected]
    repeat' split
    all_goals simp

/-- Witness for C26: in a plain tab with MetaMask a result is returned, of
type `metamask`, which is the wallet type of the session. -/
theorem initializeWallet_session_consistent_witness :
    ∃ r, (WalletProvider.initializeWallet metaMaskHost initialWorld).1 = .ok r ∧
      WalletProvider.getWalletType (WalletProvider.initializeWallet metaMaskHost initialWorld).2 =
        r.type :=
  (initializeWallet_session_consistent metaMaskHost).2.2.2.1.2
    (Or.inr ⟨fun h => absurd h.1 (by decide), true, by decide⟩)

/-- C27. When the wallet type is MetaMask and the extension answers
`eth_requestAccounts` with the empty list, or with no list at all (`null`,
`undefined`), `connectMetaMask` returns no address (`undefined`) without
throwing; the cached address stays as it was and no `accountsChanged` or
`chainChanged` listener is registered: the only effect is the request. -/
theorem connectMetaMask_empty_list (env : Env) (w : World) (p : ProviderRef)
    (ht : w.session.currentWalletType = WalletType.metamask)
    (hp : w.session.ethereumProvider = some p)
    (hreply :
      env.respond p (requestCount w.trace) Method.eth_requestAccounts =
          Reply.returns (JSVal.arr []) ∨
        env.respond p (requestCount w.trace) Method.eth_requestAccounts =
          Reply.returns JSVal.null ∨
        env.respond p (requestCount w.trace) Method.eth_requestAccounts =
          Reply.returns JSVal.undefined) :
    WalletProvider.connectMetaMask env w =
      (.ok JSVal.undefined,
        ⟨w.session, w.trace ++ [Event.request p Method.eth_requestAccounts]⟩) ∧
    listenerCount p EventName.accountsChanged
      (w.trace ++ [Event.request p Method.eth_requestAccounts]) =
        listenerCount p EventName.accountsChanged w.trace ∧
    listenerCount p EventName.chainChanged
      (w.trace ++ [Event.request p Method.eth_requestAccounts]) =
        listenerCount p EventName.chainChanged w.trace := by
  refine ⟨?_, ?_, ?_⟩
  · rcases hreply with h | h | h <;>
      simp [WalletProvider.connectMetaMask, ht, hp, request, h, JSVal.truthy, JSVal.length,
        World.record]
  · simp [listenerCount_append, listenerCount]
  · simp [listenerCount_append, listenerCount]

/-- Witness for C27: the user closes the MetaMask prompt and the extension
answers with the empty list. -/
theorem connectMetaMask_empty_list_witness :
    WalletProvider.connectMetaMask (scriptedEnv [Reply.returns (JSVal.arr [])]) freshMetaMask =
      (.ok JSVal.undefined,
        ⟨freshMetaMask.session,
          [Event.request ProviderRef.windowEthereum Method.eth_requestAccounts]⟩) :=
  (connectMetaMask_empty_list (scriptedEnv [Reply.returns (JSVal.arr [])]) freshMetaMask
    ProviderRef.windowEthereum rfl rfl (Or.inl rfl)).1

end DonutMiner

/-! ## Resource bounds of the retry loop -/

namespace DonutMiner

theorem callsOf_append (t u : List Event) : callsOf (t ++ u) = callsOf t ++ callsOf u := by
  induction t with
  | nil => simp [callsOf]
  | cons e t ih => cases e <;> simp [callsOf, ih]

/-- What one pass through the loop body adds before the outcome of the
attempt is looked at: the delay (when `i > 0`), one entry into
`WalletProvider.sendTransaction`, and at most one provider request. -/
theorem sendTxLoop_step (env : Env) (txParams : TxParams) (delay i : Nat) (w : World) :
    ∃ evs,
      (WalletProvider.sendTransaction env txParams
        (if i > 0 then w.record (Event.delay delay) else w)).2 =
          ⟨w.session, w.trace ++ evs⟩ ∧
      evs.all Event.isSubmission = true ∧ callsOf evs = [txParams] ∧ attemptCount evs = 1 ∧
      delaysOf evs = if i = 0 then [] else [delay] := by
  obtain ⟨d, hd, hd1, hd2, hd3, hd4⟩ : ∃ d : List Event,
      (if i > 0 then w.record (Event.delay delay) else w) = ⟨w.session, w.trace ++ d⟩ ∧
      d.all Event.isSubmission = true ∧ callsOf d = [] ∧ attemptCount d = 0 ∧
      delaysOf d = if i = 0 then [] else [delay] := by
    by_cases hi : i > 0
    · have hi0 : ¬ i = 0 := by omega
      exact ⟨[Event.delay delay], by simp [hi, World.record], rfl, rfl, rfl, by simp [hi0, delaysOf]⟩
    · have hi0 : i = 0 := by omega
      exact ⟨[], by simp [hi], rfl, rfl, rfl, by simp [hi0, delaysOf]⟩
  rw [hd]
  have hs := sendTransaction_session env txParams ⟨w.session, w.trace ++ d⟩
  rcases sendTransaction_trace env txParams ⟨w.session, w.trace ++ d⟩ with h | ⟨p, h⟩
  · refine ⟨d ++ [Event.sendTransactionCall txParams], ?_, ?_, ?_, ?_, ?_⟩
    · rcases hr : WalletProvider.sendTransaction env txParams ⟨w.session, w.trace ++ d⟩
        with ⟨res, ⟨s1, t1⟩⟩
      rw [hr] at hs h
      simp only at hs h
      subst hs h
      simp
    · simp [List.all_append, hd1, Event.isSubmission]
    · simp [callsOf_append, hd2, callsOf]
    · simp [attemptCount_append, hd3, attemptCount]
    · simp [delaysOf_append, hd4, delaysOf]
  · refine ⟨d ++ attemptEvents p txParams, ?_, ?_, ?_, ?_, ?_⟩
    · rcases hr : WalletProvider.sendTransaction env txParams ⟨w.session, w.trace ++ d⟩
        with ⟨res, ⟨s1, t1⟩⟩
      rw [hr] at hs h
      simp only at hs h
      subst hs h
      simp
    · simp [List.all_append, hd1, Event.isSubmission, attemptEvents]
    · simp [callsOf_append, hd2, callsOf, attemptEvents]
    · simp [attemptCount_append, hd3, attemptCount, attemptEvents]
    · simp [delaysOf_append, hd4, delaysOf, attemptEvents]

/-- The retry loop with `fuel` iterations left: the session is kept; the
trace gains only submission effects; every attempt is handed the same
request; there are at most `fuel` attempts, at least one when `fuel > 0`;
and every attempt but the one with index 0 is preceded by one delay of the
given length. -/
theorem sendTxLoop_bounds (env : Env) (txParams : TxParams) (maxAttempts delay : Nat) :
    ∀ (fuel i : Nat) (w : World), ∃ evs,
      (Blockchain.sendTxLoop env txParams maxAttempts delay fuel i w).2 =
        ⟨w.session, w.trace ++ evs⟩ ∧
      evs.all Event.isSubmission = true ∧
      callsOf evs = List.replicate (attemptCount evs) txParams ∧
      attemptCount evs ≤ fuel ∧ (0 < fuel → 1 ≤ attemptCount evs) ∧
      delaysOf evs =
        List.replicate (attemptCount evs - if i = 0 then 1 else 0) delay := by
  intro fuel
  induction fuel with
  | zero =>
    intro i w
    exact ⟨[], by simp [Blockchain.sendTxLoop], rfl, rfl, Nat.le_refl _, by simp,
      by simp [attemptCount, delaysOf]⟩
  | succ fuel ih =>
    intro i w
    obtain ⟨a, ha, ha1, ha2, ha3, ha4⟩ := sendTxLoop_step env txParams delay i w
    have single : callsOf a = List.replicate (attemptCount a) txParams ∧
        attemptCount a ≤ fuel + 1 ∧ (0 < fuel + 1 → 1 ≤ attemptCount a) ∧
        delaysOf a = List.replicate (attemptCount a - if i = 0 then 1 else 0) delay := by
      refine ⟨by simp [ha2, ha3], by omega, by omega, ?_⟩
      rw [ha4, ha3]
      by_cases hi : i = 0 <;> simp [hi]
    rcases hr : WalletProvider.sendTransaction env txParams
      (if i > 0 then w.record (Event.delay delay) else w) with ⟨res, w1⟩
    rw [hr] at ha
    simp only at ha
    subst ha
    simp only [Blockchain.sendTxLoop, hr]
    cases res with
    | ok txHash => exact ⟨a, rfl, ha1, single.1, single.2.1, single.2.2.1, single.2.2.2⟩
    | error error =>
      simp only
      split
      · exact ⟨a, rfl, ha1, single.1, single.2.1, single.2.2.1, single.2.2.2⟩
      · obtain ⟨evs, he, he1, he2, he3, _, he5⟩ := ih (i + 1) ⟨w.session, w.trace ++ a⟩
        refine ⟨a ++ evs, by rw [he]; simp, by simp [List.all_append, ha1, he1], ?_, ?_, ?_, ?_⟩
        · rw [callsOf_append, attemptCount_append, ha2, he2, ha3]
          simp [List.replicate_succ, Nat.add_comm]
        · rw [attemptCount_append, ha3]; omega
        · intro _; rw [attemptCount_append, ha3]; omega
        · rw [delaysOf_append, attemptCount_append, ha4, he5, ha3]
          simp only [Nat.add_one_ne_zero, if_false, Nat.sub_zero]
          by_cases hi : i = 0
          · simp [hi]
          · simp only [hi, if_false]
            rw [show 1 + attemptCount evs - 0 = attemptCount evs + 1 by omega,
              List.replicate_succ]
            simp

/-- The retry loop never runs off its end while an iteration is left: when
`i + fuel = maxAttempts` and `fuel > 0` it ends with an error or with the
value that an attempt returned. -/
theorem sendTxLoop_returns_or_fails (env : Env) (txParams : TxParams)
    (maxAttempts delay : Nat) :
    ∀ (fuel i : Nat) (w : World), i + fuel = maxAttempts → 0 < fuel →
      (∃ error, (Blockchain.sendTxLoop env txParams maxAttempts delay fuel i w).1 =
        .error error) ∨
      ∃ txHash w1, (Blockchain.sendTxLoop env txParams maxAttempts delay fuel i w).1 =
        .ok txHash ∧ (WalletProvider.sendTransaction env txParams w1).1 = .ok txHash := by
  intro fuel
  induction fuel with
  | zero => intro i w _ h; omega
  | succ fuel ih =>
    intro i w hsum _
    rcases hr : WalletProvider.sendTransaction env txParams
      (if i > 0 then w.record (Event.delay delay) else w) with ⟨res, w1⟩
    simp only [Blockchain.sendTxLoop, hr]
    cases res with
    | ok txHash =>
      exact Or.inr ⟨txHash, _, rfl, by rw [hr]⟩
    | error error =>
      simp only
      split
      · exact Or.inl ⟨error, rfl⟩
      · rename_i hcond
        have hlast : ¬ ((i : Int) = (maxAttempts : Int) - 1) := by
          intro h
          apply hcond
          simp [h]
        exact ih (i + 1) w1 (by omega) (by omega)

/-- C28. For every attempt budget n, every delay and every provider
behaviour, `sendTxWithRetry` (a total function: the loop runs at most n
times) keeps the session and adds only submission effects, with at most n
entries into `WalletProvider.sendTransaction` and at most n - 1 delays, each
of the given length. For n of at least 1 it fails or returns the value an
attempt returned; for n = 0 it returns `undefined` and does nothing. -/
theorem sendTxWithRetry_terminates_within_budget (env : Env) (txParams : TxParams)
    (n delay : Nat) (w : World) :
    (∃ evs,
      (Blockchain.sendTxWithRetry env txParams n delay w).2 = ⟨w.session, w.trace ++ evs⟩ ∧
      evs.all Event.isSubmission = true ∧
      attemptCount evs ≤ n ∧ (delaysOf evs).length ≤ n - 1 ∧
      delaysOf evs = List.replicate (delaysOf evs).length delay) ∧
    (0 < n →
      (∃ error, (Blockchain.sendTxWithRetry env txParams n delay w).1 = .error error) ∨
      ∃ txHash w1, (Blockchain.sendTxWithRetry env txParams n delay w).1 = .ok txHash ∧
        (WalletProvider.sendTransaction env txParams w1).1 = .ok txHash) ∧
    (n = 0 → Blockchain.sendTxWithRetry env txParams n delay w = (.ok JSVal.undefined, w)) := by
  refine ⟨?_, ?_, ?_⟩
  · obtain ⟨evs, h, h1, _, h3, _, h5⟩ := sendTxLoop_bounds env txParams n delay n 0 w
    refine ⟨evs, h, h1, h3, ?_, ?_⟩
    · rw [h5]; simp; omega
    · rw [h5]; simp
  · intro hn
    exact sendTxLoop_returns_or_fails env txParams n delay n 0 w (by omega) hn
  · intro hn
    subst hn
    rfl

/-- Witness for C28: a budget of two against a provider that always times
out gives two attempts and one delay; a budget of zero does nothing. -/
theorem sendTxWithRetry_terminates_within_budget_witness :
    attemptCount (Blockchain.sendTxWithRetry (alwaysThrows "timeout") sampleTx 2 500
      connectedMetaMask).2.trace = 2 ∧
    delaysOf (Blockchain.sendTxWithRetry (alwaysThrows "timeout") sampleTx 2 500
      connectedMetaMask).2.trace = [500] ∧
    Blockchain.sendTxWithRetry (alwaysThrows "timeout") sampleTx 0 500 connectedMetaMask =
      (.ok JSVal.undefined, connectedMetaMask) :=
  ⟨by decide, by decide,
    (sendTxWithRetry_terminates_within_budget (alwaysThrows "timeout") sampleTx 0 500
      connectedMetaMask).2.2 rfl⟩

end DonutMiner

/-! ## The shared core of the action flows -/

namespace DonutMiner

/-- The default submission keeps the session and adds between one and three
attempts, all with the same request, and nothing but submission effects. -/
theorem sendTxWithRetryDefault_bounds (env : Env) (txParams : TxParams) (w : World) :
    ∃ evs k,
      (Blockchain.sendTxWithRetryDefault env txParams w).2 = ⟨w.session, w.trace ++ evs⟩ ∧
      evs.all Event.isSubmission = true ∧ 1 ≤ k ∧ k ≤ 3 ∧
      callsOf evs = List.replicate k txParams := by
  obtain ⟨evs, h, h1, h2, h3, h4, _⟩ := sendTxLoop_bounds env txParams 3 500 3 0 w
  exact ⟨evs, attemptCount evs, h, h1, h4 (by omega), h3, h2⟩

/-- `sendBuyTransaction` is the shared core followed by the alert or by the
scheduling of the refresh. -/
theorem sendBuyTransaction_eq_core (env : Env) (host : Host) (address : Value) (app : App) :
    Blockchain.sendBuyTransaction env host address app =
      match flowCore env host Endpoint.blazeTransaction true buyNotOk address app with
      | (.error error, app1) =>
        (.ok (), app1.record (Event.alert ("Buy transaction failed: " ++ error.message)))
      | (.ok _, app1) => (.ok (), app1.record (Event.setTimeout 3000)) := by
  unfold Blockchain.sendBuyTransaction flowCore
  simp only [fetch, flowRequest, buyNotOk, if_true]
  cases host.fetch (fetchCount app.world.trace) Endpoint.blazeTransaction (some address) with
  | rejects e => rfl
  | resolves response =>
    simp only
    cases response.ok with
    | false => rfl
    | true =>
      simp only [Bool.not_true, Bool.false_eq_true, if_false]
      cases response.json with
      | error e => rfl
      | ok txData =>
        simp only
        cases readParams txData with
        | error e => rfl
        | ok r =>
          obtain ⟨to_, data, value⟩ := r
          simp only
          rcases Blockchain.sendTxWithRetryDefault env
            ⟨address, Value.atom to_, Value.atom data, Value.atom (orZero value)⟩
            (app.record (Event.fetch Endpoint.blazeTransaction (some address))).world
            with ⟨res, w2⟩
          cases res <;> rfl

/-- `sendApprovalTransaction` is the shared core followed by the alert, or
by the flip of the flag, the redraw and the scheduling of the refresh. -/
theorem sendApprovalTransaction_eq_core (env : Env) (host : Host) (address : Value)
    (app : App) :
    Blockchain.sendApprovalTransaction env host address app =
      match flowCore env host Endpoint.approveLp true approvalNotOk address app with
      | (.error error, app1) =>
        (.ok (), app1.record (Event.alert ("Approval failed: " ++ error.message)))
      | (.ok _, app1) =>
        match (app1.blockchainData.get "blaze").setProp "userNeedsApproval"
          (Atom.bool false) with
        | .error error =>
          (.ok (), app1.record (Event.alert ("Approval failed: " ++ error.message)))
        | .ok blaze =>
          (.ok (), (UI.updateBlazeryUI host (app1.setData "blaze" blaze)).record
            (Event.setTimeout 3000)) := by
  unfold Blockchain.sendApprovalTransaction flowCore
  simp only [fetch, flowRequest, approvalNotOk, if_true]
  cases host.fetch (fetchCount app.world.trace) Endpoint.approveLp (some address) with
  | rejects e => rfl
  | resolves response =>
    simp only
    cases response.ok with
    | false => rfl
    | true =>
      simp only [Bool.not_true, Bool.false_eq_true, if_false]
      cases response.json with
      | error e => rfl
      | ok txData =>
        simp only
        cases readParams txData with
        | error e => rfl
        | ok r =>
          obtain ⟨to_, data, value⟩ := r
          simp only
          rcases Blockchain.sendTxWithRetryDefault env
            ⟨address, Value.atom to_, Value.atom data, Value.atom (orZero value)⟩
            (app.record (Event.fetch Endpoint.approveLp (some address))).world
            with ⟨res, w2⟩
          cases res <;> rfl

/-- With an address set, `openGlazeFrame` is the spin-speed call and the
shared core, followed by the alert or by the scheduling of the refresh. -/
theorem openGlazeFrame_eq_core (env : Env) (host : Host) (app : App)
    (htruthy : (app.blockchainData.get "userAddress").truthy = true) :
    Blockchain.openGlazeFrame env host app =
      match flowCore env host Endpoint.transaction false glazeNotOk
        (app.blockchainData.get "userAddress") (app.record Event.setDonutSpinSpeed) with
      | (.error error, app1) =>
        (.ok (), app1.record (Event.alert ("Transaction failed: " ++ error.message)))
      | (.ok _, app1) => (.ok (), app1.record (Event.setTimeout 3000)) := by
  unfold Blockchain.openGlazeFrame flowCore
  simp only [fetch, flowRequest, glazeNotOk, App.record, htruthy, Bool.not_true,
    Bool.false_eq_true, if_false]
  cases host.fetch (fetchCount (app.world.record Event.setDonutSpinSpeed).trace)
    Endpoint.transaction (some (app.blockchainData.get "userAddress")) with
  | rejects e => rfl
  | resolves response =>
    simp only
    cases response.ok with
    | false =>
      simp only [Bool.not_false, if_true]
      cases response.text <;> rfl
    | true =>
      simp only [Bool.not_true, Bool.false_eq_true, if_false]
      cases response.json with
      | error e => rfl
      | ok txData =>
        simp only
        cases readParams txData with
        | error e => rfl
        | ok r =>
          obtain ⟨to_, data, value⟩ := r
          simp only
          rcases Blockchain.sendTxWithRetryDefault env
            ⟨app.blockchainData.get "userAddress", Value.atom to_, Value.atom data,
              Value.atom value⟩
            (app.world.record Event.setDonutSpinSpeed |>.record
              (Event.fetch Endpoint.transaction (some (app.blockchainData.get "userAddress"))))
            with ⟨res, w2⟩
          cases res <;> rfl

/-- What the shared core does, whatever its outcome: game state and session
are kept; the trace gains one API request, no alert and no scheduled
refresh; it returns a hash exactly when the submission returns; and when the
parameters were read, every attempt (between one and three) is handed the
request built from them. -/
theorem flowCore_spec (env : Env) (host : Host) (endpoint : Endpoint) (zero : Bool)
    (notOk : FetchResponse → JSError) (address : Value) (app : App) :
    (flowCore env host endpoint zero notOk address app).2.blockchainData =
      app.blockchainData ∧
    (flowCore env host endpoint zero notOk address app).2.world.session =
      app.world.session ∧
    timersOf (flowCore env host endpoint zero notOk address app).2.world.trace =
      timersOf app.world.trace ∧
    alertsOf (flowCore env host endpoint zero notOk address app).2.world.trace =
      alertsOf app.world.trace ∧
    fetchesOf (flowCore env host endpoint zero notOk address app).2.world.trace =
      fetchesOf app.world.trace ++ [(endpoint, some address)] ∧
    ((∃ txHash, (flowCore env host endpoint zero notOk address app).1 = .ok txHash) ↔
      SubmissionReturns env host endpoint zero address app) ∧
    (∀ response txData to_ data value,
      host.fetch (fetchCount app.world.trace) endpoint (some address) =
        FetchReply.resolves response →
      response.ok = true → response.json = .ok txData →
      readParams txData = .ok (to_, data, value) →
      ∃ k, 1 ≤ k ∧ k ≤ 3 ∧
        callsOf (flowCore env host endpoint zero notOk address app).2.world.trace =
          callsOf app.world.trace ++
            List.replicate k (flowRequest zero address to_ data value)) := by
  unfold flowCore SubmissionReturns
  simp only [fetch]
  cases hfetch : host.fetch (fetchCount app.world.trace) endpoint (some address) with
  | rejects e =>
    simp [App.record, World.record, timersOf_append, timersOf, alertsOf_append, alertsOf,
      fetchesOf_append, fetchesOf]
  | resolves response =>
    simp only
    cases hok : response.ok with
    | false =>
      simp [App.record, World.record, timersOf_append, timersOf, alertsOf_append, alertsOf,
        fetchesOf_append, fetchesOf, hok]
      intro response2 txData2 to2 data2 value2 e1 e2
      subst e1
      rw [hok] at e2
      cases e2
    | true =>
      simp only [Bool.not_true, Bool.false_eq_true, if_false]
      cases hjson : response.json with
      | error e =>
        simp [App.record, World.record, timersOf_append, timersOf, alertsOf_append, alertsOf,
          fetchesOf_append, fetchesOf, hok, hjson]
        intro response2 txData2 to2 data2 value2 e1 _ e3
        subst e1
        rw [hjson] at e3
        cases e3
      | ok txData =>
        simp only
        cases hparams : readParams txData with
        | error e =>
          simp [App.record, World.record, timersOf_append, timersOf, alertsOf_append, alertsOf,
            fetchesOf_append, fetchesOf, hok, hjson, hparams]
          intro response2 txData2 to2 data2 value2 e1 _ e3 e4
          subst e1
          rw [hjson] at e3
          cases e3
          rw [hparams] at e4
          cases e4
        | ok r =>
          obtain ⟨to_, data, value⟩ := r
          simp only
          obtain ⟨evs, k, hw, hall, hk1, hk3, hcalls⟩ := sendTxWithRetryDefault_bounds env
            (flowRequest zero address to_ data value)
            (app.record (Event.fetch endpoint (some address))).world
          obtain ⟨h1, _, h3, h4⟩ := submission_events_silent evs hall
          rcases hs : Blockchain.sendTxWithRetryDefault env
            (flowRequest zero address to_ data value)
            (app.record (Event.fetch endpoint (some address))).world with ⟨res, w2⟩
          rw [hs] at hw
          simp only at hw
          subst hw
          have hcommon :
              timersOf ((app.record (Event.fetch endpoint (some address))).world.trace ++ evs) =
                timersOf app.world.trace ∧
              alertsOf ((app.record (Event.fetch endpoint (some address))).world.trace ++ evs) =
                alertsOf app.world.trace ∧
              fetchesOf ((app.record (Event.fetch endpoint (some address))).world.trace ++ evs) =
                fetchesOf app.world.trace ++ [(endpoint, some address)] ∧
              callsOf ((app.record (Event.fetch endpoint (some address))).world.trace ++ evs) =
                callsOf app.world.trace ++
                  List.replicate k (flowRequest zero address to_ data value) := by
            simp [App.record, World.record, timersOf_append, timersOf, alertsOf_append,
              alertsOf, fetchesOf_append, fetchesOf, callsOf_append, callsOf, h1, h3, h4,
              hcalls]
          obtain ⟨c1, c2, c3, c4⟩ := hcommon
          cases res with
          | error e =>
            refine ⟨rfl, rfl, c1, c2, c3, ?_, ?_⟩
            · constructor
              · rintro ⟨txHash, h⟩
                cases h
              · rintro ⟨response2, txData2, to2, data2, value2, txHash, w3, e1, _, e3, e4, e5⟩
                cases e1
                rw [hjson] at e3
                cases e3
                rw [hparams] at e4
                cases e4
                rw [hs] at e5
                cases e5
            · intro response2 txData2 to2 data2 value2 e1 _ e3 e4
              cases e1
              rw [hjson] at e3
              cases e3
              rw [hparams] at e4
              cases e4
              exact ⟨k, hk1, hk3, c4⟩
          | ok txHash =>
            refine ⟨rfl, rfl, c1, c2, c3, ?_, ?_⟩
            · constructor
              · intro _
                exact ⟨response, txData, to_, data, value, txHash, _, rfl, hok, hjson, hparams,
                  hs⟩
              · intro _
                exact ⟨txHash, rfl⟩
            · intro response2 txData2 to2 data2 value2 e1 _ e3 e4
              cases e1
              rw [hjson] at e3
              cases e3
              rw [hparams] at e4
              cases e4
              exact ⟨k, hk1, hk3, c4⟩

/-- Outcome of `sendBuyTransaction`: it never throws and never touches the
game state; when the submission returns, one refresh is scheduled after
3000 ms and nothing is alerted; otherwise nothing is scheduled and the
failure is alerted. -/
theorem sendBuyTransaction_summary (env : Env) (host : Host) (address : Value) (app : App) :
    (Blockchain.sendBuyTransaction env host address app).1 = .ok () ∧
    (Blockchain.sendBuyTransaction env host address app).2.blockchainData =
      app.blockchainData ∧
    (SubmissionReturns env host Endpoint.blazeTransaction true address app →
      timersOf (Blockchain.sendBuyTransaction env host address app).2.world.trace =
        timersOf app.world.trace ++ [3000] ∧
      alertsOf (Blockchain.sendBuyTransaction env host address app).2.world.trace =
        alertsOf app.world.trace) ∧
    (¬ SubmissionReturns env host Endpoint.blazeTransaction true address app →
      timersOf (Blockchain.sendBuyTransaction env host address app).2.world.trace =
        timersOf app.world.trace ∧
      ∃ error : JSError,
        alertsOf (Blockchain.sendBuyTransaction env host address app).2.world.trace =
          alertsOf app.world.trace ++ ["Buy transaction failed: " ++ error.message]) := by
  obtain ⟨s1, _, s3, s4, _, s6, _⟩ :=
    flowCore_spec env host Endpoint.blazeTransaction true buyNotOk address app
  rw [sendBuyTransaction_eq_core]
  rcases hc : flowCore env host Endpoint.blazeTransaction true buyNotOk address app
    with ⟨res, app1⟩
  rw [hc] at s1 s3 s4 s6
  simp only at s1 s3 s4 s6
  cases res with
  | error e =>
    have hn : ¬ SubmissionReturns env host Endpoint.blazeTransaction true address app := by
      intro h
      obtain ⟨_, hh⟩ := s6.2 h
      cases hh
    refine ⟨rfl, s1, fun h => absurd h hn, fun _ => ⟨?_, e, ?_⟩⟩
    · simp [App.record, World.record, timersOf_append, timersOf, s3]
    · simp [App.record, World.record, alertsOf_append, alertsOf, s4]
  | ok txHash =>
    have hy : SubmissionReturns env host Endpoint.blazeTransaction true address app :=
      s6.1 ⟨txHash, rfl⟩
    refine ⟨rfl, s1, fun _ => ⟨?_, ?_⟩, fun h => absurd hy h⟩
    · simp [App.record, World.record, timersOf_append, timersOf, s3]
    · simp [App.record, World.record, alertsOf_append, alertsOf, s4]

/-- Outcome of `openGlazeFrame` with an address set: it never throws and
never touches the game state; when the submission returns, one refresh is
scheduled after 3000 ms and nothing is alerted; otherwise nothing is
scheduled and the failure is alerted. -/
theorem openGlazeFrame_summary (env : Env) (host : Host) (app : App)
    (htruthy : (app.blockchainData.get "userAddress").truthy = true) :
    (Blockchain.openGlazeFrame env host app).1 = .ok () ∧
    (Blockchain.openGlazeFrame env host app).2.blockchainData = app.blockchainData ∧
    (SubmissionReturns env host Endpoint.transaction false
        (app.blockchainData.get "userAddress") (app.record Event.setDonutSpinSpeed) →
      timersOf (Blockchain.openGlazeFrame env host app).2.world.trace =
        timersOf app.world.trace ++ [3000] ∧
      alertsOf (Blockchain.openGlazeFrame env host app).2.world.trace =
        alertsOf app.world.trace) ∧
    (¬ SubmissionReturns env host Endpoint.transaction false
        (app.blockchainData.get "userAddress") (app.record Event.setDonutSpinSpeed) →
      timersOf (Blockchain.openGlazeFrame env host app).2.world.trace =
        timersOf app.world.trace ∧
      ∃ error : JSError,
        alertsOf (Blockchain.openGlazeFrame env host app).2.world.trace =
          alertsOf app.world.trace ++ ["Transaction failed: " ++ error.message]) := by
  obtain ⟨s1, _, s3, s4, _, s6, _⟩ :=
    flowCore_spec env host Endpoint.transaction false glazeNotOk
      (app.blockchainData.get "userAddress") (app.record Event.setDonutSpinSpeed)
  rw [openGlazeFrame_eq_core env host app htruthy]
  rcases hc : flowCore env host Endpoint.transaction false glazeNotOk
    (app.blockchainData.get "userAddress") (app.record Event.setDonutSpinSpeed)
    with ⟨res, app1⟩
  rw [hc] at s1 s3 s4 s6
  simp only [App.record, World.record, timersOf_append, timersOf, alertsOf_append, alertsOf,
    List.append_nil] at s1 s3 s4
  cases res with
  | error e =>
    have hn : ¬ SubmissionReturns env host Endpoint.transaction false
        (app.blockchainData.get "userAddress") (app.record Event.setDonutSpinSpeed) := by
      intro h
      obtain ⟨_, hh⟩ := s6.2 h
      cases hh
    refine ⟨rfl, s1, fun h => absurd h hn, fun _ => ⟨?_, e, ?_⟩⟩
    · simp [App.record, World.record, timersOf_append, timersOf, s3]
    · simp [App.record, World.record, alertsOf_append, alertsOf, s4]
  | ok txHash =>
    have hy : SubmissionReturns env host Endpoint.transaction false
        (app.blockchainData.get "userAddress") (app.record Event.setDonutSpinSpeed) :=
      s6.1 ⟨txHash, rfl⟩
    refine ⟨rfl, s1, fun _ => ⟨?_, ?_⟩, fun h => absurd hy h⟩
    · simp [App.record, World.record, timersOf_append, timersOf, s3]
    · simp [App.record, World.record, alertsOf_append, alertsOf, s4]

/-- Outcome of `sendApprovalTransaction`: it never throws; when the
submission does not return, the game state is untouched, nothing is
scheduled and the failure is alerted; when it returns and `blaze` is an
object (as it is whenever `handleBlazeClick` calls it), only the flag
`userNeedsApproval` changes, to `false`, one refresh is scheduled after
3000 ms and nothing is alerted. -/
theorem sendApprovalTransaction_summary (env : Env) (host : Host) (address : Value)
    (app : App) :
    (Blockchain.sendApprovalTransaction env host address app).1 = .ok () ∧
    (¬ SubmissionReturns env host Endpoint.approveLp true address app →
      (Blockchain.sendApprovalTransaction env host address app).2.blockchainData =
        app.blockchainData ∧
      timersOf (Blockchain.sendApprovalTransaction env host address app).2.world.trace =
        timersOf app.world.trace ∧
      ∃ error : JSError,
        alertsOf (Blockchain.sendApprovalTransaction env host address app).2.world.trace =
          alertsOf app.world.trace ++ ["Approval failed: " ++ error.message]) ∧
    (∀ props, app.blockchainData.get "blaze" = Value.obj props →
      SubmissionReturns env host Endpoint.approveLp true address app →
      (Blockchain.sendApprovalTransaction env host address app).2.blockchainData =
        app.blockchainData.set "blaze"
          (Value.obj (assocSet props "userNeedsApproval" (Atom.bool false))) ∧
      timersOf (Blockchain.sendApprovalTransaction env host address app).2.world.trace =
        timersOf app.world.trace ++ [3000] ∧
      alertsOf (Blockchain.sendApprovalTransaction env host address app).2.world.trace =
        alertsOf app.world.trace) := by
  obtain ⟨s1, _, s3, s4, _, s6, _⟩ :=
    flowCore_spec env host Endpoint.approveLp true approvalNotOk address app
  rw [sendApprovalTransaction_eq_core]
  rcases hc : flowCore env host Endpoint.approveLp true approvalNotOk address app
    with ⟨res, app1⟩
  rw [hc] at s1 s3 s4 s6
  simp only at s1 s3 s4 s6
  cases res with
  | error e =>
    have hn : ¬ SubmissionReturns env host Endpoint.approveLp true address app := by
      intro h
      obtain ⟨_, hh⟩ := s6.2 h
      cases hh
    refine ⟨rfl, fun _ => ⟨s1, ?_, e, ?_⟩, fun _ _ h => absurd h hn⟩
    · simp [App.record, World.record, timersOf_append, timersOf, s3]
    · simp [App.record, World.record, alertsOf_append, alertsOf, s4]
  | ok txHash =>
    have hy : SubmissionReturns env host Endpoint.approveLp true address app :=
      s6.1 ⟨txHash, rfl⟩
    refine ⟨?_, fun h => absurd hy h, ?_⟩
    · simp only
      split <;> rfl
    · intro props hblaze _
      simp only [s1, hblaze, Value.setProp, App.setData, App.record, World.record]
      obtain ⟨d1, _, evs, d3, dall⟩ := updateBlazeryUI_displayOnly host
        ⟨app1.world, app.blockchainData.set "blaze"
          (Value.obj (assocSet props "userNeedsApproval" (Atom.bool false)))⟩
      obtain ⟨_, _, e3, e4, _⟩ := display_events_silent evs dall
      simp only at d1 d3
      refine ⟨d1, ?_, ?_⟩
      · rw [d3]
        simp [timersOf_append, timersOf, e3, s3]
      · rw [d3]
        simp [alertsOf_append, alertsOf, e4, s4]

/-- The refresh of `sendApprovalTransaction` by the outcome of the write
`State.blockchainData.blaze.userNeedsApproval = false`: when the write
succeeds the refresh is scheduled once the submission returned; when it
throws no refresh is scheduled, and a submission that returned ends in the
alert of the write's error. -/
theorem sendApprovalTransaction_timers (env : Env) (host : Host) (address : Value)
    (app : App) :
    (∀ blaze2,
      (app.blockchainData.get "blaze").setProp "userNeedsApproval" (Atom.bool false) =
        .ok blaze2 →
      SubmissionReturns env host Endpoint.approveLp true address app →
      timersOf (Blockchain.sendApprovalTransaction env host address app).2.world.trace =
        timersOf app.world.trace ++ [3000]) ∧
    (∀ error : JSError,
      (app.blockchainData.get "blaze").setProp "userNeedsApproval" (Atom.bool false) =
        .error error →
      timersOf (Blockchain.sendApprovalTransaction env host address app).2.world.trace =
        timersOf app.world.trace ∧
      (SubmissionReturns env host Endpoint.approveLp true address app →
        alertsOf (Blockchain.sendApprovalTransaction env host address app).2.world.trace =
          alertsOf app.world.trace ++ ["Approval failed: " ++ error.message])) := by
  obtain ⟨s1, _, s3, s4, _, s6, _⟩ :=
    flowCore_spec env host Endpoint.approveLp true approvalNotOk address app
  rw [sendApprovalTransaction_eq_core]
  rcases hc : flowCore env host Endpoint.approveLp true approvalNotOk address app
    with ⟨res, app1⟩
  rw [hc] at s1 s3 s4 s6
  simp only at s1 s3 s4 s6
  cases res with
  | error e =>
    have hn : ¬ SubmissionReturns env host Endpoint.approveLp true address app := by
      intro h
      obtain ⟨_, hh⟩ := s6.2 h
      cases hh
    refine ⟨fun _ _ h => absurd h hn, fun error _ => ⟨?_, fun h => absurd h hn⟩⟩
    simp [App.record, World.record, timersOf_append, timersOf, s3]
  | ok txHash =>
    refine ⟨fun blaze2 hb _ => ?_, fun error hb => ⟨?_, fun _ => ?_⟩⟩
    · simp only [s1, hb, App.setData, App.record, World.record]
      obtain ⟨_, _, evs, d3, dall⟩ := updateBlazeryUI_displayOnly host
        ⟨app1.world, app.blockchainData.set "blaze" blaze2⟩
      obtain ⟨_, _, e3, _, _⟩ := display_events_silent evs dall
      simp only at d3
      rw [d3]
      simp [timersOf_append, timersOf, e3, s3]
    · simp only [s1, hb, App.record, World.record]
      simp [timersOf_append, timersOf, s3]
    · simp only [s1, hb, App.record, World.record]
      simp [alertsOf_append, alertsOf, s4]

/-- Display effects hand no request to the wallet. -/
theorem display_events_no_calls (evs : List Event) (h : evs.all Event.isDisplay = true) :
    callsOf evs = [] := by
  induction evs with
  | nil => rfl
  | cons e t ih =>
    simp only [List.all_cons, Bool.and_eq_true] at h
    obtain ⟨he, ht⟩ := h
    have := ih ht
    cases e <;> simp_all [Event.isDisplay, callsOf]

/-- The attempts of `sendBuyTransaction` are those of its core. -/
theorem sendBuyTransaction_callsOf (env : Env) (host : Host) (address : Value) (app : App) :
    callsOf (Blockchain.sendBuyTransaction env host address app).2.world.trace =
      callsOf (flowCore env host Endpoint.blazeTransaction true buyNotOk address
        app).2.world.trace := by
  rw [sendBuyTransaction_eq_core]
  rcases flowCore env host Endpoint.blazeTransaction true buyNotOk address app with ⟨res, app1⟩
  cases res <;> simp [App.record, World.record, callsOf_append, callsOf]

/-- The attempts of `openGlazeFrame` are those of its core. -/
theorem openGlazeFrame_callsOf (env : Env) (host : Host) (app : App)
    (htruthy : (app.blockchainData.get "userAddress").truthy = true) :
    callsOf (Blockchain.openGlazeFrame env host app).2.world.trace =
      callsOf (flowCore env host Endpoint.transaction false glazeNotOk
        (app.blockchainData.get "userAddress")
        (app.record Event.setDonutSpinSpeed)).2.world.trace := by
  rw [openGlazeFrame_eq_core env host app htruthy]
  rcases flowCore env host Endpoint.transaction false glazeNotOk
    (app.blockchainData.get "userAddress") (app.record Event.setDonutSpinSpeed)
    with ⟨res, app1⟩
  cases res <;> simp [App.record, World.record, callsOf_append, callsOf]

/-- The attempts of `sendApprovalTransaction` are those of its core. -/
theorem sendApprovalTransaction_callsOf (env : Env) (host : Host) (address : Value)
    (app : App) :
    callsOf (Blockchain.sendApprovalTransaction env host address app).2.world.trace =
      callsOf (flowCore env host Endpoint.approveLp true approvalNotOk address
        app).2.world.trace := by
  rw [sendApprovalTransaction_eq_core]
  rcases flowCore env host Endpoint.approveLp true approvalNotOk address app with ⟨res, app1⟩
  cases res with
  | error e => simp [App.record, World.record, callsOf_append, callsOf]
  | ok txHash =>
    simp only
    split
    · simp [App.record, World.record, callsOf_append, callsOf]
    · rename_i blaze _
      obtain ⟨_, _, evs, d3, dall⟩ := updateBlazeryUI_displayOnly host
        ⟨app1.world, app1.blockchainData.set "blaze" blaze⟩
      simp only at d3
      simp only [App.record, World.record, App.setData, d3]
      simp [callsOf_append, callsOf, display_events_no_calls evs dall]

/-- The explicit connect alerts nothing. -/
theorem connectMetaMask_alertsOf (env : Env) (w : World) :
    alertsOf (WalletProvider.connectMetaMask env w).2.trace = alertsOf w.trace := by
  unfold WalletProvider.connectMetaMask
  split
  · rfl
  · cases hp : w.session.ethereumProvider with
    | none => rfl
    | some p =>
      simp only [request]
      cases env.respond p (requestCount w.trace) Method.eth_requestAccounts with
      | throws e => simp [World.record, alertsOf_append, alertsOf]
      | returns accounts =>
        simp only
        split
        · cases accounts.length with
          | error e => simp [World.record, alertsOf_append, alertsOf]
          | ok n =>
            simp only
            split
            · cases accounts.index0 <;>
                simp [World.record, World.setAddress, alertsOf_append, alertsOf]
            · simp [World.record, alertsOf_append, alertsOf]
        · simp [World.record, alertsOf_append, alertsOf]

end DonutMiner

/-! ## Refresh scheduling, failure handling and request construction -/

namespace DonutMiner

/-- C21, as stated, fails: with `blaze: null` in the game state the
approval submission returns the hash `0xABC`, the write
`State.blockchainData.blaze.userNeedsApproval = false` then throws, the
`catch` block alerts `Approval failed: ...` and no refresh is scheduled. -/
theorem sendApprovalTransaction_null_blaze_no_refresh :
    (flowCore (scriptedEnv [Reply.returns (JSVal.str "0xABC")]) apiHost Endpoint.approveLp true
      approvalNotOk (Value.atom (Atom.str "0xA11CE")) nullBlazeApp).1 =
        .ok (JSVal.str "0xABC") ∧
    callsOf (Blockchain.sendApprovalTransaction
      (scriptedEnv [Reply.returns (JSVal.str "0xABC")]) apiHost
      (Value.atom (Atom.str "0xA11CE")) nullBlazeApp).2.world.trace =
        [⟨Value.atom (Atom.str "0xA11CE"), Value.atom (Atom.str "0xC0FFEE"),
          Value.atom (Atom.str "0x00"), Value.atom (Atom.str "0x0")⟩] ∧
    timersOf (Blockchain.sendApprovalTransaction
      (scriptedEnv [Reply.returns (JSVal.str "0xABC")]) apiHost
      (Value.atom (Atom.str "0xA11CE")) nullBlazeApp).2.world.trace = [] ∧
    alertsOf (Blockchain.sendApprovalTransaction
      (scriptedEnv [Reply.returns (JSVal.str "0xABC")]) apiHost
      (Value.atom (Atom.str "0xA11CE")) nullBlazeApp).2.world.trace =
        ["Approval failed: " ++ typeErrorNullish.message] := by
  decide

/-- C21, amended. In `openGlazeFrame` (with an address set) and in
`sendBuyTransaction` the state refresh is scheduled exactly once, after
3000 ms, when the submission returned a hash, and not at all when the
parameter request or the submission fails (nor in `openGlazeFrame` without an
address). In `sendApprovalTransaction` the refresh is scheduled exactly once,
after 3000 ms, when the submission returned a hash and the write
`State.blockchainData.blaze.userNeedsApproval = false` succeeds (`blaze` is
an object, as whenever `handleBlazeClick` has just read a truthy flag from
it); when the write throws (`blaze` is `null`, `undefined` or a primitive) no
refresh is scheduled, and a submission that returned ends in the alert
`Approval failed: ...` of the write's error. -/
theorem refresh_scheduled_iff_submission_returns (env : Env) (host : Host) (app : App)
    (address : Value) :
    ((app.blockchainData.get "userAddress").truthy = true →
      (SubmissionReturns env host Endpoint.transaction false
          (app.blockchainData.get "userAddress") (app.record Event.setDonutSpinSpeed) →
        timersOf (Blockchain.openGlazeFrame env host app).2.world.trace =
          timersOf app.world.trace ++ [3000]) ∧
      (¬ SubmissionReturns env host Endpoint.transaction false
          (app.blockchainData.get "userAddress") (app.record Event.setDonutSpinSpeed) →
        timersOf (Blockchain.openGlazeFrame env host app).2.world.trace =
          timersOf app.world.trace)) ∧
    ((app.blockchainData.get "userAddress").truthy = false →
      timersOf (Blockchain.openGlazeFrame env host app).2.world.trace =
        timersOf app.world.trace) ∧
    (∀ blaze2,
      (app.blockchainData.get "blaze").setProp "userNeedsApproval" (Atom.bool false) =
        .ok blaze2 →
      (SubmissionReturns env host Endpoint.approveLp true address app →
        timersOf (Blockchain.sendApprovalTransaction env host address app).2.world.trace =
          timersOf app.world.trace ++ [3000]) ∧
      (¬ SubmissionReturns env host Endpoint.approveLp true address app →
        timersOf (Blockchain.sendApprovalTransaction env host address app).2.world.trace =
          timersOf app.world.trace)) ∧
    (∀ error : JSError,
      (app.blockchainData.get "blaze").setProp "userNeedsApproval" (Atom.bool false) =
        .error error →
      timersOf (Blockchain.sendApprovalTransaction env host address app).2.world.trace =
        timersOf app.world.trace ∧
      (SubmissionReturns env host Endpoint.approveLp true address app →
        alertsOf (Blockchain.sendApprovalTransaction env host address app).2.world.trace =
          alertsOf app.world.trace ++ ["Approval failed: " ++ error.message])) ∧
    (∀ props, app.blockchainData.get "blaze" = Value.obj props →
      (app.blockchainData.get "blaze").setProp "userNeedsApproval" (Atom.bool false) =
        .ok (Value.obj (assocSet props "userNeedsApproval" (Atom.bool false)))) ∧
    (SubmissionReturns env host Endpoint.blazeTransaction true address app →
      timersOf (Blockchain.sendBuyTransaction env host address app).2.world.trace =
        timersOf app.world.trace ++ [3000]) ∧
    (¬ SubmissionReturns env host Endpoint.blazeTransaction true address app →
      timersOf (Blockchain.sendBuyTransaction env host address app).2.world.trace =
        timersOf app.world.trace) := by
  refine ⟨?_, ?_, ?_, ?_, ?_, ?_, ?_⟩
  · intro htruthy
    obtain ⟨_, _, hy, hn⟩ := openGlazeFrame_summary env host app htruthy
    exact ⟨fun h => (hy h).1, fun h => (hn h).1⟩
  · intro hfalsy
    simp [Blockchain.openGlazeFrame, App.record, World.record, hfalsy, timersOf_append,
      timersOf]
  · intro blaze2 hblaze
    obtain ⟨_, hn, _⟩ := sendApprovalTransaction_summary env host address app
    exact ⟨fun h => (sendApprovalTransaction_timers env host address app).1 blaze2 hblaze h,
      fun h => (hn h).2.1⟩
  · exact (sendApprovalTransaction_timers env host address app).2
  · intro props hblaze
    rw [hblaze]
    rfl
  · exact fun h => ((sendBuyTransaction_summary env host address app).2.2.1 h).1
  · exact fun h => ((sendBuyTransaction_summary env host address app).2.2.2 h).1

/-- Witness for the amended C21: the buy flow with parameters from the API
and a wallet that returns `0xABC` schedules one refresh; against an API that
answers `500` it schedules none. -/
theorem refresh_scheduled_iff_submission_returns_witness :
    timersOf (Blockchain.sendBuyTransaction (scriptedEnv [Reply.returns (JSVal.str "0xABC")])
      apiHost (Value.atom (Atom.str "0xA11CE")) connectedApp).2.world.trace = [3000] ∧
    timersOf (Blockchain.sendBuyTransaction (scriptedEnv [Reply.returns (JSVal.str "0xABC")])
      failingApiHost (Value.atom (Atom.str "0xA11CE")) connectedApp).2.world.trace = [] :=
  ⟨(refresh_scheduled_iff_submission_returns (scriptedEnv [Reply.returns (JSVal.str "0xABC")])
      apiHost connectedApp (Value.atom (Atom.str "0xA11CE"))).2.2.2.2.2.1
      ⟨⟨true, 200, .ok sampleTxData, .ok ""⟩, sampleTxData, Atom.str "0xC0FFEE",
        Atom.str "0x00", Atom.str "0x0", JSVal.str "0xABC",
        (Blockchain.sendTxWithRetryDefault (scriptedEnv [Reply.returns (JSVal.str "0xABC")])
          (flowRequest true (Value.atom (Atom.str "0xA11CE")) (Atom.str "0xC0FFEE")
            (Atom.str "0x00") (Atom.str "0x0"))
          (connectedApp.record (Event.fetch Endpoint.blazeTransaction
            (some (Value.atom (Atom.str "0xA11CE"))))).world).2,
        rfl, rfl, rfl, by decide, by decide⟩,
    (refresh_scheduled_iff_submission_returns (scriptedEnv [Reply.returns (JSVal.str "0xABC")])
      failingApiHost connectedApp (Value.atom (Atom.str "0xA11CE"))).2.2.2.2.2.2
      (fun h => by
        obtain ⟨response, _, _, _, _, _, _, h1, h2, _⟩ := h
        cases h1
        cases h2)⟩

/-- C23. A failed step leaves the game state as the last successful step
produced it. When the approval parameter request or the approval submission
fails, `sendApprovalTransaction` leaves `State.blockchainData` unchanged, so
`userNeedsApproval` keeps its value. `sendBuyTransaction` never changes
`State.blockchainData`, whatever its outcome, and neither does
`handleBlazeClick` once the flag is falsy: a buy that fails after a
successful approval leaves `userNeedsApproval` false. -/
theorem failed_step_keeps_state (env : Env) (host : Host) (app : App) (address : Value) :
    (¬ SubmissionReturns env host Endpoint.approveLp true address app →
      (Blockchain.sendApprovalTransaction env host address app).2.blockchainData =
        app.blockchainData ∧
      ((Blockchain.sendApprovalTransaction env host address app).2.blockchainData.get
        "blaze").prop "userNeedsApproval" =
          (app.blockchainData.get "blaze").prop "userNeedsApproval") ∧
    (Blockchain.sendBuyTransaction env host address app).2.blockchainData =
      app.blockchainData ∧
    (∀ flag, (app.blockchainData.get "blaze").prop "userNeedsApproval" = .ok flag →
      flag.truthy = false →
      (Blockchain.handleBlazeClick env host app).2.blockchainData = app.blockchainData ∧
      ((Blockchain.handleBlazeClick env host app).2.blockchainData.get "blaze").prop
        "userNeedsApproval" = .ok flag) := by
  refine ⟨?_, (sendBuyTransaction_summary env host address app).2.1, ?_⟩
  · intro h
    have h1 := ((sendApprovalTransaction_summary env host address app).2.1 h).1
    exact ⟨h1, by rw [h1]⟩
  · intro flag hflag hfalse
    have key : (Blockchain.handleBlazeClick env host app).2.blockchainData =
        app.blockchainData := by
      unfold Blockchain.handleBlazeClick
      simp only [App.record, hflag, hfalse]
      split
      · rfl
      · simp only [Bool.false_eq_true, if_false]
        split
        · split
          · rfl
          · have hb := (sendBuyTransaction_summary env host (app.blockchainData.get "userAddress")
              ⟨app.world.record Event.setDonutSpinSpeed, app.blockchainData⟩).2.1
            split <;> simp_all
        · rfl
    exact ⟨key, by rw [key, hflag]⟩

/-- Witness for C23: the approval parameters cannot be fetched (status
`500`); the game state, with `userNeedsApproval` true, is as before. -/
theorem failed_step_keeps_state_witness :
    (Blockchain.sendApprovalTransaction (scriptedEnv []) failingApiHost
      (Value.atom (Atom.str "0xA11CE")) connectedApp).2.blockchainData =
        connectedApp.blockchainData ∧
    ((Blockchain.sendApprovalTransaction (scriptedEnv []) failingApiHost
      (Value.atom (Atom.str "0xA11CE")) connectedApp).2.blockchainData.get "blaze").prop
        "userNeedsApproval" = .ok (Atom.bool true) := by
  have h := (failed_step_keeps_state (scriptedEnv []) failingApiHost connectedApp
    (Value.atom (Atom.str "0xA11CE"))).1 (fun h => by
      obtain ⟨response, _, _, _, _, _, _, h1, h2, _⟩ := h
      cases h1
      cases h2)
  exact ⟨h.1, by rw [h.2]; decide⟩

/-- C22. No wallet or network error escapes the action handlers:
`handleGlazeClick` / `openGlazeFrame`, `handleBlazeClick` and
`handleConnectWallet` always complete without throwing. A failure of the
parameter request or of the retrying submission (which carries every failure
of the wallet provider) ends in exactly one alert `Transaction failed: ...`,
`Approval failed: ...` or `Buy transaction failed: ...` with the message of
the error; a failure of `connectMetaMask` ends in the alert
`Failed to connect wallet. ...`. -/
theorem handlers_never_throw (env : Env) (host : Host) (app : App) :
    (Blockchain.handleGlazeClick env host app).1 = .ok () ∧
    (Blockchain.openGlazeFrame env host app).1 = .ok () ∧
    (Blockchain.handleBlazeClick env host app).1 = .ok () ∧
    (Blockchain.handleConnectWallet env host app).1 = .ok () ∧
    ((app.blockchainData.get "userAddress").truthy = true →
      ¬ SubmissionReturns env host Endpoint.transaction false
        (app.blockchainData.get "userAddress") (app.record Event.setDonutSpinSpeed) →
      ∃ error : JSError,
        alertsOf (Blockchain.handleGlazeClick env host app).2.world.trace =
          alertsOf app.world.trace ++ ["Transaction failed: " ++ error.message]) ∧
    (∀ flag, (app.blockchainData.get "userAddress").truthy = true →
      (app.blockchainData.get "blaze").prop "userNeedsApproval" = .ok flag →
      flag.truthy = true →
      ¬ SubmissionReturns env host Endpoint.approveLp true
        (app.blockchainData.get "userAddress") (app.record Event.setDonutSpinSpeed) →
      ∃ error : JSError,
        alertsOf (Blockchain.handleBlazeClick env host app).2.world.trace =
          alertsOf app.world.trace ++ ["Approval failed: " ++ error.message]) ∧
    (∀ flag balance price, (app.blockchainData.get "userAddress").truthy = true →
      (app.blockchainData.get "blaze").prop "userNeedsApproval" = .ok flag →
      flag.truthy = false →
      (app.blockchainData.get "blaze").prop "userLpBalanceFormatted" = .ok balance →
      (app.blockchainData.get "blaze").prop "priceFormatted" = .ok price →
      (host.parseFloat balance).lt (host.parseFloat price) = false →
      ¬ SubmissionReturns env host Endpoint.blazeTransaction true
        (app.blockchainData.get "userAddress") (app.record Event.setDonutSpinSpeed) →
      ∃ error : JSError,
        alertsOf (Blockchain.handleBlazeClick env host app).2.world.trace =
          alertsOf app.world.trace ++ ["Buy transaction failed: " ++ error.message]) ∧
    (∀ error, (WalletProvider.connectMetaMask env app.world).1 = .error error →
      alertsOf (Blockchain.handleConnectWallet env host app).2.world.trace =
        alertsOf app.world.trace ++
          ["Failed to connect wallet. Please make sure MetaMask is installed and try again."]) := by
  have hglaze : (Blockchain.openGlazeFrame env host app).1 = .ok () := by
    cases htruthy : (app.blockchainData.get "userAddress").truthy with
    | true => exact (openGlazeFrame_summary env host app htruthy).1
    | false => simp [Blockchain.openGlazeFrame, App.record, htruthy]
  have hspin : alertsOf (app.record Event.setDonutSpinSpeed).world.trace =
      alertsOf app.world.trace := by
    simp [App.record, World.record, alertsOf_append, alertsOf]
  refine ⟨hglaze, hglaze, ?_, ?_, ?_, ?_, ?_, ?_⟩
  · unfold Blockchain.handleBlazeClick
    simp only
    repeat' split
    all_goals rfl
  · unfold Blockchain.handleConnectWallet
    simp only
    repeat' split
    all_goals rfl
  · intro htruthy hn
    exact ((openGlazeFrame_summary env host app htruthy).2.2.2 hn).2
  · intro flag htruthy hflag hflagt hn
    obtain ⟨error, he⟩ := ((sendApprovalTransaction_summary env host
      (app.blockchainData.get "userAddress") (app.record Event.setDonutSpinSpeed)).2.1 hn).2.2
    refine ⟨error, ?_⟩
    rw [← hspin, ← he]
    simp only [Blockchain.handleBlazeClick, App.record, htruthy, hflag, hflagt]
    simp only [Bool.not_true, Bool.false_eq_true, if_false, if_true]
    split <;> simp_all
  · intro flag balance price htruthy hflag hflagf hbalance hprice hlt hn
    obtain ⟨error, he⟩ := ((sendBuyTransaction_summary env host
      (app.blockchainData.get "userAddress") (app.record Event.setDonutSpinSpeed)).2.2.2 hn).2
    refine ⟨error, ?_⟩
    rw [← hspin, ← he]
    simp only [Blockchain.handleBlazeClick, App.record, htruthy, hflag, hflagf, hbalance,
      hprice, hlt]
    simp only [Bool.not_true, Bool.false_eq_true, if_false]
    split <;> simp_all
  · intro error herr
    have ha := connectMetaMask_alertsOf env app.world
    rcases hc : WalletProvider.connectMetaMask env app.world with ⟨res, w1⟩
    rw [hc] at herr ha
    simp only at herr ha
    subst herr
    simp [Blockchain.handleConnectWallet, hc, App.record, World.record, alertsOf_append,
      alertsOf, ha]

/-- Witness for C22: the user rejects the MetaMask connection prompt; the
handler completes and shows the connect alert. -/
theorem handlers_never_throw_witness :
    (Blockchain.handleConnectWallet (alwaysThrows "User rejected the request.") apiHost
      unconnectedApp).1 = .ok () ∧
    alertsOf (Blockchain.handleConnectWallet (alwaysThrows "User rejected the request.") apiHost
      unconnectedApp).2.world.trace =
        ["Failed to connect wallet. Please make sure MetaMask is installed and try again."] :=
  ⟨(handlers_never_throw (alwaysThrows "User rejected the request.") apiHost
      unconnectedApp).2.2.2.1,
    (handlers_never_throw (alwaysThrows "User rejected the request.") apiHost
      unconnectedApp).2.2.2.2.2.2.2 ⟨"Error", "User rejected the request."⟩ (by decide)⟩

/-- C30. The transaction request is built from the server response: once
the parameters `to`, `data`, `value` were read from an ok response, every
attempt of the flow (between one and three) hands the wallet one and the same
request, with `from` the caller's address and `to` and `data` as the server
sent them. In the Glaze flow `value` is passed on as read, `undefined` when
absent; in the approval and buy flows a falsy `value` (absent, empty, zero)
is replaced by `0x0` and a truthy one is passed on. -/
theorem flows_build_request_from_response (env : Env) (host : Host) (app : App)
    (address : Value) (response : FetchResponse) (txData : Record) (to_ data value : Atom)
    (hok : response.ok = true) (hjson : response.json = .ok txData)
    (hparams : readParams txData = .ok (to_, data, value)) :
    ((app.blockchainData.get "userAddress").truthy = true →
      host.fetch (fetchCount app.world.trace) Endpoint.transaction
        (some (app.blockchainData.get "userAddress")) = FetchReply.resolves response →
      ∃ k, 1 ≤ k ∧ k ≤ 3 ∧
        callsOf (Blockchain.openGlazeFrame env host app).2.world.trace =
          callsOf app.world.trace ++
            List.replicate k ⟨app.blockchainData.get "userAddress", Value.atom to_,
              Value.atom data, Value.atom value⟩) ∧
    (host.fetch (fetchCount app.world.trace) Endpoint.approveLp (some address) =
        FetchReply.resolves response →
      ∃ k, 1 ≤ k ∧ k ≤ 3 ∧
        callsOf (Blockchain.sendApprovalTransaction env host address app).2.world.trace =
          callsOf app.world.trace ++
            List.replicate k ⟨address, Value.atom to_, Value.atom data,
              Value.atom (orZero value)⟩) ∧
    (host.fetch (fetchCount app.world.trace) Endpoint.blazeTransaction (some address) =
        FetchReply.resolves response →
      ∃ k, 1 ≤ k ∧ k ≤ 3 ∧
        callsOf (Blockchain.sendBuyTransaction env host address app).2.world.trace =
          callsOf app.world.trace ++
            List.replicate k ⟨address, Value.atom to_, Value.atom data,
              Value.atom (orZero value)⟩) ∧
    (value.truthy = true → orZero value = value) ∧
    (value.truthy = false → orZero value = Atom.str "0x0") ∧
    (∀ params, txData.get "params" = Value.obj params → params.lookup "value" = none →
      value = Atom.undefined) := by
  refine ⟨?_, ?_, ?_, ?_, ?_, ?_⟩
  · intro htruthy hfetch
    have hcount : fetchCount (app.record Event.setDonutSpinSpeed).world.trace =
        fetchCount app.world.trace := by
      simp [App.record, World.record, fetchCount_append, fetchCount]
    obtain ⟨k, hk1, hk3, hcalls⟩ :=
      (flowCore_spec env host Endpoint.transaction false glazeNotOk
        (app.blockchainData.get "userAddress") (app.record Event.setDonutSpinSpeed)).2.2.2.2.2.2
        response txData to_ data value (by rw [hcount]; exact hfetch) hok hjson hparams
    refine ⟨k, hk1, hk3, ?_⟩
    rw [openGlazeFrame_callsOf env host app htruthy, hcalls]
    simp [App.record, World.record, callsOf_append, callsOf, flowRequest]
  · intro hfetch
    obtain ⟨k, hk1, hk3, hcalls⟩ :=
      (flowCore_spec env host Endpoint.approveLp true approvalNotOk address app).2.2.2.2.2.2
        response txData to_ data value hfetch hok hjson hparams
    refine ⟨k, hk1, hk3, ?_⟩
    rw [sendApprovalTransaction_callsOf, hcalls]
    simp [flowRequest]
  · intro hfetch
    obtain ⟨k, hk1, hk3, hcalls⟩ :=
      (flowCore_spec env host Endpoint.blazeTransaction true buyNotOk address app).2.2.2.2.2.2
        response txData to_ data value hfetch hok hjson hparams
    refine ⟨k, hk1, hk3, ?_⟩
    rw [sendBuyTransaction_callsOf, hcalls]
    simp [flowRequest]
  · intro h; simp [orZero, h]
  · intro h; simp [orZero, h]
  · intro params hp hv
    simp only [readParams, hp, Value.prop, hv, Option.getD_none] at hparams
    simp only [Except.ok.injEq, Prod.mk.injEq] at hparams
    exact hparams.2.2.symm

/-- Witness for C30: the API sends `to`, `data` and no `value`; the approval
flow submits `value: '0x0'`, the Glaze flow submits no `value`. -/
theorem flows_build_request_from_response_witness :
    (∃ k, 1 ≤ k ∧ k ≤ 3 ∧
      callsOf (Blockchain.openGlazeFrame (scriptedEnv [Reply.returns (JSVal.str "0xABC")])
        noValueApiHost connectedApp).2.world.trace =
          callsOf connectedApp.world.trace ++
            List.replicate k ⟨connectedApp.blockchainData.get "userAddress",
              Value.atom (Atom.str "0xC0FFEE"), Value.atom (Atom.str "0x00"),
              Value.atom Atom.undefined⟩) ∧
    (∃ k, 1 ≤ k ∧ k ≤ 3 ∧
      callsOf (Blockchain.sendApprovalTransaction
        (scriptedEnv [Reply.returns (JSVal.str "0xABC")]) noValueApiHost
        (Value.atom (Atom.str "0xA11CE")) connectedApp).2.world.trace =
          callsOf connectedApp.world.trace ++
            List.replicate k ⟨Value.atom (Atom.str "0xA11CE"),
              Value.atom (Atom.str "0xC0FFEE"), Value.atom (Atom.str "0x00"),
              Value.atom (orZero Atom.undefined)⟩) ∧
    orZero Atom.undefined = Atom.str "0x0" :=
  ⟨(flows_build_request_from_response
      (scriptedEnv [Reply.returns (JSVal.str "0xABC")]) noValueApiHost
      connectedApp (Value.atom (Atom.str "0xA11CE"))
      ⟨true, 200, .ok noValueTxData, .ok ""⟩ noValueTxData
      (Atom.str "0xC0FFEE") (Atom.str "0x00") Atom.undefined rfl rfl (by decide)).1
      (by decide) rfl,
    (flows_build_request_from_response
      (scriptedEnv [Reply.returns (JSVal.str "0xABC")]) noValueApiHost
      connectedApp (Value.atom (Atom.str "0xA11CE"))
      ⟨true, 200, .ok noValueTxData, .ok ""⟩ noValueTxData
      (Atom.str "0xC0FFEE") (Atom.str "0x00") Atom.undefined rfl rfl (by decide)).2.1 rfl,
    (flows_build_request_from_response
      (scriptedEnv [Reply.returns (JSVal.str "0xABC")]) noValueApiHost
      connectedApp (Value.atom (Atom.str "0xA11CE"))
      ⟨true, 200, .ok noValueTxData, .ok ""⟩ noValueTxData
      (Atom.str "0xC0FFEE") (Atom.str "0x00") Atom.undefined rfl rfl
      (by decide)).2.2.2.2.1 (by decide)⟩

theorem lastDisabled_append (el : ElementId) (a b : List Event) :
    lastDisabled el (a ++ b) = (lastDisabled el b).or (lastDisabled el a) := by
  induction a with
  | nil => simp [lastDisabled]
  | cons e t ih =>
    have step : ∀ l, lastDisabled el (e :: l) =
        (lastDisabled el l).or (lastDisabled el [e]) := by
      intro l
      simp only [lastDisabled]
      cases lastDisabled el l <;> simp
    rw [List.cons_append, step (t ++ b), step t, ih]
    cases lastDisabled el b <;> cases lastDisabled el t <;> simp

theorem lastText_append (el : ElementId) (a b : List Event) :
    lastText el (a ++ b) = (lastText el b).or (lastText el a) := by
  induction a with
  | nil => simp [lastText]
  | cons e t ih =>
    have step : ∀ l, lastText el (e :: l) =
        (lastText el l).or (lastText el [e]) := by
      intro l
      simp only [lastText]
      cases lastText el l <;> simp
    rw [List.cons_append, step (t ++ b), step t, ih]
    cases lastText el b <;> cases lastText el t <;> simp

theorem Value.prop_of_truthy (v : Value) (k : String) (h : v.truthy = true) :
    ∃ a, v.prop k = .ok a := by
  cases v with
  | atom a => cases a <;> simp_all [Value.prop, Value.truthy, Atom.truthy]
  | obj props => exact ⟨_, rfl⟩

/-- C29. The Blaze button and the Blaze handler agree. With the button on
the page, an address set and a blaze record in the state: when
`userNeedsApproval` is falsy, `updateBlazeryUI` labels the button `Blaze`
and writes `disabled = (parsed userLpBalanceFormatted < parsed
priceFormatted)`, and the button is left disabled exactly when
`handleBlazeClick` stops at the insufficient-balance check (spin speed,
alert, nothing else); when `userNeedsApproval` is truthy the button is
labelled `Approve LP` and is enabled. -/
theorem blaze_button_agrees_with_handler (env : Env) (host : Host) (app : App)
    (flag balance price : Atom)
    (hbutton : host.hasElement ElementId.blazeActionButton = true)
    (htruthy : (app.blockchainData.get "userAddress").truthy = true)
    (hblaze : (app.blockchainData.get "blaze").truthy = true)
    (hflag : (app.blockchainData.get "blaze").prop "userNeedsApproval" = .ok flag)
    (hbalance : (app.blockchainData.get "blaze").prop "userLpBalanceFormatted" = .ok balance)
    (hprice : (app.blockchainData.get "blaze").prop "priceFormatted" = .ok price) :
    (flag.truthy = false →
      lastText ElementId.blazeActionButton (UI.updateBlazeryUI host app).world.trace =
        some "Blaze" ∧
      lastDisabled ElementId.blazeActionButton (UI.updateBlazeryUI host app).world.trace =
        some ((host.parseFloat balance).lt (host.parseFloat price)) ∧
      (lastDisabled ElementId.blazeActionButton (UI.updateBlazeryUI host app).world.trace =
          some true ↔
        Blockchain.handleBlazeClick env host app =
          (.ok (), ⟨⟨app.world.session, app.world.trace ++
            [Event.setDonutSpinSpeed,
             Event.alert ("Insufficient LP balance. Need " ++
               host.toFixed 4 (host.parseFloat price) ++ " LP but only have " ++
               host.toFixed 4 (host.parseFloat balance) ++ " LP")]⟩, app.blockchainData⟩))) ∧
    (flag.truthy = true →
      lastText ElementId.blazeActionButton (UI.updateBlazeryUI host app).world.trace =
        some "Approve LP" ∧
      lastDisabled ElementId.blazeActionButton (UI.updateBlazeryUI host app).world.trace =
        some false) := by
  obtain ⟨weth, hweth⟩ := Value.prop_of_truthy (app.blockchainData.get "blaze")
    "wethAccumulatedFormatted" hblaze
  refine ⟨?_, ?_⟩
  · intro hfalse
    have hd : lastDisabled ElementId.blazeActionButton
        (UI.updateBlazeryUI host app).world.trace =
          some ((host.parseFloat balance).lt (host.parseFloat price)) := by
      simp only [UI.updateBlazeryUI, hblaze, hflag, hbalance, hprice, hweth, hbutton, hfalse,
        App.record, World.record]
      simp [lastDisabled_append, lastDisabled]
    refine ⟨?_, hd, ?_⟩
    · simp only [UI.updateBlazeryUI, hblaze, hflag, hbalance, hprice, hweth, hbutton, hfalse,
        App.record, World.record]
      simp [lastText_append, lastText]
    · rw [hd]
      constructor
      · intro hlt
        have hlt2 : (host.parseFloat balance).lt (host.parseFloat price) = true := by
          simpa using hlt
        simp [Blockchain.handleBlazeClick, App.record, World.record, htruthy, hflag, hfalse,
          hbalance, hprice, hlt2]
      · intro hstop
        cases hlt : (host.parseFloat balance).lt (host.parseFloat price) with
        | true => rfl
        | false =>
          exfalso
          have key : Blockchain.handleBlazeClick env host app =
              (.ok (), (Blockchain.sendBuyTransaction env host
                (app.blockchainData.get "userAddress")
                (app.record Event.setDonutSpinSpeed)).2) := by
            simp only [Blockchain.handleBlazeClick, App.record, World.record, htruthy, hflag,
              hfalse, hbalance, hprice, hlt]
            simp only [Bool.not_true, Bool.false_eq_true, if_false]
            split <;> simp_all
          have hf := sendBuyTransaction_fetchesOf env host
            (app.blockchainData.get "userAddress") (app.record Event.setDonutSpinSpeed)
          rw [key] at hstop
          have h2 := congrArg (fun r => fetchesOf r.2.world.trace) hstop
          simp only at h2
          rw [hf] at h2
          simp [App.record, World.record, fetchesOf_append, fetchesOf] at h2
  · intro htrue
    refine ⟨?_, ?_⟩
    · simp only [UI.updateBlazeryUI, hblaze, hflag, hbalance, hprice, hweth, hbutton, htrue,
        App.record, World.record]
      simp [lastText_append, lastText]
    · simp only [UI.updateBlazeryUI, hblaze, hflag, hbalance, hprice, hweth, hbutton, htrue,
        App.record, World.record]
      simp [lastDisabled_append, lastDisabled]

/-- Witness for C29: balance `1` against price `2` disables the button and
the handler stops at the check; with the approval flag set the button reads
`Approve LP` and is enabled. -/
theorem blaze_button_agrees_with_handler_witness :
    lastDisabled ElementId.blazeActionButton
      (UI.updateBlazeryUI blazeryHost approvedPoorApp).world.trace = some true ∧
    lastText ElementId.blazeActionButton
      (UI.updateBlazeryUI blazeryHost unapprovedApp).world.trace = some "Approve LP" ∧
    lastDisabled ElementId.blazeActionButton
      (UI.updateBlazeryUI blazeryHost unapprovedApp).world.trace = some false :=
  ⟨((blaze_button_agrees_with_handler (scriptedEnv []) blazeryHost approvedPoorApp
      (Atom.bool false) (Atom.str "1") (Atom.str "2") rfl (by decide) (by decide)
      (by decide) (by decide) (by decide)).1 (by decide)).2.1,
    (blaze_button_agrees_with_handler (scriptedEnv []) blazeryHost unapprovedApp
      (Atom.bool true) (Atom.str "2") (Atom.str "1") rfl (by decide) (by decide)
      (by decide) (by decide) (by decide)).2 (by decide)⟩

theorem lookup_map_set_ne {α : Type} (k k1 : String) (v : α) (h : k ≠ k1) :
    ∀ l : List (String × α),
      (l.map fun kv => if kv.1 == k1 then (kv.1, v) else kv).lookup k = l.lookup k := by
  intro l
  induction l with
  | nil => simp
  | cons kv t ih =>
    obtain ⟨k2, x⟩ := kv
    rw [List.map_cons]
    by_cases hk : k2 = k1
    · subst hk
      have hne : (k == k2) = false := by simpa using h
      simp only [beq_self_eq_true, if_true]
      rw [List.lookup_cons, List.lookup_cons, hne]
      exact ih
    · have hne : (k2 == k1) = false := by simpa using hk
      simp only [hne]
      rw [List.lookup_cons, List.lookup_cons, ih]
      rfl

theorem lookup_assocSet_ne {α : Type} (l : List (String × α)) (k k1 : String) (v : α)
    (h : k ≠ k1) : (assocSet l k1 v).lookup k = l.lookup k := by
  unfold assocSet
  split
  · exact lookup_map_set_ne k k1 v h l
  · have hne : (k == k1) = false := by simpa using h
    rw [List.lookup_append]
    simp [List.lookup_cons, hne]

theorem lookup_assocAssign_absent {α : Type} (k : String) :
    ∀ (src t : List (String × α)), src.lookup k = none →
      (assocAssign t src).lookup k = t.lookup k := by
  intro src
  induction src with
  | nil => intro t _; rfl
  | cons kv rest ih =>
    obtain ⟨k1, v1⟩ := kv
    intro t h
    rw [List.lookup_cons] at h
    cases hk : (k == k1) with
    | true => rw [hk] at h; cases h
    | false =>
      rw [hk] at h
      have hne : k ≠ k1 := by simpa using hk
      show (assocAssign (assocSet t k1 v1) rest).lookup k = t.lookup k
      rw [ih _ h, lookup_assocSet_ne _ _ _ _ hne]

theorem lookup_assocAssign_present {α : Type} (k : String) (v : α) :
    ∀ (src t : List (String × α)), (src.map Prod.fst).Nodup → src.lookup k = some v →
      (assocAssign t src).lookup k = some v := by
  intro src
  induction src with
  | nil => intro t _ h; cases h
  | cons kv rest ih =>
    obtain ⟨k1, v1⟩ := kv
    intro t hnd h
    rw [List.map_cons, List.nodup_cons] at hnd
    rw [List.lookup_cons] at h
    show (assocAssign (assocSet t k1 v1) rest).lookup k = some v
    cases hk : (k == k1) with
    | true =>
      rw [hk] at h
      have hkeq : k = k1 := by simpa using hk
      subst hkeq
      have hv : v1 = v := by simpa using h
      subst hv
      have hrest : rest.lookup k = none := by
        rw [List.lookup_eq_none_iff]
        intro p hp
        have hpk : k ≠ p.1 := by
          intro hpk
          apply hnd.1
          show k ∈ List.map Prod.fst rest
          rw [hpk]
          exact List.mem_map_of_mem Prod.fst hp
        simpa using hpk
      rw [lookup_assocAssign_absent k rest _ hrest, lookup_assocSet_self]
    | false =>
      rw [hk] at h
      exact ih _ hnd.2 h

theorem fetchGameState_blockchainData (host : Host) (userAddress : Value) (app : App)
    (response : FetchResponse) (data state data1 : Record)
    (hfetch : host.fetch (fetchCount app.world.trace) Endpoint.getGameState
      (if userAddress.truthy then some userAddress else none) = FetchReply.resolves response)
    (hok : response.ok = true) (hjson : response.json = .ok data)
    (hassign : assignBlaze (app.blockchainData.assign data) data = .ok (state, data1)) :
    (Blockchain.fetchGameState host userAddress app).2.blockchainData = state := by
  simp only [Blockchain.fetchGameState, fetch, hfetch, hok, hjson, App.record, hassign,
    Bool.not_true, Bool.false_eq_true, if_false]
  cases host.updateUI state with
  | some _ => rfl
  | none =>
    exact (updateBlazeryUI_displayOnly host
      ⟨(app.world.record (Event.fetch Endpoint.getGameState
        (if userAddress.truthy then some userAddress else none))).record Event.updateUI,
        state⟩).1

/-- C25, as stated, fails: the response `{"blaze": null}` has no blaze
object, and yet a refresh that receives it (and returns its data) replaces
the blaze record of the state by `null`. -/
theorem fetchGameState_null_blaze_replaces_record :
    (Blockchain.fetchGameState nullBlazeHost (Value.atom (Atom.str "0xA11CE"))
        approvedRichApp).1 = .ok (FetchResult.data [("blaze", Value.atom Atom.null)]) ∧
      approvedRichApp.blockchainData.get "blaze" =
        Value.obj [("priceFormatted", Atom.str "1"), ("userLpBalanceFormatted", Atom.str "2"),
          ("userNeedsApproval", Atom.bool false)] ∧
      (Blockchain.fetchGameState nullBlazeHost (Value.atom (Atom.str "0xA11CE"))
        approvedRichApp).2.blockchainData.get "blaze" = Value.atom Atom.null := by
  decide

/-- C25, amended. After a `fetchGameState` whose response is ok and parses
to an object `data` (with distinct property names): when `data.blaze` is an
object, `State.blockchainData.blaze.userNeedsApproval` is the server's value
if that is not `undefined` and `true` otherwise; when `data` has no `blaze`
property at all, the blaze record of the state, and with it the flag, is
left as it was; a `blaze` that is present but falsy (`null`, `false`, `0`,
the empty string) replaces the record of the state. -/
theorem fetchGameState_blaze_flag (host : Host) (userAddress : Value) (app : App)
    (response : FetchResponse) (data : Record)
    (hfetch : host.fetch (fetchCount app.world.trace) Endpoint.getGameState
      (if userAddress.truthy then some userAddress else none) = FetchReply.resolves response)
    (hok : response.ok = true) (hjson : response.json = .ok data)
    (hkeys : (data.map Prod.fst).Nodup) :
    (∀ src, data.lookup "blaze" = some (Value.obj src) →
      ((Blockchain.fetchGameState host userAddress app).2.blockchainData.get "blaze").prop
          "userNeedsApproval" =
        .ok (if (src.lookup "userNeedsApproval").getD Atom.undefined ≠ Atom.undefined
          then (src.lookup "userNeedsApproval").getD Atom.undefined else Atom.bool true)) ∧
    (data.lookup "blaze" = none →
      (Blockchain.fetchGameState host userAddress app).2.blockchainData.get "blaze" =
        app.blockchainData.get "blaze") ∧
    (∀ v, data.lookup "blaze" = some v → v.truthy = false →
      (Blockchain.fetchGameState host userAddress app).2.blockchainData.get "blaze" = v) := by
  refine ⟨?_, ?_, ?_⟩
  · intro src hsrc
    have hstate : (app.blockchainData.assign data).get "blaze" = Value.obj src := by
      simp [Record.get, Record.assign,
        lookup_assocAssign_present "blaze" (Value.obj src) data app.blockchainData hkeys hsrc]
    have hdata : data.get "blaze" = Value.obj src := by simp [Record.get, hsrc]
    have hassign : assignBlaze (app.blockchainData.assign data) data =
        .ok ((app.blockchainData.assign data).set "blaze"
          (Value.obj (assocSet (assocAssign src src) "userNeedsApproval"
            (if (src.lookup "userNeedsApproval").getD Atom.undefined ≠ Atom.undefined
              then (src.lookup "userNeedsApproval").getD Atom.undefined else Atom.bool true))),
          data.set "blaze"
          (Value.obj (assocSet (assocAssign src src) "userNeedsApproval"
            (if (src.lookup "userNeedsApproval").getD Atom.undefined ≠ Atom.undefined
              then (src.lookup "userNeedsApproval").getD Atom.undefined
              else Atom.bool true)))) := by
      simp only [assignBlaze, hdata, hstate, Value.truthy, Value.prop, if_true]
    rw [fetchGameState_blockchainData host userAddress app response data _ _ hfetch hok hjson
      hassign, Record.get_set_self]
    simp only [Value.prop, lookup_assocSet_self, Option.getD_some]
  · intro hnone
    have hdata : data.get "blaze" = Value.atom Atom.undefined := by simp [Record.get, hnone]
    have hassign : assignBlaze (app.blockchainData.assign data) data =
        .ok (app.blockchainData.assign data, data) := by
      simp [assignBlaze, hdata, Value.truthy, Atom.truthy]
    rw [fetchGameState_blockchainData host userAddress app response data _ _ hfetch hok hjson
      hassign]
    simp [Record.get, Record.assign,
      lookup_assocAssign_absent "blaze" data app.blockchainData hnone]
  · intro v hv hfalsy
    have hdata : data.get "blaze" = v := by simp [Record.get, hv]
    have hassign : assignBlaze (app.blockchainData.assign data) data =
        .ok (app.blockchainData.assign data, data) := by
      simp [assignBlaze, hdata, hfalsy]
    rw [fetchGameState_blockchainData host userAddress app response data _ _ hfetch hok hjson
      hassign]
    simp [Record.get, Record.assign,
      lookup_assocAssign_present "blaze" v data app.blockchainData hkeys hv]

/-- Witness for the amended C25: the state says the LP token is approved (flag `false`);
a refresh whose `blaze` object omits the flag sets it back to `true`. -/
theorem fetchGameState_blaze_flag_witness :
    (approvedRichApp.blockchainData.get "blaze").prop "userNeedsApproval" =
        .ok (Atom.bool false) ∧
      ((Blockchain.fetchGameState omittedFlagHost (Value.atom (Atom.str "0xA11CE"))
        approvedRichApp).2.blockchainData.get "blaze").prop "userNeedsApproval" =
          .ok (Atom.bool true) :=
  ⟨by decide,
    (fetchGameState_blaze_flag omittedFlagHost (Value.atom (Atom.str "0xA11CE"))
      approvedRichApp
      ⟨true, 200, .ok [("blaze", Value.obj
        [("priceFormatted", Atom.str "1"), ("userLpBalanceFormatted", Atom.str "2")])],
        .ok ""⟩
      [("blaze", Value.obj
        [("priceFormatted", Atom.str "1"), ("userLpBalanceFormatted", Atom.str "2")])]
      rfl rfl rfl (by decide)).1
      [("priceFormatted", Atom.str "1"), ("userLpBalanceFormatted", Atom.str "2")] rfl⟩

end DonutMiner
